import Mathlib

/-!
# pulseaudio-modules-nemo: shared-data store, step search, stream-restore entries

Shallow embedding of

* `src/common/shared-data.c` (the typed key/value store with change hooks),
* `src/mainvolume/mainvolume.c` (`mv_search_step`),
* `src/stream-restore-nemo/module-stream-restore-nemo.c` (`entry_write`, `entry_read`).

Conventions of the embedding

* A C string is the list of its bytes before the terminating NUL; a heap block is the
  list of all its bytes (terminator included).
* `int32_t` values are `Int`; arithmetic that can leave the range is reduced with
  `wrap32` (two's complement, as compiled).
* An operation whose C behaviour is not determined by the abstract state (reading a
  heap address as an integer, freeing or dereferencing a pointer that holds a packed
  integer, reading past a buffer) yields `none`.
* `pa_hook_fire` is recorded as an event: every operation returns the list of keys
  whose `changed_hook` it fired, in order.  The callbacks connected to a hook are
  code outside the store and are not run by the model.
-/

namespace SharedData

/-! ## Data model (`shared-data.c`, lines 38-60) -/

/-- The C enumeration `shared_item_type` (without the `SHARED_ITEM_` prefix and
without the count value `SHARED_ITEM_MAX`). -/
inductive shared_item_type
  | NONE
  | BOOL
  | INTEGER
  | STR
  | DATA
  deriving DecidableEq, Repr

open shared_item_type

/-- The `void *value` field of an item.  `word w` is a pointer-sized word produced by
`PA_INT_TO_PTR`/`PA_UINT_TO_PTR` (so `word 0` is `NULL`); `heap b` is the address of a
block returned by `pa_xstrdup`/`pa_xmalloc` whose content is `b`. -/
inductive Ptr
  | word (w : Int)
  | heap (bytes : List Nat)
  deriving DecidableEq, Repr

open Ptr

/-- The C struct `shared_item`; `changed_hook` keeps the number of connected slots. -/
structure shared_item where
  key : String
  type : shared_item_type
  value : Ptr
  nbytes : Nat
  changed_hook : Nat
  deriving DecidableEq, Repr

/-- The `items` hashmap of `struct pa_shared_data`, in insertion order. -/
abbrev pa_shared_data := List shared_item

/-- Functions and constants of the hosting library that the store calls. -/
structure Host where
  /-- The validator `pa_proplist_key_valid` of libpulse. -/
  pa_proplist_key_valid : String → Bool
  /-- The validator `pa_utf8_valid` of libpulse, on the bytes of a C string. -/
  pa_utf8_valid : List Nat → Bool
  /-- The constant `sizeof(void*)`. -/
  sizeof_ptr : Nat

/-- What a call leaves behind: return value, store, and the keys passed to
`pa_hook_fire`. -/
structure Result (α : Type) where
  ret : α
  store : pa_shared_data
  fired : List String
  deriving DecidableEq, Repr

/-- Reduction of an integer to `int32_t`. -/
def wrap32 (x : Int) : Int := (x + 2147483648) % 4294967296 - 2147483648

/-- Membership in the range of `int32_t`. -/
def is_int32 (x : Int) : Prop := -2147483648 ≤ x ∧ x ≤ 2147483647

instance (x : Int) : Decidable (is_int32 x) := by unfold is_int32; infer_instance

/-- The C macro `PA_INT_TO_PTR`. -/
def PA_INT_TO_PTR (v : Int) : Ptr := word v

/-- The C macro `PA_UINT_TO_PTR`, applied to a `bool`. -/
def PA_UINT_TO_PTR (b : Bool) : Ptr := word (if b then 1 else 0)

/-- The C macro `PA_PTR_TO_INT`: the low 32 bits as `int`; a heap address has no
value in the model. -/
def PA_PTR_TO_INT : Ptr → Option Int
  | word w => some (wrap32 w)
  | heap _ => none

/-- The C macro `PA_PTR_TO_UINT`: the low 32 bits as `unsigned`. -/
def PA_PTR_TO_UINT : Ptr → Option Int
  | word w => some (w % 4294967296)
  | heap _ => none

/-- The C test `if (p)`. -/
def non_null : Ptr → Bool
  | word w => w != 0
  | heap _ => true

/-- The C string that starts at the beginning of a block. -/
def cstr (buf : List Nat) : List Nat := buf.takeWhile (fun b => b != 0)

/-- The lookup `pa_hashmap_get(items, key)`. -/
def pa_hashmap_get (items : pa_shared_data) (key : String) : Option shared_item :=
  items.find? (fun i => i.key == key)

/-- Write-back of an item that was obtained from the map (the C code mutates the item
through its pointer): the first item of that key is replaced. -/
def item_put : pa_shared_data → shared_item → pa_shared_data
  | [], _ => []
  | i :: rest, item => if i.key = item.key then item :: rest else i :: item_put rest item

/-- The C function `item_get` (get or create); `pa_xnew0` zeroes the new item. -/
def item_get (items : pa_shared_data) (key : String) : shared_item × pa_shared_data :=
  match pa_hashmap_get items key with
  | some item => (item, items)
  | none =>
    let item : shared_item := ⟨key, NONE, word 0, 0, 0⟩
    (item, items ++ [item])

/-! ## Operations (`shared-data.c`, lines 144-382) -/

/-- The C function `pa_shared_data_connect`; the slot itself is not modelled. -/
def pa_shared_data_connect (t : pa_shared_data) (key : String) : Result Unit :=
  let (item, items) := item_get t key
  ⟨(), item_put items { item with changed_hook := item.changed_hook + 1 }, []⟩

/-- The C function `pa_shared_data_set_boolean`. -/
def pa_shared_data_set_boolean (h : Host) (t : pa_shared_data) (key : String)
    (value : Bool) : Option (Result Int) :=
  let (item, items) := item_get t key
  if item.type ≠ NONE ∧ item.type ≠ BOOL then some ⟨-1, items, []⟩
  else do
    let changed₁ := decide (item.type = NONE)
    let changed₂ ←
      if item.type = BOOL then do
        let u ← PA_PTR_TO_UINT item.value
        pure (value != (u != 0))
      else pure false
    let changed := changed₁ || changed₂
    let item := { item with type := BOOL, value := PA_UINT_TO_PTR value,
                            nbytes := h.sizeof_ptr }
    pure ⟨0, item_put items item, if changed then [item.key] else []⟩

/-- The C function `pa_shared_data_get_boolean`. -/
def pa_shared_data_get_boolean (t : pa_shared_data) (key : String) :
    Option (Result Bool) :=
  let (item, items) := item_get t key
  if item.type = BOOL then do
    let u ← PA_PTR_TO_UINT item.value
    pure ⟨u != 0, items, []⟩
  else if item.type = NONE then some ⟨false, items, []⟩
  else if non_null item.value then some ⟨true, items, []⟩
  else some ⟨false, items, []⟩

/-- The C function `pa_shared_data_get_integer`; the second component of the return
value is what was stored through `return_value`. -/
def pa_shared_data_get_integer (h : Host) (t : pa_shared_data) (key : String) :
    Option (Result (Int × Option Int)) :=
  if !h.pa_proplist_key_valid key then some ⟨(-1, none), t, []⟩
  else
    match pa_hashmap_get t key with
    | none => some ⟨(-1, none), t, []⟩
    | some _ =>
      let (item, items) := item_get t key
      if item.type ≠ INTEGER then some ⟨(-1, none), items, []⟩
      else do
        let v ← PA_PTR_TO_INT item.value
        pure ⟨(0, some v), items, []⟩

/-- The C function `pa_shared_data_set_integer`. -/
def pa_shared_data_set_integer (h : Host) (t : pa_shared_data) (key : String)
    (value : Int) : Option (Result Int) :=
  if !h.pa_proplist_key_valid key then some ⟨-1, t, []⟩
  else
    let (item, items) := item_get t key
    if item.type = NONE then
      let item := { item with type := INTEGER, value := PA_INT_TO_PTR value,
                              nbytes := h.sizeof_ptr }
      let item := { item with value := PA_INT_TO_PTR value }
      some ⟨0, item_put items item, [item.key]⟩
    else if item.type = INTEGER then do
      let cur ← PA_PTR_TO_INT item.value
      if cur = value then pure ⟨0, items, []⟩
      else
        let item := { item with value := PA_INT_TO_PTR value }
        pure ⟨0, item_put items item, [item.key]⟩
    else some ⟨-1, items, []⟩

/-- The C function `pa_shared_data_inc_integer`; the sum is taken in `int32_t`.  The
type test of the `else if` branch is made first, the initialisation of an untyped item
after it. -/
def pa_shared_data_inc_integer (h : Host) (t : pa_shared_data) (key : String)
    (change : Int) : Option (Result Int) :=
  if change = 0 then some ⟨0, t, []⟩
  else if !h.pa_proplist_key_valid key then some ⟨-1, t, []⟩
  else
    let (item, items) := item_get t key
    if item.type ≠ NONE ∧ item.type ≠ INTEGER then some ⟨-1, items, []⟩
    else do
      let item :=
        if item.type = NONE then
          { item with value := PA_INT_TO_PTR 0, type := INTEGER, nbytes := h.sizeof_ptr }
        else item
      let cur ← PA_PTR_TO_INT item.value
      let new_value := wrap32 (change + cur)
      if new_value ≠ cur then
        let item := { item with value := PA_INT_TO_PTR new_value }
        pure ⟨0, item_put items item, [item.key]⟩
      else pure ⟨0, item_put items item, []⟩

/-- The C function `shared_data_sets`. -/
def shared_data_sets (h : Host) (t : pa_shared_data) (key : String) (value : List Nat)
    (fire_always : Bool) : Option (Result Int) :=
  if !h.pa_proplist_key_valid key || !h.pa_utf8_valid value then some ⟨-1, t, []⟩
  else
    let (item, items) := item_get t key
    if item.type ≠ NONE ∧ item.type ≠ STR then some ⟨-1, items, []⟩
    else do
      let changed ←
        match item.value with
        | word w => if w = 0 then some true else none
        | heap buf => some (!(cstr buf == value))
      let fired := if fire_always || changed then [item.key] else []
      if changed then
        let item := { item with type := STR, value := heap (value ++ [0]),
                                nbytes := value.length + 1 }
        pure ⟨0, item_put items item, fired⟩
      else pure ⟨0, items, fired⟩

/-- The C function `pa_shared_data_sets_always`. -/
def pa_shared_data_sets_always (h : Host) (t : pa_shared_data) (key : String)
    (value : List Nat) : Option (Result Int) :=
  shared_data_sets h t key value true

/-- The C function `pa_shared_data_sets`. -/
def pa_shared_data_sets (h : Host) (t : pa_shared_data) (key : String)
    (value : List Nat) : Option (Result Int) :=
  shared_data_sets h t key value false

/-- The C function `pa_shared_data_gets`: the returned pointer. -/
def pa_shared_data_gets (t : pa_shared_data) (key : String) : Result Ptr :=
  let (item, items) := item_get t key
  if item.type = STR then ⟨item.value, items, []⟩ else ⟨word 0, items, []⟩

/-- The C function `pa_shared_data_setd`; `data` is the memory at the argument
pointer, of which `nbytes` bytes are copied. -/
def pa_shared_data_setd (h : Host) (t : pa_shared_data) (key : String)
    (data : List Nat) (nbytes : Nat) : Option (Result Int) :=
  if !h.pa_proplist_key_valid key then some ⟨-1, t, []⟩
  else
    let (item, items) := item_get t key
    match item.value with
    | word w =>
      if w ≠ 0 then none
      else if data.length < nbytes then none
      else
        let item := { item with value := heap (data.take nbytes ++ [0]) }
        some ⟨0, item_put items item, [item.key]⟩
    | heap _ =>
      if data.length < nbytes then none
      else
        let item := { item with value := heap (data.take nbytes ++ [0]) }
        some ⟨0, item_put items item, [item.key]⟩

/-- The C function `pa_shared_data_getd`; the return value carries what was stored
through `data` and `nbytes`. -/
def pa_shared_data_getd (h : Host) (t : pa_shared_data) (key : String) :
    Result (Int × Option (Ptr × Nat)) :=
  if !h.pa_proplist_key_valid key then ⟨(-1, none), t, []⟩
  else
    let (item, items) := item_get t key
    ⟨(0, some (item.value, item.nbytes)), items, []⟩

/-- The C function `pa_shared_data_has_key`. -/
def pa_shared_data_has_key (t : pa_shared_data) (key : String) : Bool :=
  (pa_hashmap_get t key).isSome

/-- A host for the concrete examples: `pa_proplist_key_valid` accepts exactly the
non-empty ASCII keys, as in libpulse; `pa_utf8_valid` is given on ASCII text only,
where it agrees with the UTF-8 validator of libpulse (the examples use no other
text); pointers have 8 bytes. -/
def pulse : Host where
  pa_proplist_key_valid := fun k => !k.data.isEmpty && k.data.all (fun c => decide (c.toNat < 128))
  pa_utf8_valid := fun v => v.all (fun b => decide (0 < b ∧ b < 128))
  sizeof_ptr := 8

/-- The calls of the store that report failure through their return value. -/
inductive Call
  | set_boolean (key : String) (value : Bool)
  | set_integer (key : String) (value : Int)
  | inc_integer (key : String) (change : Int)
  | sets (key : String) (value : List Nat)
  | sets_always (key : String) (value : List Nat)
  | setd (key : String) (data : List Nat) (nbytes : Nat)
  | get_integer (key : String)
  | getd (key : String)

/-- Summary of a call: return code, store and fired hooks. -/
def summary {α : Type} (code : α → Int) (r : Result α) : Result Int :=
  ⟨code r.ret, r.store, r.fired⟩

/-- Dispatch of a call to the function of the same name. -/
def Call.run (h : Host) (t : pa_shared_data) : Call → Option (Result Int)
  | .set_boolean key value => pa_shared_data_set_boolean h t key value
  | .set_integer key value => pa_shared_data_set_integer h t key value
  | .inc_integer key change => pa_shared_data_inc_integer h t key change
  | .sets key value => pa_shared_data_sets h t key value
  | .sets_always key value => pa_shared_data_sets_always h t key value
  | .setd key data nbytes => pa_shared_data_setd h t key data nbytes
  | .get_integer key => (pa_shared_data_get_integer h t key).map (summary Prod.fst)
  | .getd key => some (summary Prod.fst (pa_shared_data_getd h t key))

/-- The text found at `item->value` of the item of a key, whatever its type: what
`pa_streq(item->value, value)` in `shared_data_sets` compares the new text with.  It is
not what `pa_shared_data_gets` returns, which is `NULL` unless the type is
`SHARED_ITEM_STR`. -/
def stored_text (t : pa_shared_data) (key : String) : Option (List Nat) :=
  match pa_hashmap_get t key with
  | some item =>
    match item.value with
    | heap buf => some (cstr buf)
    | word _ => none
  | none => none

/-- The items of `t` are found in `s` with the type, value and byte length they have
in `t`. -/
def keeps_items (t s : pa_shared_data) : Prop :=
  ∀ k i, pa_hashmap_get t k = some i →
    ∃ j, pa_hashmap_get s k = some j ∧ j.type = i.type ∧ j.value = i.value ∧
      j.nbytes = i.nbytes

end SharedData

namespace MainVolume

/-! ## Step search (`mainvolume.c`, lines 91-120) -/

/-- The `while (low < high)` loop of `mv_search_step`, run for at most `fuel`
iterations: `none` when the iterations are used up before the loop condition fails or
when `steps[mid]` lies outside the table, otherwise the final value of `low`. -/
def search_loop (steps : List Nat) (vol : Nat) : Nat → Nat → Nat → Option Nat
  | 0, low, high => if low < high then none else some low
  | fuel + 1, low, high =>
    if low < high then
      let mid := low + (high - low) / 2
      match steps[mid]? with
      | none => none
      | some s =>
        if s < vol then search_loop steps vol fuel (mid + 1) high
        else search_loop steps vol fuel low mid
    else some low

/-- The C function `mv_search_step`; `n_steps - 1` is computed in `uint32_t`.  The loop
is given `n_steps` iterations. -/
def mv_search_step (steps : List Nat) (n_steps : Nat) (vol : Nat) : Option Nat :=
  match search_loop steps vol n_steps 0 n_steps with
  | none => none
  | some low =>
    if low < n_steps then some low
    else some ((n_steps + 4294967296 - 1) % 4294967296)

/-! ## Step strings (`mainvolume.c`, lines 122-293)

A C string is the list of its characters.  `MAX_STEPS` is a constant of `mainvolume.h`
and `pa_atoi` the integer reader of the hosting library (`pulsecore/core-util.c`); both
are parameters.  `pa_atoi text = none` stands for a non-zero return value. -/

/-- The `while` loop of `parse_single_steps`, run for at most `fuel` rounds.  `rest`
holds the characters `step_string[i]`, ..., `step_string[len - 1]`, `count` is the
counter and `steps_mB` lists the values assigned to `steps_mB[0]`, `steps_mB[1]`, ...
so far (the round with counter `count` assigns `steps_mB[count]`).  The result is the
return value with the assigned values, `none` when the rounds are used up. -/
def parse_loop (MAX_STEPS : Nat) (pa_atoi : List Char → Option Int) :
    Nat → List Char → Nat → List Int → Option (Nat × List Int)
  | 0, _, _, _ => none
  | fuel + 1, rest, count, steps_mB =>
    if rest ≠ [] ∧ count < MAX_STEPS then
      let rest := rest.dropWhile (fun c => c != ':')
      if rest = [] then some (0, steps_mB)
      else
        let rest := rest.tail
        let step := rest.takeWhile (fun c => c != ',')
        let rest := rest.dropWhile (fun c => c != ',')
        if step.length < 1 ∨ step.length > 15 then some (0, steps_mB)
        else
          match pa_atoi step with
          | none => some (0, steps_mB)
          | some value =>
            parse_loop MAX_STEPS pa_atoi fuel rest (count + 1) (steps_mB ++ [value])
    else some (count, steps_mB)

/-- The C function `parse_single_steps`; `none` as argument is the `NULL` string.
`len` is `strlen` stored in a `uint32_t`; the loop is given `len + 1` rounds. -/
def parse_single_steps (MAX_STEPS : Nat) (pa_atoi : List Char → Option Int)
    (step_string : Option (List Char)) : Option (Nat × List Int) :=
  match step_string with
  | none => some (0, [])
  | some s =>
    let len := s.length % 4294967296
    parse_loop MAX_STEPS pa_atoi (len + 1) (s.take len) 0 []

/-- One pair of a step string: the label, the text of the value, and the integer that
`pa_atoi` reads from that text. -/
structure step_pair where
  label : List Char
  value : List Char
  mB : Int
  deriving DecidableEq, Repr

/-- The text `label:value,label:value,...` of a list of pairs. -/
def steps_text : List step_pair → List Char
  | [] => []
  | [p] => p.label ++ ':' :: p.value
  | p :: q :: ps => p.label ++ ':' :: p.value ++ ',' :: steps_text (q :: ps)

/-- A pair that `parse_single_steps` accepts: no colon in the label, a value of 1 to 15
characters without comma, which `pa_atoi` reads as `mB`. -/
def step_pair_ok (pa_atoi : List Char → Option Int) (p : step_pair) : Prop :=
  ':' ∉ p.label ∧ ',' ∉ p.value ∧ 1 ≤ p.value.length ∧ p.value.length ≤ 15 ∧
    pa_atoi p.value = some p.mB

instance (pa_atoi : List Char → Option Int) (p : step_pair) :
    Decidable (step_pair_ok pa_atoi p) := by unfold step_pair_ok; infer_instance

/-- A reader for examples: `pa_atoi` on the texts of decimal digits without sign and
without leading zero, below `2^31`; every other text is refused here. -/
def digits_atoi (s : List Char) : Option Int :=
  if s ≠ [] ∧ s.all (fun c => decide (48 ≤ c.toNat ∧ c.toNat ≤ 57)) = true ∧
      (s.head? ≠ some '0' ∨ s.length = 1) then
    let v := s.foldl (fun n c => 10 * n + (c.toNat - 48)) 0
    if v < 2147483648 then some (Int.ofNat v) else none
  else none

/-- The structure `mv_volume_steps` of `mainvolume.h`. -/
structure mv_volume_steps where
  step : List Nat
  n_steps : Nat
  current_step : Nat
  deriving DecidableEq, Repr

/-- The structure `mv_volume_steps_set` of `mainvolume.h`, with the fields that
`mainvolume.c` assigns. -/
structure mv_volume_steps_set where
  route : String
  call : mv_volume_steps
  media : mv_volume_steps
  has_high_volume_step : Bool
  high_volume_step : Nat
  first : Bool
  deriving DecidableEq, Repr

/-- The constant `PA_VOLUME_MUTED` of libpulse. -/
def PA_VOLUME_MUTED : Nat := 0

/-- The C function `normalize_steps`; `steps_mB` holds the assigned cells of the array
and `from_mB value` stands for `pa_sw_volume_from_dB((double) value / 100.0)`.  The
result is `none` when the assertion fails or an unassigned cell is read. -/
def normalize_steps (from_mB : Int → Nat) (steps_mB : List Int) (count : Nat) :
    Option mv_volume_steps :=
  if count > 0 then do
    let step ← (List.range count).mapM (fun i => do
      let value ← steps_mB[i]?
      pure (if i = 0 ∧ value ≤ -20000 then PA_VOLUME_MUTED else from_mB value))
    pure ⟨step, count, 0⟩
  else none

/-- The C function `parse_high_volume_step`: return value, `*has_high_volume` and
`*high_volume_step`.  `set->media.n_steps - 1` is computed in `uint32_t`. -/
def parse_high_volume_step (pa_atoi : List Char → Option Int) (set : mv_volume_steps_set)
    (high_volume : Option (List Char)) : Bool × Bool × Nat :=
  match high_volume with
  | none => (false, false, 0)
  | some text =>
    match pa_atoi text with
    | none => (false, false, 0)
    | some step =>
      if step < 1 then (false, false, 0)
      else if (step % 4294967296).toNat > (set.media.n_steps + 4294967296 - 1) % 4294967296 then
        (false, false, 0)
      else (true, true, (step % 4294967296).toNat)

/-- The call `pa_hashmap_put(u->steps, set->route, set)`: a set whose route is already
a key is not stored. -/
def pa_hashmap_put (steps : List mv_volume_steps_set) (set : mv_volume_steps_set) :
    List mv_volume_steps_set :=
  if steps.any (fun s => s.route == set.route) then steps else steps ++ [set]

/-- The C function `mv_parse_steps` on the hashmap `u->steps`: the return value with the
hashmap afterwards; `none` when an assertion fails. -/
def mv_parse_steps (MAX_STEPS : Nat) (pa_atoi : List Char → Option Int)
    (from_mB : Int → Nat) (steps : List mv_volume_steps_set) (route : String)
    (step_string_call step_string_media high_volume : Option (List Char)) :
    Option (Bool × List mv_volume_steps_set) :=
  if step_string_call = none ∨ step_string_media = none then some (false, steps)
  else do
    let (call_steps_count, call_steps_mB) ← parse_single_steps MAX_STEPS pa_atoi step_string_call
    if call_steps_count < 1 then some (false, steps)
    else do
      let call ← normalize_steps from_mB call_steps_mB call_steps_count
      let (media_steps_count, media_steps_mB) ←
        parse_single_steps MAX_STEPS pa_atoi step_string_media
      if media_steps_count < 1 then some (false, steps)
      else do
        let media ← normalize_steps from_mB media_steps_mB media_steps_count
        let set : mv_volume_steps_set := ⟨route, call, media, false, 0, true⟩
        let (_, has_high_volume_step, high_volume_step) :=
          parse_high_volume_step pa_atoi set high_volume
        let set : mv_volume_steps_set :=
          ⟨route, call, media, has_high_volume_step, high_volume_step, true⟩
        some (true, pa_hashmap_put steps set)

/-! ## Module state (`mainvolume.c`, lines 47-55 and 286-357;
`module-meego-mainvolume.c`, lines 403-485 and 1340-1532)

The declaration of `struct mv_userdata` is in `mainvolume.h`; the record below has the
fields that the functions of this section read or assign. -/

/-- The record `struct mv_userdata`.  `current_steps` is the set the pointer refers to,
`notifier_mode_active` and `notifier_media_state` are the fields `notifier.mode_active`
and `notifier.media_state`, and the timer `volume_unmute_time_event` is held as its
deadline in microseconds. -/
structure mv_userdata where
  current_steps : Option mv_volume_steps_set
  call_active : Bool
  notifier_mode_active : Bool
  notifier_media_state : Nat
  prev_state : Int
  mute_routing_active : Bool
  volume_sync_delay_ms : Nat
  volume_unmute_time_event : Option Nat
  deriving DecidableEq, Repr

/-- The C function `mv_active_steps`; `none` when the assertion fails. -/
def mv_active_steps (u : mv_userdata) : Option mv_volume_steps :=
  match u.current_steps with
  | none => none
  | some set => if u.call_active then some set.call else some set.media

/-- The C function `mv_safe_step`; `none` when an assertion fails.  The subtraction is
done in `uint32_t`. -/
def mv_safe_step (u : mv_userdata) : Option Nat :=
  if u.call_active then none
  else
    match u.current_steps with
    | none => none
    | some set =>
      if set.has_high_volume_step then
        some ((set.high_volume_step + 4294967296 - 1) % 4294967296)
      else none

/-- The C function `mv_has_high_volume`. -/
def mv_has_high_volume (u : mv_userdata) : Bool :=
  if u.call_active || !u.notifier_mode_active then false
  else
    match u.current_steps with
    | some set => set.has_high_volume_step
    | none => false

/-- The strings of the table `media_states`, in the order of its initialisers
(`proplist-nemo.h`, lines 31-34). -/
def media_states : List String := ["inactive", "foreground", "background", "active"]

/-- The C function `mv_media_state_from_enum`; `MEDIA_MAX` is a constant of
`mainvolume.h`.  The result is `none` when the assertion fails; a cell of the table
without initialiser holds `NULL`, which is `some none`. -/
def mv_media_state_from_enum (MEDIA_MAX : Nat) (state : Nat) : Option (Option String) :=
  if state < MEDIA_MAX then some media_states[state]? else none

/-- The constant `MAINVOLUME_API_MINOR`. -/
def MAINVOLUME_API_MINOR : Nat := 3

/-- A basic D-Bus value: a `DBUS_TYPE_UINT32` or a `DBUS_TYPE_STRING` (`none` is the
`NULL` pointer). -/
inductive dbus_value
  | uint32 (v : Nat)
  | string (s : Option String)
  deriving DecidableEq, Repr

/-- The replies of the property handlers: `pa_dbus_send_basic_value_reply`,
`pa_dbus_send_basic_variant_reply`, and the dictionary of
`pa_dbus_append_basic_variant_dict_entry` calls. -/
inductive dbus_reply
  | basic_value (v : dbus_value)
  | basic_variant (v : dbus_value)
  | dict (entries : List (String × dbus_value))
  deriving DecidableEq, Repr

/-- The value that a single-property reply carries. -/
def reply_value : dbus_reply → Option dbus_value
  | .basic_value v => some v
  | .basic_variant v => some v
  | .dict _ => none

/-- The value that a dictionary reply carries under a property name. -/
def dict_value (name : String) : dbus_reply → Option dbus_value
  | .dict entries => entries.lookup name
  | _ => none

/-- The C function `mainvolume_get_revision`. -/
def mainvolume_get_revision (_u : mv_userdata) : Option dbus_reply :=
  some (.basic_value (.uint32 MAINVOLUME_API_MINOR))

/-- The C function `mainvolume_get_step_count`. -/
def mainvolume_get_step_count (u : mv_userdata) : Option dbus_reply := do
  let steps ← mv_active_steps u
  pure (.basic_variant (.uint32 steps.n_steps))

/-- The C function `mainvolume_get_current_step`. -/
def mainvolume_get_current_step (u : mv_userdata) : Option dbus_reply := do
  let steps ← mv_active_steps u
  pure (.basic_variant (.uint32 steps.current_step))

/-- The C function `mainvolume_get_high_volume_step`. -/
def mainvolume_get_high_volume_step (u : mv_userdata) : Option dbus_reply :=
  if mv_has_high_volume u then do
    let safe ← mv_safe_step u
    pure (.basic_variant (.uint32 ((safe + 1) % 4294967296)))
  else pure (.basic_variant (.uint32 0))

/-- The C function `mainvolume_get_call_state`. -/
def mainvolume_get_call_state (u : mv_userdata) : Option dbus_reply :=
  some (.basic_variant (.string (some (if u.call_active then "active" else "inactive"))))

/-- The C function `mainvolume_get_media_state`. -/
def mainvolume_get_media_state (MEDIA_MAX : Nat) (u : mv_userdata) : Option dbus_reply := do
  let state ← mv_media_state_from_enum MEDIA_MAX u.notifier_media_state
  pure (.basic_variant (.string state))

/-- The C function `mainvolume_get_all`.  The local `call_state` is computed and
logged; the dictionary entries are those of the six
`pa_dbus_append_basic_variant_dict_entry` calls with the variables they pass. -/
def mainvolume_get_all (MEDIA_MAX : Nat) (u : mv_userdata) : Option dbus_reply := do
  let steps ← mv_active_steps u
  let rev := MAINVOLUME_API_MINOR
  let step_count := steps.n_steps
  let current_step := steps.current_step
  let high_volume_step ←
    if mv_has_high_volume u then do
      let safe ← mv_safe_step u
      pure ((safe + 1) % 4294967296)
    else pure 0
  let _call_state := if u.call_active then "active" else "inactive"
  let media_state ← mv_media_state_from_enum MEDIA_MAX u.notifier_media_state
  pure (.dict [("InterfaceRevision", .uint32 rev), ("StepCount", .uint32 step_count),
    ("CurrentStep", .uint32 current_step), ("HighVolumeStep", .uint32 high_volume_step),
    ("CallState", .string media_state), ("MediaState", .string media_state)])

/-- What the functions of the volume-sync muting do outside `struct mv_userdata`: the
loops over the sink inputs that add or remove the mute factor, and the calls of the
main loop for the timer. -/
inductive sync_effect
  | add_mute_all
  | remove_mute_all
  | time_new (deadline : Nat)
  | time_restart (deadline : Nat)
  | time_free
  deriving DecidableEq, Repr

/-- The constant `PA_SAILFISHOS_MEDIA_VOLUME_IN_SYNC` (`defines.h`, line 25). -/
def PA_SAILFISHOS_MEDIA_VOLUME_IN_SYNC : Int := 0

/-- The constant `PA_USEC_PER_MSEC` of libpulse. -/
def PA_USEC_PER_MSEC : Nat := 1000

/-- The C function `volume_sync_delayed_unmute_stop`. -/
def volume_sync_delayed_unmute_stop (u : mv_userdata) : mv_userdata × List sync_effect :=
  match u.volume_unmute_time_event with
  | some _ => ({ u with volume_unmute_time_event := none }, [.time_free])
  | none => (u, [])

/-- The C function `volume_sync_delayed_unmute_cb`, called by the main loop with the
timer of the module: `none` when no timer is pending (the assertion
`e == u->volume_unmute_time_event` on the non-`NULL` event `e` fails). -/
def volume_sync_delayed_unmute_cb (u : mv_userdata) : Option (mv_userdata × List sync_effect) :=
  match u.volume_unmute_time_event with
  | none => none
  | some _ =>
    let (u, ev) := volume_sync_delayed_unmute_stop u
    some ({ u with mute_routing_active := false }, ev ++ [.remove_mute_all])

/-- The C function `volume_sync_delayed_unmute_set`; `now` is `pa_rtclock_now()` and the
deadline is computed in the 64-bit `pa_usec_t`. -/
def volume_sync_delayed_unmute_set (now : Nat) (u : mv_userdata) :
    mv_userdata × List sync_effect :=
  let time := (now + u.volume_sync_delay_ms * PA_USEC_PER_MSEC) % 18446744073709551616
  match u.volume_unmute_time_event with
  | some _ => ({ u with volume_unmute_time_event := some time }, [.time_restart time])
  | none => ({ u with volume_unmute_time_event := some time }, [.time_new time])

/-- The C function `volume_sync_cb`, run by the hook of the shared-data store `shared`
for the key `key`; `none` when the read of the store is not determined. -/
def volume_sync_cb (h : SharedData.Host) (shared : SharedData.pa_shared_data) (key : String)
    (now : Nat) (u : mv_userdata) : Option (mv_userdata × List sync_effect) :=
  match SharedData.pa_shared_data_get_integer h shared key with
  | none => none
  | some r =>
    match r.ret with
    | (0, some state) =>
      let (u, ev) :=
        if u.prev_state ≠ PA_SAILFISHOS_MEDIA_VOLUME_IN_SYNC ∧
            state = PA_SAILFISHOS_MEDIA_VOLUME_IN_SYNC then
          if u.volume_sync_delay_ms ≠ 0 then volume_sync_delayed_unmute_set now u
          else ({ u with mute_routing_active := false }, [.remove_mute_all])
        else if u.prev_state = PA_SAILFISHOS_MEDIA_VOLUME_IN_SYNC ∧
            state ≠ PA_SAILFISHOS_MEDIA_VOLUME_IN_SYNC then
          let (u, ev) := volume_sync_delayed_unmute_stop u
          let ev := if !u.mute_routing_active then ev ++ [.add_mute_all] else ev
          ({ u with mute_routing_active := true }, ev)
        else (u, [])
      some ({ u with prev_state := state }, ev)
    | _ => some (u, [])

/-- What the main loop delivers to the volume-sync muting: a change notification of the
store for a key, at a time, or the expiry of the unmute timer. -/
inductive sync_event
  | changed (shared : SharedData.pa_shared_data) (key : String) (now : Nat)
  | expired

/-- One event: `volume_sync_cb` or `volume_sync_delayed_unmute_cb`. -/
def sync_step (h : SharedData.Host) (u : mv_userdata) : sync_event → Option mv_userdata
  | .changed shared key now => (volume_sync_cb h shared key now u).map Prod.fst
  | .expired => (volume_sync_delayed_unmute_cb u).map Prod.fst

/-- A sequence of events, from the state `u`. -/
def sync_run (h : SharedData.Host) : List sync_event → mv_userdata → Option mv_userdata
  | [], u => some u
  | e :: es, u =>
    match sync_step h u e with
    | none => none
    | some u => sync_run h es u

/-- The state after `pa__init` as far as the volume-sync muting goes, with the value of
the module argument `unmute_delay` (lines 971-973, 990 and 1006; the record is
zero-filled by `pa_xnew0`).  The step tables are left out. -/
def sync_init (volume_sync_delay_ms : Nat) : mv_userdata :=
  ⟨none, false, false, 0, PA_SAILFISHOS_MEDIA_VOLUME_IN_SYNC, false, volume_sync_delay_ms, none⟩

/-- A state for examples: the media steps are active, the route has a high-volume
step, the media state is `MEDIA_FOREGROUND`. -/
def foreground_state : mv_userdata :=
  ⟨some ⟨"r", ⟨[0, 100], 2, 1⟩, ⟨[0, 50, 100], 3, 2⟩, true, 2, true⟩, false, true, 1,
    0, false, 50, none⟩

/-- The muting follows the sync state: out of sync the mute is on and no unmute timer is
pending, and without unmute delay no timer exists and the mute is on exactly out of
sync. -/
def sync_invariant (u : mv_userdata) : Prop :=
  (u.prev_state ≠ PA_SAILFISHOS_MEDIA_VOLUME_IN_SYNC →
    u.mute_routing_active = true ∧ u.volume_unmute_time_event = none) ∧
  (u.volume_sync_delay_ms = 0 →
    u.volume_unmute_time_event = none ∧
    (u.mute_routing_active = true ↔ u.prev_state ≠ PA_SAILFISHOS_MEDIA_VOLUME_IN_SYNC))

/-- The constant `PA_SAILFISHOS_MEDIA_VOLUME_SYNC` (`defines.h`, line 24). -/
def PA_SAILFISHOS_MEDIA_VOLUME_SYNC : String := "x-sailfishos.volume.sync"

/-- A store for examples in which the volume-sync key holds the integer `v`. -/
def sync_store (v : Int) : SharedData.pa_shared_data :=
  [⟨PA_SAILFISHOS_MEDIA_VOLUME_SYNC, SharedData.shared_item_type.INTEGER,
    SharedData.Ptr.word v, 8, 1⟩]

end MainVolume

namespace StreamRestore

/-! ## Entries and their records (`module-stream-restore-nemo.c`, lines 176-186 and
1843-2055)

The record of an entry is a tagstruct.  The tagstruct writers and readers, the
validators and the database belong to the hosting library (`pulsecore/tagstruct.c`,
`pulse/channelmap.c`, `pulse/volume.c`, `pulsecore/namereg.c`,
`pulsecore/database.h`); they are given here with the wire format and the checks of
that library.  A byte is a natural number below 256. -/

/-- The constant `ENTRY_VERSION`. -/
def ENTRY_VERSION : Nat := 4

/-- The constant `PA_CHANNELS_MAX` of libpulse. -/
def PA_CHANNELS_MAX : Nat := 32

/-- The constant `PA_CHANNEL_POSITION_MAX` of libpulse. -/
def PA_CHANNEL_POSITION_MAX : Int := 51

/-- The constant `PA_VOLUME_MAX` of libpulse (`UINT32_MAX/2`). -/
def PA_VOLUME_MAX : Nat := 2147483647

/-- The C struct `pa_channel_map`, represented by the positions `map[0]`, ...,
`map[channels-1]`; a position is the integer value of `pa_channel_position_t`
(-1 invalid, 0 mono, 1 front left, 2 front right, ...). -/
structure pa_channel_map where
  map : List Int
  deriving DecidableEq, Repr

/-- The field `channels` of a channel map. -/
def pa_channel_map.channels (m : pa_channel_map) : Nat := m.map.length

/-- The C struct `pa_cvolume`, represented by the values `values[0]`, ...,
`values[channels-1]`. -/
structure pa_cvolume where
  values : List Nat
  deriving DecidableEq, Repr

/-- The field `channels` of a volume. -/
def pa_cvolume.channels (v : pa_cvolume) : Nat := v.values.length

/-- The C struct `entry`; a string field is `none` for `NULL`. -/
structure entry where
  version : Nat
  muted_valid : Bool
  volume_valid : Bool
  device_valid : Bool
  card_valid : Bool
  muted : Bool
  channel_map : pa_channel_map
  volume : pa_cvolume
  device : Option (List Nat)
  card : Option (List Nat)
  deriving DecidableEq, Repr

/-- Values that the C types of `struct entry` can hold: `uint8_t` version and channel
counts, `int` positions, `uint32_t` volumes, strings of non-NUL bytes. -/
def entry_typed (e : entry) : Bool :=
  decide (e.version < 256) && decide (e.channel_map.channels < 256) &&
    decide (e.volume.channels < 256) &&
    e.channel_map.map.all (fun p => decide (-2147483648 ≤ p ∧ p ≤ 2147483647)) &&
    e.volume.values.all (fun v => decide (v < 4294967296)) &&
    (match e.device with
      | none => true
      | some s => s.all (fun b => decide (b ≠ 0 ∧ b < 256))) &&
    (match e.card with
      | none => true
      | some s => s.all (fun b => decide (b ≠ 0 ∧ b < 256)))

/-- The main database: the stored records by key, most recent first. -/
abbrev pa_database := List (String × List Nat)

/-- The function `pa_database_get`. -/
def pa_database_get (db : pa_database) (key : String) : Option (List Nat) :=
  (db.find? (fun kv => kv.1 == key)).map Prod.snd

/-- The function `pa_database_set`: without `replace` an existing key makes it fail. -/
def pa_database_set (db : pa_database) (key : String) (data : List Nat) (replace : Bool) :
    Int × pa_database :=
  if !replace && (pa_database_get db key).isSome then (-1, db)
  else (0, (key, data) :: db.filter (fun kv => !(kv.1 == key)))

/-- The tagstruct writer `pa_tagstruct_putu8`: tag `B` and the byte. -/
def pa_tagstruct_putu8 (t : List Nat) (c : Nat) : List Nat := t ++ [66, c % 256]

/-- The tagstruct writer `pa_tagstruct_put_boolean`: tag `1` or `0`. -/
def pa_tagstruct_put_boolean (t : List Nat) (b : Bool) : List Nat :=
  t ++ [if b then 49 else 48]

/-- The tagstruct writer `pa_tagstruct_put_channel_map`: tag `m`, the channel count
and one byte per position. -/
def pa_tagstruct_put_channel_map (t : List Nat) (m : pa_channel_map) : List Nat :=
  t ++ [109, m.channels % 256] ++ m.map.map (fun p => (p % 256).toNat)

/-- Four bytes of a `uint32_t` in network order. -/
def write_u32 (v : Nat) : List Nat :=
  [v / 16777216 % 256, v / 65536 % 256, v / 256 % 256, v % 256]

/-- The tagstruct writer `pa_tagstruct_put_cvolume`: tag `v`, the channel count and
four bytes per value. -/
def pa_tagstruct_put_cvolume (t : List Nat) (v : pa_cvolume) : List Nat :=
  t ++ [118, v.channels % 256] ++ (v.values.map write_u32).flatten

/-- The tagstruct writer `pa_tagstruct_puts`: tag `N` for `NULL`, otherwise tag `t`,
the string and its terminator. -/
def pa_tagstruct_puts (t : List Nat) (s : Option (List Nat)) : List Nat :=
  match s with
  | none => t ++ [78]
  | some s => t ++ [116] ++ s ++ [0]

/-- The tagstruct reader `pa_tagstruct_getu8`, on the unread bytes. -/
def pa_tagstruct_getu8 : List Nat → Option (Nat × List Nat)
  | 66 :: c :: rest => some (c, rest)
  | _ => none

/-- The tagstruct reader `pa_tagstruct_get_boolean`. -/
def pa_tagstruct_get_boolean : List Nat → Option (Bool × List Nat)
  | 49 :: rest => some (true, rest)
  | 48 :: rest => some (false, rest)
  | _ => none

/-- Reads `n` bytes. -/
def read_u8s : Nat → List Nat → Option (List Nat × List Nat)
  | 0, t => some ([], t)
  | _ + 1, [] => none
  | n + 1, b :: rest =>
    match read_u8s n rest with
    | none => none
    | some (bs, rest) => some (b :: bs, rest)

/-- Reads `n` values of four bytes in network order. -/
def read_u32s : Nat → List Nat → Option (List Nat × List Nat)
  | 0, t => some ([], t)
  | n + 1, b₀ :: b₁ :: b₂ :: b₃ :: rest =>
    match read_u32s n rest with
    | none => none
    | some (vs, rest) => some ((b₀ * 16777216 + b₁ * 65536 + b₂ * 256 + b₃) :: vs, rest)
  | _ + 1, _ => none

/-- The tagstruct reader `pa_tagstruct_get_channel_map`: more than `PA_CHANNELS_MAX`
channels are refused. -/
def pa_tagstruct_get_channel_map : List Nat → Option (pa_channel_map × List Nat)
  | 109 :: n :: rest =>
    if n > PA_CHANNELS_MAX then none
    else
      match read_u8s n rest with
      | none => none
      | some (bs, rest) => some (⟨bs.map Int.ofNat⟩, rest)
  | _ => none

/-- The tagstruct reader `pa_tagstruct_get_cvolume`: more than `PA_CHANNELS_MAX`
channels are refused. -/
def pa_tagstruct_get_cvolume : List Nat → Option (pa_cvolume × List Nat)
  | 118 :: n :: rest =>
    if n > PA_CHANNELS_MAX then none
    else
      match read_u32s n rest with
      | none => none
      | some (vs, rest) => some (⟨vs⟩, rest)
  | _ => none

/-- Splits the unread bytes at the first NUL byte; `none` when there is none. -/
def read_string : List Nat → Option (List Nat × List Nat)
  | [] => none
  | b :: rest =>
    if b = 0 then some ([], rest)
    else
      match read_string rest with
      | none => none
      | some (s, rest) => some (b :: s, rest)

/-- The tagstruct reader `pa_tagstruct_gets`. -/
def pa_tagstruct_gets : List Nat → Option (Option (List Nat) × List Nat)
  | 78 :: rest => some (none, rest)
  | 116 :: rest =>
    match read_string rest with
    | none => none
    | some (s, rest) => some (some s, rest)
  | _ => none

/-- The tagstruct test `pa_tagstruct_eof`. -/
def pa_tagstruct_eof (t : List Nat) : Bool := t.isEmpty

/-- The character test of `pa_namereg_is_valid_name`: letters, digits, `.`, `-`, `_`. -/
def is_valid_char (c : Nat) : Bool :=
  (97 ≤ c && c ≤ 122) || (65 ≤ c && c ≤ 90) || (48 ≤ c && c ≤ 57) ||
    c == 46 || c == 45 || c == 95

/-- The validator `pa_namereg_is_valid_name` (non-empty, at most `PA_NAME_MAX` = 128
valid characters); it asserts a non-`NULL` argument, hence `none` for `NULL`. -/
def pa_namereg_is_valid_name : Option (List Nat) → Option Bool
  | none => none
  | some s => some (!s.isEmpty && s.length ≤ 128 && s.all is_valid_char)

/-- The validator `pa_channel_map_valid`. -/
def pa_channel_map_valid (m : pa_channel_map) : Bool :=
  0 < m.channels && m.channels ≤ PA_CHANNELS_MAX &&
    m.map.all (fun p => 0 ≤ p && p < PA_CHANNEL_POSITION_MAX)

/-- The validator `pa_cvolume_valid`. -/
def pa_cvolume_valid (v : pa_cvolume) : Bool :=
  0 < v.channels && v.channels ≤ PA_CHANNELS_MAX &&
    v.values.all (fun x => x ≤ PA_VOLUME_MAX)

/-- The validator `pa_cvolume_compatible_with_channel_map`. -/
def pa_cvolume_compatible_with_channel_map (v : pa_cvolume) (m : pa_channel_map) : Bool :=
  pa_cvolume_valid v && pa_channel_map_valid m && v.channels == m.channels

/-- The record that `entry_write` builds. -/
def entry_record (e : entry) : List Nat :=
  let t : List Nat := []
  let t := pa_tagstruct_putu8 t e.version
  let t := pa_tagstruct_put_boolean t e.volume_valid
  let t := pa_tagstruct_put_channel_map t e.channel_map
  let t := pa_tagstruct_put_cvolume t e.volume
  let t := pa_tagstruct_put_boolean t e.muted_valid
  let t := pa_tagstruct_put_boolean t e.muted
  let t := pa_tagstruct_put_boolean t e.device_valid
  let t := pa_tagstruct_puts t e.device
  let t := pa_tagstruct_put_boolean t e.card_valid
  pa_tagstruct_puts t e.card

/-- The C function `entry_write`: its return value and the database afterwards. -/
def entry_write (db : pa_database) (name : String) (e : entry) (replace : Bool) :
    Bool × pa_database :=
  let r := pa_database_set db name (entry_record e) replace
  (r.1 == 0, r.2)

/-- The chain of tagstruct reads at the head of `entry_read`, with the version test
after the first of them. -/
def entry_parse (data : List Nat) : Option (entry × List Nat) := do
  let (version, t) ← pa_tagstruct_getu8 data
  if version > ENTRY_VERSION then none
  let (volume_valid, t) ← pa_tagstruct_get_boolean t
  let (channel_map, t) ← pa_tagstruct_get_channel_map t
  let (volume, t) ← pa_tagstruct_get_cvolume t
  let (muted_valid, t) ← pa_tagstruct_get_boolean t
  let (muted, t) ← pa_tagstruct_get_boolean t
  let (device_valid, t) ← pa_tagstruct_get_boolean t
  let (device, t) ← pa_tagstruct_gets t
  let (card_valid, t) ← pa_tagstruct_get_boolean t
  let (card, t) ← pa_tagstruct_gets t
  pure (⟨version, muted_valid, volume_valid, device_valid, card_valid, muted,
    channel_map, volume, device, card⟩, t)

/-- The checks of `entry_read` after the tagstruct reads (lines 2019-2040): `none` is
a failed `pa_assert` in a validator, `some false` is `goto fail`. -/
def entry_checks (e : entry) (t : List Nat) : Option Bool :=
  if !pa_tagstruct_eof t then some false
  else do
    let device_ok ← if e.device_valid then pa_namereg_is_valid_name e.device else some true
    if !device_ok then some false
    else do
      let card_ok ← if e.card_valid then pa_namereg_is_valid_name e.card else some true
      if !card_ok then some false
      else if e.volume_valid && !pa_channel_map_valid e.channel_map then some false
      else if e.volume_valid && (!pa_cvolume_valid e.volume ||
          !pa_cvolume_compatible_with_channel_map e.volume e.channel_map) then some false
      else some true

/-- The C function `entry_read`: `none` is a failed assertion, `some none` the return
value `NULL`. -/
def entry_read (db : pa_database) (name : String) : Option (Option entry) :=
  match pa_database_get db name with
  | none => some none
  | some data =>
    match entry_parse data with
    | none => some none
    | some (e, t) =>
      match entry_checks e t with
      | none => none
      | some false => some none
      | some true => some (some e)

/-- The entry of the round-trip example: device `"sink0"`, muted, and the volume 50000
on front left (1) and front right (2); no card. -/
def sink0_entry : entry :=
  ⟨4, true, true, true, false, true, ⟨[1, 2]⟩, ⟨[50000, 50000]⟩,
    some [115, 105, 110, 107, 48], none⟩

/-- An entry without valid fields whose channel map field holds the count 33. -/
def entry_33_channels : entry :=
  ⟨4, false, false, false, false, false, ⟨List.replicate 33 0⟩, ⟨[]⟩, none, none⟩

/-- An entry without valid fields whose channel map field holds one channel at
`PA_CHANNEL_POSITION_INVALID` (-1). -/
def entry_invalid_position : entry :=
  ⟨4, false, false, false, false, false, ⟨[-1]⟩, ⟨[]⟩, none, none⟩

/-! ## Module state and its operations (`module-stream-restore-nemo.c`)

The operations act on the fields of `struct userdata` that they read or write.  What
an operation does to objects outside the module is recorded as a list of events, in
order: D-Bus signals and replies, `entry_apply` on the live streams, volumes handed to
the volume proxy or to the sink, timer creation, database calls.  The hook that
`pa_volume_proxy_set_volume` fires and the subscription events that follow from
`entry_apply` are dispatched by the host and are not run inside an operation.  A
failed `pa_assert` is `none`.  The clock value returned by `pa_rtclock_now` is the
argument `now`. -/

/-- The constant `SAVE_INTERVAL`, in microseconds. -/
def SAVE_INTERVAL : Nat := 10 * 1000000

/-- The value `PA_UPDATE_SET` of `pa_update_mode_t`. -/
def PA_UPDATE_SET : Nat := 0

/-- The value `PA_UPDATE_MERGE` of `pa_update_mode_t`. -/
def PA_UPDATE_MERGE : Nat := 1

/-- The value `PA_UPDATE_REPLACE` of `pa_update_mode_t`. -/
def PA_UPDATE_REPLACE : Nat := 2

/-- The constant `EXT_ROUTE_ENTRY_VERSION`. -/
def EXT_ROUTE_ENTRY_VERSION : Nat := 4

/-- The C struct `ext_route_entry`. -/
structure ext_route_entry where
  version : Nat
  volume : pa_cvolume
  deriving DecidableEq, Repr

/-- The C struct `ext_route_volume` (the field `master` is never read or written). -/
structure ext_route_volume where
  name : String
  volume : pa_cvolume
  min_volume : pa_cvolume
  default_volume : pa_cvolume
  reset_min_volume : Bool
  deriving DecidableEq, Repr

/-- The C struct `ext_sink_volume`; the sink is known by its name. -/
structure ext_sink_volume where
  mode : String
  sink_name : String
  deriving DecidableEq, Repr

/-- The C struct `dbus_entry`; the object path is determined by the index. -/
structure dbus_entry where
  entry_name : String
  index : Nat
  deriving DecidableEq, Repr

/-- The fields of the C struct `userdata` used by the entry store. -/
structure userdata where
  database : pa_database
  route_database : List (String × ext_route_entry)
  save_time_event : Option Nat
  dbus_entries : List dbus_entry
  next_index : Nat
  subscribed : List Nat
  restore_route_volume : Bool
  route : Option String
  route_volumes : List ext_route_volume
  use_sink_volume : Option ext_sink_volume
  deriving DecidableEq, Repr

/-- What an operation does outside the module state. -/
inductive Event
  | new_entry_signal (de : dbus_entry)
  | entry_removed_signal (de : dbus_entry)
  | device_updated_signal (de : dbus_entry) (e : entry)
  | volume_updated_signal (de : dbus_entry) (e : entry)
  | mute_updated_signal (de : dbus_entry) (e : entry)
  | entry_apply (name : String) (e : entry)
  | proxy_volume (name : String) (volume : pa_cvolume)
  | sink_set_volume (sink_name : String) (volume : pa_cvolume)
  | subscription_event (connection : Nat)
  | time_new (deadline : Nat)
  | time_free (deadline : Nat)
  | database_set (name : String) (replace : Bool) (ok : Bool)
  | database_sync (route : Bool)
  | dbus_error
  | dbus_reply
  deriving DecidableEq, Repr

/-- Functions of libpulse whose result is taken as given. -/
structure Lib where
  /-- The function `pa_cvolume_remap`: volume, its channel map, the target map. -/
  pa_cvolume_remap : pa_cvolume → pa_channel_map → pa_channel_map → pa_cvolume

/-- The function `pa_database_unset`: -1 when there is no such key. -/
def pa_database_unset (db : pa_database) (key : String) : Int × pa_database :=
  if (pa_database_get db key).isSome then (0, db.filter (fun kv => !(kv.1 == key)))
  else (-1, db)

/-- The function `pa_cvolume_equal` of libpulse: invalid volumes are never equal. -/
def pa_cvolume_equal (a b : pa_cvolume) : Bool :=
  pa_cvolume_valid a && pa_cvolume_valid b && a.values == b.values

/-- The function `pa_channel_map_equal` of libpulse: invalid maps are never equal. -/
def pa_channel_map_equal (a b : pa_channel_map) : Bool :=
  pa_channel_map_valid a && pa_channel_map_valid b && a.map == b.map

/-- The function `pa_streq`; it reads both strings, so `NULL` has no result. -/
def pa_streq : Option (List Nat) → Option (List Nat) → Option Bool
  | some a, some b => some (a == b)
  | _, _ => none

/-- The function `pa_safe_streq`: `NULL` equals only `NULL`. -/
def pa_safe_streq (a b : Option (List Nat)) : Bool := a == b

/-- The C function `entry_new`. -/
def entry_new : entry :=
  ⟨ENTRY_VERSION, false, false, false, false, false, ⟨[]⟩, ⟨[]⟩, none, none⟩

/-- The C function `ext_route_key`. -/
def ext_route_key (name route : String) : String := name ++ ":" ++ route

/-- The C function `ext_get_route_volume_by_name`. -/
def ext_get_route_volume_by_name (u : userdata) (name : String) : Option ext_route_volume :=
  u.route_volumes.find? (fun r => r.name == name)

/-- Assignment to the volume of the first route volume of a name (the C code writes
through the pointer returned by `ext_get_route_volume_by_name`). -/
def route_volume_put : List ext_route_volume → String → pa_cvolume → List ext_route_volume
  | [], _, _ => []
  | r :: rest, name, v =>
    if r.name = name then { r with volume := v } :: rest
    else r :: route_volume_put rest name v

/-- The C function `ext_set_route_volume`, on the route volume of a name. -/
def ext_set_route_volume (u : userdata) (name : String) (volume : pa_cvolume) :
    Option userdata :=
  if !pa_cvolume_valid volume then none
  else some { u with route_volumes := route_volume_put u.route_volumes name volume }

/-- The C function `ext_set_route_volume_by_name`. -/
def ext_set_route_volume_by_name (u : userdata) (name : String) (volume : pa_cvolume) :
    Option userdata :=
  if !pa_cvolume_valid volume then none
  else if u.route.isNone then some u
  else
    match ext_get_route_volume_by_name u name with
    | some _ => ext_set_route_volume u name volume
    | none => some u

/-- The C function `ext_set_route_volumes`. -/
def ext_set_route_volumes (u : userdata) (volume : pa_cvolume) : Option userdata :=
  if !pa_cvolume_valid volume then none
  else some { u with route_volumes := u.route_volumes.map (fun r => { r with volume := volume }) }

/-- The C function `ext_sink_set_volume`: one or two channels are asserted. -/
def ext_sink_set_volume (s : ext_sink_volume) (vol : pa_cvolume) : Option (List Event) :=
  if vol.channels = 1 ∨ vol.channels = 2 then some [.sink_set_volume s.sink_name vol]
  else none

/-- The C function `ext_proxy_volume`. -/
def ext_proxy_volume (name : String) (volume : pa_cvolume) : Option (List Event) :=
  if !pa_cvolume_valid volume then none else some [.proxy_volume name volume]

/-- The C function `ext_route_entry_write`. -/
def ext_route_entry_write (u : userdata) (r : ext_route_volume) (route : String) : userdata :=
  if !pa_cvolume_valid r.volume then u
  else
    let key := ext_route_key r.name route
    { u with route_database :=
        (key, ⟨EXT_ROUTE_ENTRY_VERSION, r.volume⟩) ::
          u.route_database.filter (fun kv => !(kv.1 == key)) }

/-- The C function `trigger_save`. -/
def trigger_save (now : Nat) (u : userdata) : userdata × List Event :=
  let notified := u.subscribed.map Event.subscription_event
  let u :=
    if !u.restore_route_volume then u
    else
      match u.route with
      | none => u
      | some route => u.route_volumes.foldl (fun u r => ext_route_entry_write u r route) u
  match u.save_time_event with
  | some _ => (u, notified)
  | none =>
    ({ u with save_time_event := some (now + SAVE_INTERVAL) },
      notified ++ [.time_new (now + SAVE_INTERVAL)])

/-- The C function `save_time_callback` for the timer `e`. -/
def save_time_callback (u : userdata) (e : Nat) : Option (userdata × List Event) :=
  if u.save_time_event ≠ some e then none
  else
    some ({ u with save_time_event := none },
      [.time_free e, .database_sync false, .database_sync true])

/-- The lookup `pa_hashmap_get(u->dbus_entries, name)`. -/
def dbus_entries_get (u : userdata) (name : String) : Option dbus_entry :=
  u.dbus_entries.find? (fun de => de.entry_name == name)

/-- The C function `dbus_entry_new` followed by the asserted `pa_hashmap_put`. -/
def dbus_entry_new (u : userdata) (entry_name : String) : Option (dbus_entry × userdata) :=
  if entry_name = "" then none
  else if (dbus_entries_get u entry_name).isSome then none
  else
    let de : dbus_entry := ⟨entry_name, u.next_index⟩
    some (de, { u with next_index := (u.next_index + 1) % 4294967296,
                       dbus_entries := u.dbus_entries ++ [de] })

/-- The call `pa_hashmap_remove_and_free(u->dbus_entries, name)`. -/
def dbus_entries_remove (u : userdata) (name : String) : Int × userdata :=
  if (dbus_entries_get u name).isSome then
    (0, { u with dbus_entries := u.dbus_entries.filter (fun de => !(de.entry_name == name)) })
  else (-1, u)

/-- The C function `send_mute_updated_signal`: `muted_valid` is asserted. -/
def send_mute_updated_signal (de : dbus_entry) (e : entry) : Option (List Event) :=
  if e.muted_valid then some [.mute_updated_signal de e] else none

/-- The C function `entry_write` on the module state, with the call of
`pa_database_set` recorded. -/
def entry_write_u (u : userdata) (name : String) (e : entry) (replace : Bool) :
    Bool × userdata × List Event :=
  let r := entry_write u.database name e replace
  (r.1, { u with database := r.2 }, [.database_set name replace r.1])

/-- The C function `entries_equal`. -/
def entries_equal (L : Lib) (a b : entry) : Option Bool := do
  let device_differs ←
    if a.device_valid != b.device_valid then some true
    else if a.device_valid then (pa_streq a.device b.device).map (fun eq => !eq)
    else some false
  if device_differs then some false
  else do
    let card_differs ←
      if a.card_valid != b.card_valid then some true
      else if a.card_valid then (pa_streq a.card b.card).map (fun eq => !eq)
      else some false
    if card_differs then some false
    else if a.muted_valid != b.muted_valid || (a.muted_valid && a.muted != b.muted) then
      some false
    else if a.volume_valid != b.volume_valid ||
        (a.volume_valid &&
          !pa_cvolume_equal (L.pa_cvolume_remap b.volume b.channel_map a.channel_map)
            a.volume) then
      some false
    else some true

/-- What `subscribe_callback` reads from the sink input or source output of the event
(the two branches of the C function differ only in the object type): `is_filter` is
`origin_sink` or `destination_source` being set, `name` the result of
`pa_proplist_get_stream_group`, `volume` the result of `pa_sink_input_get_volume`,
`preferred_device` the field `preferred_sink` or `preferred_source`, and `card` the
name of the card of the device that `pa_namereg_get` finds under that name, if any. -/
structure stream where
  is_filter : Bool
  name : Option String
  save_volume : Bool
  volume_readable : Bool
  volume_writable : Bool
  channel_map : pa_channel_map
  volume : pa_cvolume
  save_muted : Bool
  muted : Bool
  preferred_device : Option (List Nat)
  card : Option (List Nat)
  deriving DecidableEq, Repr

/-- The candidate entry and the three update flags of `subscribe_callback`. -/
structure candidate where
  entry : entry
  device_updated : Bool
  volume_updated : Bool
  mute_updated : Bool
  deriving DecidableEq, Repr

/-- Lines 2173-2216 of `subscribe_callback`: the candidate computed from the stream and
the stored entry `old` (`none` when `entry_read` returned `NULL`). -/
def subscribe_candidate (s : stream) (old : Option entry) : Option candidate := do
  let created_new_entry := old.isNone
  let entry := match old with
    | some o => o
    | none => entry_new
  let (entry, volume_updated) ←
    if s.save_volume && s.volume_readable then
      if !s.volume_writable then none
      else
        let entry := { entry with channel_map := s.channel_map, volume := s.volume,
                                  volume_valid := true }
        let volume_updated := match old with
          | none => false
          | some o => !o.volume_valid || !pa_channel_map_equal entry.channel_map o.channel_map
              || !pa_cvolume_equal entry.volume o.volume
        some (entry, volume_updated)
    else some (entry, false)
  let (entry, mute_updated) :=
    if s.save_muted then
      let entry := { entry with muted := s.muted, muted_valid := true }
      let mute_updated := match old with
        | none => false
        | some o => !o.muted_valid || entry.muted != o.muted
      (entry, mute_updated)
    else (entry, false)
  let (entry, device_updated) :=
    if s.preferred_device.isSome || !created_new_entry then
      let entry := { entry with device := s.preferred_device,
                                device_valid := s.preferred_device.isSome }
      let device_updated := match old with
        | none => false
        | some o => !pa_safe_streq entry.device o.device
      let entry := { entry with card := none, card_valid := false }
      let entry :=
        if entry.device_valid && s.card.isSome then
          { entry with card := s.card, card_valid := true }
        else entry
      (entry, device_updated)
    else (entry, false)
  pure ⟨entry, device_updated, volume_updated, mute_updated⟩

/-- Lines 2294-2322 of `subscribe_callback`: storing the candidate. -/
def subscribe_store (now : Nat) (u : userdata) (name : String) (created_new_entry : Bool)
    (c : candidate) : Option (userdata × List Event) := do
  let r := ext_get_route_volume_by_name u name
  let (u, ev₁) ←
    match r with
    | some _ =>
      if c.entry.volume_valid then
        (ext_set_route_volume u name c.entry.volume).map (fun u => (u, []))
      else some (u, [])
    | none =>
      let w := entry_write_u u name c.entry true
      if w.1 then
        let s := trigger_save now w.2.1
        some (s.1, w.2.2 ++ s.2)
      else some (w.2.1, w.2.2)
  let (u, ev₂) ←
    if created_new_entry then do
      let (de, u) ← dbus_entry_new u name
      pure (u, [Event.new_entry_signal de])
    else do
      let de ← dbus_entries_get u name
      let ev_d := if c.device_updated then [Event.device_updated_signal de c.entry] else []
      let ev_v := if c.volume_updated then [Event.volume_updated_signal de c.entry] else []
      let ev_m ← if c.mute_updated then send_mute_updated_signal de c.entry else some []
      pure (u, ev_d ++ ev_v ++ ev_m)
  let ev₃ ←
    if r.isSome && c.entry.volume_valid then ext_proxy_volume name c.entry.volume
    else some []
  pure (u, ev₁ ++ ev₂ ++ ev₃)

/-- The C function `subscribe_callback`: `t_matches` says that the event type is one
of the four handled ones, `s` is the object found under the index of the event. -/
def subscribe_callback (L : Lib) (now : Nat) (u : userdata) (t_matches : Bool)
    (s : Option stream) : Option (userdata × List Event) :=
  if !t_matches then some (u, [])
  else
    match s with
    | none => some (u, [])
    | some s =>
      if s.is_filter then some (u, [])
      else
        match s.name with
        | none => some (u, [])
        | some name => do
          let old ← entry_read u.database name
          let c ← subscribe_candidate s old
          match old with
          | some o => do
            let eq ← entries_equal L o c.entry
            if eq then pure (u, [])
            else subscribe_store now u name false c
          | none => subscribe_store now u name true c

/-- The loop of `get_volume_arg` over the array elements: channel counter (an
`uint8_t`) and the two arrays of `PA_CHANNELS_MAX` slots; `none` is the error
return. -/
def get_volume_loop : List (Nat × Nat) → Nat → List Int → List Nat →
    Option (Nat × List Int × List Nat)
  | [], channels, map, values => some (channels, map, values)
  | (chan_pos, chan_vol) :: rest, channels, map, values =>
    if chan_pos ≥ PA_CHANNEL_POSITION_MAX.toNat then none
    else if chan_vol > PA_VOLUME_MAX then none
    else
      let map := if channels < PA_CHANNELS_MAX then map.set channels chan_pos else map
      let values := if channels < PA_CHANNELS_MAX then values.set channels chan_vol else values
      get_volume_loop rest ((channels + 1) % 256) map values

/-- The C function `get_volume_arg` on the array of (position, volume) pairs: `none`
is the error return, otherwise the channel map and the volume.  The arrays start as
`pa_channel_map_init` and `pa_cvolume_init` leave them. -/
def get_volume_arg (arg : List (Nat × Nat)) : Option (pa_channel_map × pa_cvolume) :=
  match get_volume_loop arg 0 (List.replicate PA_CHANNELS_MAX (-1))
      (List.replicate PA_CHANNELS_MAX 4294967295) with
  | none => none
  | some (channels, map, values) =>
    if channels > PA_CHANNELS_MAX then none
    else some (⟨map.take channels⟩, ⟨values.take channels⟩)

/-- One entry of a `SUBCOMMAND_WRITE` request as the five tagstruct readers deliver
it. -/
structure write_item where
  name : Option String
  channel_map : pa_channel_map
  volume : pa_cvolume
  device : Option (List Nat)
  muted : Bool
  deriving DecidableEq, Repr

/-- The D-Bus signals of lines 3120-3139 after a successful `entry_write`. -/
def write_signals (u : userdata) (name : String) (old : Option entry) (entry : entry) :
    Option (userdata × List Event) :=
  match old with
  | some o => do
    let de ← dbus_entries_get u name
    let device_changed ←
      if o.device_valid != entry.device_valid then some true
      else if entry.device_valid then (pa_streq entry.device o.device).map (fun eq => !eq)
      else some false
    let ev_d := if device_changed then [Event.device_updated_signal de entry] else []
    let ev_v :=
      if o.volume_valid != entry.volume_valid ||
          (entry.volume_valid && (!pa_cvolume_equal entry.volume o.volume ||
            !pa_channel_map_equal entry.channel_map o.channel_map)) then
        [Event.volume_updated_signal de entry]
      else []
    let ev_m ←
      if !o.muted_valid || entry.muted != o.muted then send_mute_updated_signal de entry
      else some []
    pure (u, ev_d ++ ev_v ++ ev_m)
  | none => do
    let (de, u) ← dbus_entry_new u name
    pure (u, [Event.new_entry_signal de])

/-- Lines 3064-3097 of the `while` loop of `SUBCOMMAND_WRITE`, after the five reads:
the name and the entry built from the request, `none` for `goto fail`. -/
def write_validate (it : write_item) : Option (String × entry) :=
  match it.name with
  | none => none
  | some name =>
    if name = "" then none
    else
      let entry := { entry_new with channel_map := it.channel_map, volume := it.volume }
      let entry := { entry with volume_valid := decide (entry.volume.channels > 0) }
      if entry.volume_valid &&
          !pa_cvolume_compatible_with_channel_map entry.volume entry.channel_map then
        none
      else
        let entry := { entry with muted := it.muted, muted_valid := true }
        let entry := { entry with device := it.device }
        let entry := { entry with device_valid :=
          match it.device with
          | none => false
          | some d => !d.isEmpty }
        if entry.device_valid && !(pa_namereg_is_valid_name entry.device == some true) then
          none
        else some (name, entry)

/-- Lines 3099-3106: the volume of the request goes to the route volumes and to the
volume proxy. -/
def write_route (u : userdata) (name : String) (entry : entry) :
    Option (userdata × List Event) :=
  if entry.volume_valid then
    match u.use_sink_volume with
    | some _ => (ext_set_route_volumes u entry.volume).map (fun u => (u, []))
    | none => do
      let u ← ext_set_route_volume_by_name u name entry.volume
      let ev ← ext_proxy_volume name entry.volume
      pure (u, ev)
  else some (u, [])

/-- Lines 3108-3148: the entry is written, mirrored and applied. -/
def write_store (u : userdata) (mode : Nat) (apply_immediately : Bool) (name : String)
    (entry : entry) : Option (userdata × List Event) := do
  let old ← entry_read u.database name
  let w := entry_write_u u name entry (mode == PA_UPDATE_REPLACE)
  if w.1 then do
    let (u, ev₂) ← write_signals w.2.1 name old entry
    let ev₃ ←
      match u.use_sink_volume with
      | some sv => ext_sink_set_volume sv entry.volume
      | none => some (if apply_immediately then [Event.entry_apply name entry] else [])
    pure (u, w.2.2 ++ ev₂ ++ ev₃)
  else pure (w.2.1, w.2.2)

/-- One iteration of the `while` loop of `SUBCOMMAND_WRITE` (lines 3064-3154) after the
five reads: `none` is a failed assertion, `some none` is `goto fail`. -/
def write_one (u : userdata) (mode : Nat) (apply_immediately : Bool) (it : write_item) :
    Option (Option (userdata × List Event)) :=
  match write_validate it with
  | none => some none
  | some (name, entry) =>
    match write_route u name entry with
    | none => none
    | some (u, ev₁) =>
      match write_store u mode apply_immediately name entry with
      | none => none
      | some (u, ev₂) => some (some (u, ev₁ ++ ev₂))

/-- The `while` loop of `SUBCOMMAND_WRITE` over the entries of the request; an entry
`none` is one whose tagstruct reads fail.  The result says whether the end of the
request was reached. -/
def write_loop (mode : Nat) (apply_immediately : Bool) :
    userdata → List Event → List (Option write_item) → Option (Bool × userdata × List Event)
  | u, ev, [] => some (true, u, ev)
  | u, ev, none :: _ => some (false, u, ev)
  | u, ev, some it :: rest =>
    match write_one u mode apply_immediately it with
    | none => none
    | some none => some (false, u, ev)
    | some (some (u', ev')) => write_loop mode apply_immediately u' (ev ++ ev') rest

/-- The case `SUBCOMMAND_WRITE` of `extension_cb` after the reads of `mode` and
`apply_immediately`: the return value of `extension_cb`, the state and the events. -/
def extension_write (now : Nat) (u : userdata) (mode : Nat) (apply_immediately : Bool)
    (items : List (Option write_item)) : Option (Int × userdata × List Event) :=
  if mode ≠ PA_UPDATE_MERGE ∧ mode ≠ PA_UPDATE_REPLACE ∧ mode ≠ PA_UPDATE_SET then
    some (-1, u, [])
  else
    let (u, ev₀) :=
      if mode = PA_UPDATE_SET then
        ({ u with dbus_entries := [], database := [] },
          u.dbus_entries.map Event.entry_removed_signal)
      else (u, [])
    match write_loop mode apply_immediately u ev₀ items with
    | none => none
    | some (false, u, ev) => some (-1, u, ev)
    | some (true, u, ev) =>
      match u.use_sink_volume with
      | some _ => some (0, u, ev)
      | none =>
        let s := trigger_save now u
        some (0, s.1, ev ++ s.2)

/-- The `while` loop of `SUBCOMMAND_DELETE` over the names of the request: `none` is a
name whose read fails, `some none` a `NULL` name, which the lookup dereferences. -/
def delete_loop : userdata → List Event → List (Option (Option String)) →
    Option (Bool × userdata × List Event)
  | u, ev, [] => some (true, u, ev)
  | u, ev, none :: _ => some (false, u, ev)
  | _, _, some none :: _ => none
  | u, ev, some (some name) :: rest =>
    let (u, ev') :=
      match dbus_entries_get u name with
      | some de => ((dbus_entries_remove u name).2, [Event.entry_removed_signal de])
      | none => (u, [])
    let u := { u with database := (pa_database_unset u.database name).2 }
    delete_loop u (ev ++ ev') rest

/-- The case `SUBCOMMAND_DELETE` of `extension_cb`. -/
def extension_delete (now : Nat) (u : userdata) (names : List (Option (Option String))) :
    Option (Int × userdata × List Event) :=
  match delete_loop u [] names with
  | none => none
  | some (false, u, ev) => some (-1, u, ev)
  | some (true, u, ev) =>
    let s := trigger_save now u
    some (0, s.1, ev ++ s.2)

/-- The C function `handle_add_entry` with the arguments of the D-Bus message. -/
def handle_add_entry (now : Nat) (u : userdata) (name : String) (device : List Nat)
    (volume : List (Nat × Nat)) (muted : Bool) (apply_immediately : Bool) :
    Option (userdata × List Event) :=
  match get_volume_arg volume with
  | none => some (u, [.dbus_error])
  | some (map, vol) =>
    if name = "" then some (u, [.dbus_error])
    else do
      let (u, e, ev₁) ←
        match dbus_entries_get u name with
        | some dbus_entry => do
          let e ← (← entry_read u.database name)
          let mute_updated := e.muted != muted
          let e := { e with muted := muted, muted_valid := true }
          let volume_updated :=
            (e.volume_valid != decide (map.channels ≠ 0)) || !pa_cvolume_equal e.volume vol
          let e := { e with volume := vol, channel_map := map,
                            volume_valid := decide (map.channels ≠ 0) }
          let device_updated :=
            (e.device_valid != !device.isEmpty) || !pa_safe_streq e.device (some device)
          let e := { e with device := some device, device_valid := !device.isEmpty }
          let u ← ext_set_route_volume_by_name u name e.volume
          let ev_m ← if mute_updated then send_mute_updated_signal dbus_entry e else some []
          let ev_v := if volume_updated then [Event.volume_updated_signal dbus_entry e] else []
          let ev_d := if device_updated then [Event.device_updated_signal dbus_entry e] else []
          pure (u, e, ev_m ++ ev_v ++ ev_d)
        | none => do
          let (dbus_entry, u) ← dbus_entry_new u name
          let e := { entry_new with muted_valid := true,
                                    volume_valid := decide (map.channels ≠ 0),
                                    device_valid := !device.isEmpty, muted := muted,
                                    volume := vol, channel_map := map,
                                    device := some device }
          pure (u, e, [Event.new_entry_signal dbus_entry])
      let w := entry_write_u u name e true
      if !w.1 then none
      else do
        let ev₂ := if apply_immediately then [Event.entry_apply name e] else []
        let s := trigger_save now w.2.1
        let ev₃ ← if e.volume_valid then ext_proxy_volume name e.volume else some []
        pure (s.1, ev₁ ++ w.2.2 ++ ev₂ ++ s.2 ++ ev₃ ++ [.dbus_reply])

/-- The C function `handle_entry_set_device`. -/
def handle_entry_set_device (now : Nat) (u : userdata) (de : dbus_entry)
    (device : List Nat) : Option (userdata × List Event) := do
  let e ← (← entry_read u.database de.entry_name)
  let updated := (e.device_valid != !device.isEmpty) || !pa_safe_streq e.device (some device)
  if updated then
    let e := { e with device := some device, device_valid := !device.isEmpty }
    let w := entry_write_u u de.entry_name e true
    if !w.1 then none
    else
      let s := trigger_save now w.2.1
      pure (s.1, w.2.2 ++ [.entry_apply de.entry_name e, .device_updated_signal de e] ++ s.2
        ++ [.dbus_reply])
  else pure (u, [.dbus_reply])

/-- The C function `handle_entry_set_volume`. -/
def handle_entry_set_volume (now : Nat) (u : userdata) (de : dbus_entry)
    (volume : List (Nat × Nat)) : Option (userdata × List Event) :=
  match get_volume_arg volume with
  | none => some (u, [.dbus_error])
  | some (map, vol) => do
    let e ← (← entry_read u.database de.entry_name)
    let updated :=
      (e.volume_valid != decide (map.channels ≠ 0)) || !pa_cvolume_equal e.volume vol
    if updated then do
      let e := { e with volume := vol, channel_map := map,
                        volume_valid := decide (map.channels ≠ 0) }
      let (u, ev₁) ←
        match ext_get_route_volume_by_name u de.entry_name with
        | some _ =>
          match u.use_sink_volume with
          | some sv => do
            let u ← ext_set_route_volumes u e.volume
            let ev ← ext_sink_set_volume sv e.volume
            pure (u, ev)
          | none => (ext_set_route_volume u de.entry_name e.volume).map (fun u => (u, []))
        | none => some (u, [])
      let w := entry_write_u u de.entry_name e true
      if !w.1 then none
      else do
        let ev₂ ← if e.volume_valid then ext_proxy_volume de.entry_name e.volume else some []
        let (u, ev₃) :=
          match w.2.1.use_sink_volume with
          | some _ => (w.2.1, [])
          | none =>
            let s := trigger_save now w.2.1
            (s.1, Event.entry_apply de.entry_name e :: s.2)
        pure (u, ev₁ ++ w.2.2 ++ ev₂ ++ ev₃ ++ [.volume_updated_signal de e, .dbus_reply])
    else pure (u, [.dbus_reply])

/-- The C function `handle_entry_set_mute`. -/
def handle_entry_set_mute (now : Nat) (u : userdata) (de : dbus_entry) (mute : Bool) :
    Option (userdata × List Event) := do
  let e ← (← entry_read u.database de.entry_name)
  let updated := !e.muted_valid || e.muted != mute
  if updated then do
    let e := { e with muted := mute, muted_valid := true }
    let w := entry_write_u u de.entry_name e true
    if !w.1 then none
    else do
      let ev ← send_mute_updated_signal de e
      let s := trigger_save now w.2.1
      pure (s.1, w.2.2 ++ [.entry_apply de.entry_name e] ++ ev ++ s.2 ++ [.dbus_reply])
  else pure (u, [.dbus_reply])

/-- The C function `handle_entry_remove`. -/
def handle_entry_remove (now : Nat) (u : userdata) (de : dbus_entry) :
    Option (userdata × List Event) :=
  let d := pa_database_unset u.database de.entry_name
  if d.1 ≠ 0 then none
  else
    let u := { u with database := d.2 }
    let s := trigger_save now u
    let r := dbus_entries_remove s.1 de.entry_name
    if r.1 < 0 then none
    else some (r.2, [.entry_removed_signal de] ++ s.2 ++ [.dbus_reply])

/-- The loop of `pa__init` that creates the initial D-Bus entries (lines 3456-3471),
over the keys of the main database. -/
def init_dbus_entries : userdata → List String → Option userdata
  | u, [] => some u
  | u, name :: rest =>
    match dbus_entry_new u name with
    | none => none
    | some (_, u) => init_dbus_entries u rest

/-- The deadlines of the timers created by a run of events. -/
def timers_created (ev : List Event) : List Nat :=
  ev.filterMap (fun e => match e with
    | .time_new d => some d
    | _ => none)

/-- The D-Bus signals among a run of events. -/
def signals_sent (ev : List Event) : List Event :=
  ev.filter (fun e => match e with
    | .new_entry_signal _ => true
    | .entry_removed_signal _ => true
    | .device_updated_signal _ _ => true
    | .volume_updated_signal _ _ => true
    | .mute_updated_signal _ _ => true
    | _ => false)

/-- The names passed to `pa_database_set` on the main database by a run of events. -/
def database_sets (ev : List Event) : List String :=
  ev.filterMap (fun e => match e with
    | .database_set name _ _ => some name
    | _ => none)

/-- The names whose `entry_write` succeeded in a run of events. -/
def stored_names (ev : List Event) : List String :=
  ev.filterMap (fun e => match e with
    | .database_set name _ true => some name
    | _ => none)

/-- The names passed to `entry_apply` by a run of events. -/
def applied_names (ev : List Event) : List String :=
  ev.filterMap (fun e => match e with
    | .entry_apply name _ => some name
    | _ => none)

/-- A remapping for the concrete examples: the volume is returned as it is, which is
what `pa_cvolume_remap` of libpulse does between equal channel maps (the examples
remap between equal maps only). -/
def same_map_lib : Lib where
  pa_cvolume_remap := fun v _ _ => v

/-- A playback stream for the examples: role `"music"`, volume 50000 on front left
and front right, muted, preferred sink `"sink0"` without card. -/
def music_stream : stream :=
  ⟨false, some "sink-input-by-media-role:music", true, true, true, ⟨[1, 2]⟩,
    ⟨[50000, 50000]⟩, true, true, some [115, 105, 110, 107, 48], none⟩

/-- A module state for the examples: the entry `sink0_entry` stored and mirrored for
the role `"music"`, no route, no route volumes, no pending timer. -/
def music_state : userdata :=
  ⟨[("sink-input-by-media-role:music", entry_record sink0_entry)], [], none,
    [⟨"sink-input-by-media-role:music", 0⟩], 1, [], true, none, [], none⟩

/-- The module state after loading with empty databases and no route table. -/
def fresh_state : userdata :=
  ⟨[], [], none, [], 0, [], true, none, [], none⟩

/-- A module state with empty databases, the route `"ihf"` and one route volume,
registered for the name `"phone"` with the volume 100. -/
def phone_state : userdata :=
  ⟨[], [], none, [], 0, [], true, some "ihf",
    [⟨"phone", ⟨[100]⟩, ⟨[]⟩, ⟨[100]⟩, false⟩], none⟩

/-- The state `phone_state` in a sink-volume mode. -/
def sink_volume_state : userdata :=
  { phone_state with use_sink_volume := some ⟨"btmono", "sink.hw1"⟩ }

/-- A write request entry for the name `"phone"`: mono volume 30000, no device, not
muted. -/
def phone_item : write_item :=
  ⟨some "phone", ⟨[0]⟩, ⟨[30000]⟩, none, false⟩

/-- A write request entry for the role `"music"`: device `"sink0"`, muted, volume 50000
on front left and front right. -/
def music_item : write_item :=
  ⟨some "sink-input-by-media-role:music", ⟨[1, 2]⟩, ⟨[50000, 50000]⟩,
    some [115, 105, 110, 107, 48], true⟩

/-- A new stream of the name `"phone"` with the mono volume 30000. -/
def phone_stream : stream :=
  ⟨false, some "phone", true, true, true, ⟨[0]⟩, ⟨[30000]⟩, false, false, none, none⟩

/-- The entry that a write request with `phone_item` stores. -/
def phone_entry : entry :=
  ⟨4, true, true, false, false, false, ⟨[0]⟩, ⟨[30000]⟩, none, none⟩

/-- The state `phone_state` after the entry `phone_entry` has been stored and mirrored
for `"phone"` and the route volume has taken its volume. -/
def phone_stored_state : userdata :=
  { phone_state with
      database := [("phone", entry_record phone_entry)],
      dbus_entries := [⟨"phone", 0⟩],
      next_index := 1,
      route_volumes := [⟨"phone", ⟨[30000]⟩, ⟨[]⟩, ⟨[100]⟩, false⟩] }

/-- An entry of a write request that makes the loop leave through `goto fail`: its
reads fail or it does not pass the checks of lines 3075-3097. -/
def item_rejected (it : Option write_item) : Bool :=
  match it with
  | none => true
  | some w => (write_validate w).isNone

/-- The stream `music_stream`, not muted. -/
def unmuted_music_stream : stream :=
  ⟨false, some "sink-input-by-media-role:music", true, true, true, ⟨[1, 2]⟩,
    ⟨[50000, 50000]⟩, true, false, some [115, 105, 110, 107, 48], none⟩

/-- The entry `sink0_entry`, not muted. -/
def unmuted_entry : entry :=
  ⟨4, true, true, true, false, false, ⟨[1, 2]⟩, ⟨[50000, 50000]⟩,
    some [115, 105, 110, 107, 48], none⟩

/-- A muted stream of the name `"x"` that saves its mute state only and has no
preferred device. -/
def muted_stream_x : stream :=
  ⟨false, some "x", false, false, false, ⟨[]⟩, ⟨[]⟩, true, true, none, none⟩

/-- The version of the records of the legacy format. -/
def LEGACY_ENTRY_VERSION : Nat := 3

/-- The size of the arrays `device` and `card` of `struct legacy_entry`. -/
def PA_NAME_MAX : Nat := 128

/-- The value `sizeof(struct legacy_entry)`: the packed structure has the version
byte, one byte of bit fields, a `pa_channel_map` and a `pa_cvolume` of 132 bytes each
(a count byte, three bytes of padding and 32 words) and two arrays of `PA_NAME_MAX`
bytes. -/
def LEGACY_ENTRY_SIZE : Nat := 2 + 132 + 132 + PA_NAME_MAX + PA_NAME_MAX

/-- The C type `struct legacy_entry` of `legacy_entry_read`; `device` and `card` are
the two arrays, byte for byte. -/
structure legacy_entry where
  version : Nat
  muted_valid : Bool
  volume_valid : Bool
  device_valid : Bool
  card_valid : Bool
  muted : Bool
  channel_map : pa_channel_map
  volume : pa_cvolume
  device : List Nat
  card : List Nat
  deriving DecidableEq, Repr

/-- The 32-bit word at an offset of a record, least significant byte first; bytes
past the end of the record count as zero. -/
def word_at (data : List Nat) (off : Nat) : Nat :=
  data.getD off 0 % 256 + 256 * (data.getD (off + 1) 0 % 256)
    + 65536 * (data.getD (off + 2) 0 % 256) + 16777216 * (data.getD (off + 3) 0 % 256)

/-- A 32-bit word read as `int`. -/
def int_of_word (w : Nat) : Int :=
  if w < 2147483648 then (w : Int) else (w : Int) - 4294967296

/-- The cast `(struct legacy_entry *) data.data`, in the layout that GCC gives the
packed structure on a little-endian target: the bit fields fill the second byte from
the least significant bit in the order of their declaration.  A channel map or volume
is the list of its leading `channels` entries; for a count above 32 the entries past
the array are the words that follow it in the record. -/
def legacy_entry_cast (data : List Nat) : legacy_entry :=
  let flags := data.getD 1 0
  { version := data.getD 0 0 % 256
    muted_valid := flags % 2 == 1
    volume_valid := flags / 2 % 2 == 1
    device_valid := flags / 4 % 2 == 1
    card_valid := flags / 8 % 2 == 1
    muted := flags / 16 % 2 == 1
    channel_map :=
      ⟨(List.range (data.getD 2 0 % 256)).map (fun i => int_of_word (word_at data (6 + 4 * i)))⟩
    volume :=
      ⟨(List.range (data.getD 134 0 % 256)).map (fun i => word_at data (138 + 4 * i))⟩
    device := (data.drop 266).take PA_NAME_MAX
    card := (data.drop (266 + PA_NAME_MAX)).take PA_NAME_MAX }

/-- The C string at the start of an array. -/
def string_of_array (buf : List Nat) : List Nat := buf.takeWhile (fun b => b != 0)

/-- The C function `legacy_entry_read` (compiled with
`ENABLE_LEGACY_DATABASE_ENTRY_FORMAT`): `none` is the return value `NULL`. -/
def legacy_entry_read (db : pa_database) (name : String) : Option entry :=
  match pa_database_get db name with
  | none => none
  | some data =>
    if data.length ≠ LEGACY_ENTRY_SIZE then none
    else
      let le := legacy_entry_cast data
      if le.version ≠ LEGACY_ENTRY_VERSION then none
      else if !le.device.contains 0 then none
      else if !le.card.contains 0 then none
      else if le.device_valid &&
          !(pa_namereg_is_valid_name (some (string_of_array le.device)) == some true) then none
      else if le.card_valid &&
          !(pa_namereg_is_valid_name (some (string_of_array le.card)) == some true) then none
      else if le.volume_valid && !pa_channel_map_valid le.channel_map then none
      else if le.volume_valid && (!pa_cvolume_valid le.volume ||
          !pa_cvolume_compatible_with_channel_map le.volume le.channel_map) then none
      else
        some { entry_new with
          muted_valid := le.muted_valid
          muted := le.muted
          volume_valid := le.volume_valid
          channel_map := le.channel_map
          volume := le.volume
          device_valid := le.device_valid
          device := some (string_of_array le.device)
          card_valid := le.card_valid
          card := some (string_of_array le.card) }

/-- The keys that `pa_database_first` and `pa_database_next` go through: every key of
the database once. -/
def pa_database_keys (db : pa_database) : List String := (db.map Prod.fst).dedup

/-- The first loop of `clean_up_db` over the keys of the database, with the lists
`to_be_removed` and `to_be_converted` (items are prepended); `none` is a failed
assertion inside `entry_read`. -/
def clean_up_scan (db : pa_database) :
    List String → List String → List (String × entry) →
      Option (List String × List (String × entry))
  | [], to_be_removed, to_be_converted => some (to_be_removed, to_be_converted)
  | entry_name :: rest, to_be_removed, to_be_converted =>
    match entry_read db entry_name with
    | none => none
    | some (some _) => clean_up_scan db rest to_be_removed to_be_converted
    | some none =>
      match legacy_entry_read db entry_name with
      | none => clean_up_scan db rest (entry_name :: to_be_removed) to_be_converted
      | some e => clean_up_scan db rest to_be_removed ((entry_name, e) :: to_be_converted)

/-- The second loop of `clean_up_db`: the removal of the invalid records;
`pa_database_unset` is asserted to succeed. -/
def clean_up_remove (now : Nat) : userdata → List Event → List String →
    Option (userdata × List Event)
  | u, ev, [] => some (u, ev)
  | u, ev, entry_name :: rest =>
    let d := pa_database_unset u.database entry_name
    if d.1 < 0 then none
    else
      let s := trigger_save now { u with database := d.2 }
      clean_up_remove now s.1 (ev ++ s.2) rest

/-- The third loop of `clean_up_db`: the legacy entries are written in the current
format (the asserted `entry_write(...) >= 0` holds for either return value). -/
def clean_up_convert (now : Nat) : userdata → List Event → List (String × entry) →
    userdata × List Event
  | u, ev, [] => (u, ev)
  | u, ev, (entry_name, e) :: rest =>
    let w := entry_write_u u entry_name e true
    let s := trigger_save now w.2.1
    clean_up_convert now s.1 (ev ++ w.2.2 ++ s.2) rest

/-- The C function `clean_up_db`. -/
def clean_up_db (now : Nat) (u : userdata) : Option (userdata × List Event) :=
  match clean_up_scan u.database (pa_database_keys u.database) [] [] with
  | none => none
  | some (to_be_removed, to_be_converted) =>
    match clean_up_remove now u [] to_be_removed with
    | none => none
    | some (u, ev) => some (clean_up_convert now u ev to_be_converted)

/-- Four bytes of a word, least significant first (for the example records). -/
def word_bytes (w : Nat) : List Nat :=
  [w % 256, w / 256 % 256, w / 65536 % 256, w / 16777216 % 256]

/-- A record of the legacy format for the examples, from the byte of bit fields, the
channel count and the positions of the channel map, the channel count and the values
of the volume, and the device and card strings. -/
def legacy_record (flags map_channels : Nat) (positions : List Nat) (volume_channels : Nat)
    (values : List Nat) (device card : List Nat) : List Nat :=
  [LEGACY_ENTRY_VERSION, flags] ++
    [map_channels, 0, 0, 0] ++
    ((positions ++ List.replicate 32 0).take 32).flatMap word_bytes ++
    [volume_channels, 0, 0, 0] ++
    ((values ++ List.replicate 32 0).take 32).flatMap word_bytes ++
    (device ++ List.replicate PA_NAME_MAX 0).take PA_NAME_MAX ++
    (card ++ List.replicate PA_NAME_MAX 0).take PA_NAME_MAX

/-- A legacy record without valid field whose channel map holds the count 33. -/
def legacy_junk_record : List Nat := legacy_record 0 33 [] 0 [] [] []

/-- A legacy record with the device `"sink0"`, muted, and the volume 50000 on front
left and front right. -/
def legacy_sink0_record : List Nat :=
  legacy_record 23 2 [1, 2] 2 [50000, 50000] [115, 105, 110, 107, 48] []

/-- The entry that `legacy_entry_read` returns for `legacy_sink0_record`. -/
def legacy_sink0_entry : entry :=
  ⟨4, true, true, true, false, true, ⟨[1, 2]⟩, ⟨[50000, 50000]⟩,
    some [115, 105, 110, 107, 48], some []⟩

/-- A module state before `clean_up_db`: a legacy record, a record that no reader
accepts and a record of the current format. -/
def legacy_state : userdata :=
  ⟨[("m", legacy_sink0_record), ("bad", [1, 2, 3]), ("ok", entry_record sink0_entry)], [],
    none, [], 0, [], true, none, [], none⟩

/-- What makes a legacy entry survive the conversion: it holds values of the C types
of `struct entry` and, when its volume is not valid, its channel map and volume have
at most `PA_CHANNELS_MAX` channels with positions in 0..255. -/
def legacy_convertible (e : entry) : Prop :=
  entry_typed e = true ∧
    (e.volume_valid = false → e.channel_map.channels ≤ PA_CHANNELS_MAX ∧
      e.volume.channels ≤ PA_CHANNELS_MAX ∧ ∀ p ∈ e.channel_map.map, 0 ≤ p ∧ p < 256)

/-- The C function `ext_read_route_entry`; the records of the route database are kept
as values of `struct ext_route_entry`, so the size test has nothing to reject. -/
def ext_read_route_entry (u : userdata) (name route : String) : Option ext_route_entry :=
  match u.route_database.find? (fun kv => kv.1 == ext_route_key name route) with
  | none => none
  | some kv =>
    if kv.2.version ≠ EXT_ROUTE_ENTRY_VERSION then none
    else if !pa_cvolume_valid kv.2.volume then none
    else some kv.2

/-- A module state with a route volume for the name `"a:b"`. -/
def colon_state : userdata :=
  ⟨[], [], none, [], 0, [], true, some "c", [⟨"a:b", ⟨[100]⟩, ⟨[]⟩, ⟨[100]⟩, false⟩], none⟩

end StreamRestore

namespace SharedData

open shared_item_type Ptr

/-! ## Lemmas on the item map -/

theorem hashmap_get_key {t : pa_shared_data} {key : String} {i : shared_item}
    (hg : pa_hashmap_get t key = some i) : i.key = key := by
  have := List.find?_some hg
  simpa using this

theorem hashmap_get_cons_pos {a : shared_item} {rest : pa_shared_data} {key : String}
    (ha : a.key = key) : pa_hashmap_get (a :: rest) key = some a := by
  unfold pa_hashmap_get
  exact List.find?_cons_of_pos _ (by simpa using ha)

theorem hashmap_get_cons_neg {a : shared_item} {rest : pa_shared_data} {key : String}
    (ha : a.key ≠ key) : pa_hashmap_get (a :: rest) key = pa_hashmap_get rest key := by
  unfold pa_hashmap_get
  exact List.find?_cons_of_neg _ (by simpa using ha)

theorem item_put_self {t : pa_shared_data} {key : String} {i : shared_item}
    (hg : pa_hashmap_get t key = some i) : item_put t i = t := by
  induction t with
  | nil => rfl
  | cons a rest ih =>
    by_cases ha : a.key = key
    · rw [hashmap_get_cons_pos ha] at hg
      cases hg
      simp [item_put]
    · rw [hashmap_get_cons_neg ha] at hg
      have hk : i.key = key := hashmap_get_key hg
      have : a.key ≠ i.key := by rw [hk]; exact ha
      simp only [item_put, this, if_false]
      rw [ih hg]

theorem hashmap_get_put {t : pa_shared_data} {key : String} {i j : shared_item}
    (hg : pa_hashmap_get t key = some i) (hj : j.key = key) :
    pa_hashmap_get (item_put t j) key = some j := by
  induction t with
  | nil => simp [pa_hashmap_get] at hg
  | cons a rest ih =>
    by_cases ha : a.key = key
    · have : a.key = j.key := by rw [hj]; exact ha
      simp only [item_put, this, if_true]
      exact hashmap_get_cons_pos hj
    · rw [hashmap_get_cons_neg ha] at hg
      have : a.key ≠ j.key := by rw [hj]; exact ha
      simp only [item_put, this, if_false]
      rw [hashmap_get_cons_neg ha]
      exact ih hg

theorem hashmap_get_append {t : pa_shared_data} {key : String} (i : shared_item)
    (hg : pa_hashmap_get t key = none) (hi : i.key = key) :
    pa_hashmap_get (t ++ [i]) key = some i := by
  unfold pa_hashmap_get at *
  rw [List.find?_append, hg]
  simp [hi]

theorem item_get_some {t : pa_shared_data} {key : String} {i : shared_item}
    (hg : pa_hashmap_get t key = some i) : item_get t key = (i, t) := by
  simp [item_get, hg]

theorem item_get_none {t : pa_shared_data} {key : String}
    (hg : pa_hashmap_get t key = none) :
    item_get t key = (⟨key, NONE, word 0, 0, 0⟩, t ++ [⟨key, NONE, word 0, 0, 0⟩]) := by
  simp [item_get, hg]

/-- After `GETI` the item is in the map under its key. -/
theorem item_get_spec (t : pa_shared_data) (key : String) :
    pa_hashmap_get (item_get t key).2 key = some (item_get t key).1 ∧
      (item_get t key).1.key = key := by
  cases hg : pa_hashmap_get t key with
  | none =>
    rw [item_get_none hg]
    exact ⟨hashmap_get_append _ hg rfl, rfl⟩
  | some i =>
    rw [item_get_some hg]
    exact ⟨hg, hashmap_get_key hg⟩

/-- An item that `GETI` returns with a type was in the map before. -/
theorem item_get_typed {t : pa_shared_data} {key : String}
    (hty : (item_get t key).1.type ≠ NONE) : (item_get t key).2 = t := by
  cases hg : pa_hashmap_get t key with
  | none => rw [item_get_none hg] at hty; exact absurd rfl hty
  | some i => rw [item_get_some hg]

/-- A second `GETI` on the result of a write-back finds the written item. -/
theorem item_get_put (t : pa_shared_data) (key : String) (j : shared_item)
    (hj : j.key = key) :
    item_get (item_put (item_get t key).2 j) key = (j, item_put (item_get t key).2 j) :=
  item_get_some (hashmap_get_put (item_get_spec t key).1 hj)

theorem wrap32_of_int32 {x : Int} (hx : is_int32 x) : wrap32 x = x := by
  unfold is_int32 at hx
  unfold wrap32
  omega

theorem cstr_terminated {v : List Nat} (hv : ∀ b ∈ v, b ≠ 0) : cstr (v ++ [0]) = v := by
  induction v with
  | nil => simp [cstr]
  | cons a rest ih =>
    have ha : a ≠ 0 := hv a (List.mem_cons_self _ _)
    have hrest : ∀ b ∈ rest, b ≠ 0 := fun b hb => hv b (List.mem_cons_of_mem _ hb)
    have := ih hrest
    unfold cstr at *
    simp [List.takeWhile_cons, ha, this]

/-! ## The blob setter and the item type -/

/-- C1 (type immutability), evaluated where it breaks: `pa_shared_data_setd` neither
tests nor sets the item type.  On a key that `pa_shared_data_set_boolean` has typed as
Bool it returns 0 and replaces the value; and a key first written by
`pa_shared_data_setd` is still untyped, so that `pa_shared_data_set_integer` returns 0
on it and replaces the blob. -/
theorem setd_ignores_item_type :
    pa_shared_data_set_boolean pulse [] "k" false
        = some ⟨0, [⟨"k", BOOL, word 0, 8, 0⟩], ["k"]⟩ ∧
      pa_shared_data_setd pulse [⟨"k", BOOL, word 0, 8, 0⟩] "k" [1, 2] 2
        = some ⟨0, [⟨"k", BOOL, heap [1, 2, 0], 8, 0⟩], ["k"]⟩ ∧
      pa_shared_data_setd pulse [] "k" [1, 2] 2
        = some ⟨0, [⟨"k", NONE, heap [1, 2, 0], 0, 0⟩], ["k"]⟩ ∧
      pa_shared_data_set_integer pulse [⟨"k", NONE, heap [1, 2, 0], 0, 0⟩] "k" 7
        = some ⟨0, [⟨"k", INTEGER, word 7, 8, 0⟩], ["k"]⟩ := by
  decide

/-! ## Failure leaves the store alone -/

theorem set_boolean_failure {h : Host} {t : pa_shared_data} {key : String} {value : Bool}
    {r : Result Int} (hr : pa_shared_data_set_boolean h t key value = some r)
    (hf : r.ret = -1) : r.store = t ∧ r.fired = [] := by
  unfold pa_shared_data_set_boolean at hr
  simp only at hr
  split at hr
  · rename_i hty
    cases hr
    exact ⟨item_get_typed hty.1, rfl⟩
  · split at hr
    · cases hv : PA_PTR_TO_UINT (item_get t key).1.value with
      | none => simp [hv] at hr
      | some u =>
        simp [hv] at hr
        subst hr
        simp at hf
    · simp at hr
      subst hr
      simp at hf

theorem set_integer_failure {h : Host} {t : pa_shared_data} {key : String} {value : Int}
    {r : Result Int} (hr : pa_shared_data_set_integer h t key value = some r)
    (hf : r.ret = -1) : r.store = t ∧ r.fired = [] := by
  unfold pa_shared_data_set_integer at hr
  simp only at hr
  split at hr
  · cases hr; exact ⟨rfl, rfl⟩
  · split at hr
    · cases hr; simp at hf
    · rename_i hty
      split at hr
      · cases hv : PA_PTR_TO_INT (item_get t key).1.value with
        | none => simp [hv] at hr
        | some cur =>
          simp [hv] at hr
          split at hr <;> (cases hr; simp at hf)
      · cases hr
        exact ⟨item_get_typed hty, rfl⟩

theorem inc_integer_failure {h : Host} {t : pa_shared_data} {key : String} {change : Int}
    {r : Result Int} (hr : pa_shared_data_inc_integer h t key change = some r)
    (hf : r.ret = -1) : r.store = t ∧ r.fired = [] := by
  unfold pa_shared_data_inc_integer at hr
  simp only at hr
  split at hr
  · cases hr; exact ⟨rfl, rfl⟩
  · split at hr
    · cases hr; exact ⟨rfl, rfl⟩
    · split at hr
      · rename_i hty
        cases hr
        exact ⟨item_get_typed hty.1, rfl⟩
      · simp only [bind, Option.bind] at hr
        split at hr
        · cases hr
        · simp only [pure] at hr
          split at hr <;> (cases hr; simp at hf)

theorem sets_failure {h : Host} {t : pa_shared_data} {key : String} {value : List Nat}
    {fire_always : Bool} {r : Result Int}
    (hr : shared_data_sets h t key value fire_always = some r)
    (hf : r.ret = -1) : r.store = t ∧ r.fired = [] := by
  unfold shared_data_sets at hr
  simp only at hr
  split at hr
  · cases hr; exact ⟨rfl, rfl⟩
  · split at hr
    · rename_i hty
      cases hr
      exact ⟨item_get_typed hty.1, rfl⟩
    · cases hval : (item_get t key).1.value with
      | word w =>
        rw [hval] at hr
        by_cases hw : w = 0
        · simp [hw] at hr
          subst hr
          simp at hf
        · simp [hw] at hr
      | heap buf =>
        rw [hval] at hr
        simp only [bind, Option.bind, pure] at hr
        split at hr <;> (cases hr; simp at hf)

theorem setd_failure {h : Host} {t : pa_shared_data} {key : String} {data : List Nat}
    {nbytes : Nat} {r : Result Int}
    (hr : pa_shared_data_setd h t key data nbytes = some r)
    (hf : r.ret = -1) : r.store = t ∧ r.fired = [] := by
  unfold pa_shared_data_setd at hr
  simp only at hr
  split at hr
  · cases hr; exact ⟨rfl, rfl⟩
  · split at hr
    · split at hr
      · cases hr
      · split at hr
        · cases hr
        · cases hr; simp at hf
    · split at hr
      · cases hr
      · cases hr; simp at hf

theorem get_integer_failure {h : Host} {t : pa_shared_data} {key : String}
    {r : Result (Int × Option Int)}
    (hr : pa_shared_data_get_integer h t key = some r)
    (hf : r.ret.1 = -1) : r.store = t ∧ r.fired = [] := by
  unfold pa_shared_data_get_integer at hr
  simp only at hr
  split at hr
  · cases hr; exact ⟨rfl, rfl⟩
  · split at hr
    · cases hr; exact ⟨rfl, rfl⟩
    · rename_i i hg
      rw [item_get_some hg] at hr
      simp only at hr
      split at hr
      · cases hr; exact ⟨rfl, rfl⟩
      · simp only [bind, Option.bind] at hr
        split at hr
        · cases hr
        · cases hr; exact ⟨rfl, rfl⟩

theorem getd_failure {h : Host} {t : pa_shared_data} {key : String}
    (hf : (pa_shared_data_getd h t key).ret.1 = -1) :
    (pa_shared_data_getd h t key).store = t ∧ (pa_shared_data_getd h t key).fired = [] := by
  unfold pa_shared_data_getd at hf ⊢
  simp only at hf ⊢
  split
  · exact ⟨rfl, rfl⟩
  · rename_i hk
    simp [hk] at hf

/-- C2 (failure atomicity): whenever one of `pa_shared_data_set_boolean`,
`set_integer`, `inc_integer`, `sets`, `sets_always`, `setd`, `get_integer` or `getd`
returns -1, the store after the call is the store before it (all items with their
type, value and byte length) and no change hook was fired. -/
theorem failure_atomicity (h : Host) (t : pa_shared_data) (c : Call) (r : Result Int)
    (hr : c.run h t = some r) (hf : r.ret = -1) : r.store = t ∧ r.fired = [] := by
  cases c with
  | set_boolean key value => exact set_boolean_failure hr hf
  | set_integer key value => exact set_integer_failure hr hf
  | inc_integer key change => exact inc_integer_failure hr hf
  | sets key value => exact sets_failure hr hf
  | sets_always key value => exact sets_failure hr hf
  | setd key data nbytes => exact setd_failure hr hf
  | get_integer key =>
    simp only [Call.run, Option.map_eq_some'] at hr
    obtain ⟨r', hr', rfl⟩ := hr
    exact get_integer_failure hr' hf
  | getd key =>
    simp only [Call.run, Option.some.injEq] at hr
    subst hr
    exact getd_failure hf

/-- Witness of C2: with `"k"` holding the string `"a"`, `set_integer("k", 5)` fails and
the store stays as it was. -/
theorem failure_atomicity_witness :
    (Call.set_integer "k" 5).run pulse [⟨"k", STR, heap [97, 0], 2, 0⟩]
        = some ⟨-1, [⟨"k", STR, heap [97, 0], 2, 0⟩], []⟩ ∧
      ((⟨-1, [⟨"k", STR, heap [97, 0], 2, 0⟩], []⟩ : Result Int).store
          = [⟨"k", STR, heap [97, 0], 2, 0⟩] ∧
        (⟨-1, [⟨"k", STR, heap [97, 0], 2, 0⟩], []⟩ : Result Int).fired = []) :=
  ⟨by decide,
    failure_atomicity pulse [⟨"k", STR, heap [97, 0], 2, 0⟩] (Call.set_integer "k" 5)
      ⟨-1, [⟨"k", STR, heap [97, 0], 2, 0⟩], []⟩ (by decide) rfl⟩

/-! ## Integers: no-op suppression -/

/-- C3 (no-op suppression for integers): if `pa_shared_data_set_integer(k, v)` with an
`int32_t` value `v` succeeds, the same call made again right away succeeds, fires no
hook and leaves the store as it is; over the two calls the hook of `k` is fired
exactly once when `k` was untyped or held another integer, and not at all
otherwise. -/
theorem set_integer_noop_suppression (h : Host) (t : pa_shared_data) (key : String)
    (v : Int) (r₁ : Result Int) (hv : is_int32 v)
    (h₁ : pa_shared_data_set_integer h t key v = some r₁) (hs : r₁.ret = 0) :
    ∃ r₂, pa_shared_data_set_integer h r₁.store key v = some r₂ ∧
      r₂ = ⟨0, r₁.store, []⟩ ∧
      r₁.fired ++ r₂.fired =
        (if (item_get t key).1.type = NONE ∨
            ((item_get t key).1.type = INTEGER ∧
              PA_PTR_TO_INT (item_get t key).1.value ≠ some v)
          then [key] else []) := by
  obtain ⟨hget, hkey⟩ := item_get_spec t key
  unfold pa_shared_data_set_integer at h₁
  simp only at h₁
  split at h₁
  · cases h₁; simp at hs
  · rename_i hvalid
    have hwritten : ∀ j : shared_item, j.key = key → j.type = INTEGER → j.value = word v →
        pa_shared_data_set_integer h (item_put (item_get t key).2 j) key v
          = some ⟨0, item_put (item_get t key).2 j, []⟩ := by
      intro j hj hty hval
      unfold pa_shared_data_set_integer
      simp only [hvalid, if_false, item_get_put t key j hj, hty, hval, PA_PTR_TO_INT,
        wrap32_of_int32 hv]
      simp
    split at h₁
    · rename_i hnone
      cases h₁
      refine ⟨_, hwritten _ hkey rfl rfl, rfl, ?_⟩
      simp [hnone, hkey]
    · rename_i hnone
      split at h₁
      · rename_i hint
        cases hcur : PA_PTR_TO_INT (item_get t key).1.value with
        | none => simp [hcur] at h₁
        | some cur =>
          simp only [hcur, bind, Option.bind, pure] at h₁
          split at h₁
          · rename_i heq
            cases h₁
            refine ⟨⟨0, (item_get t key).2, []⟩, ?_, rfl, ?_⟩
            · have hsame : (item_get t key).2 = t := item_get_typed hnone
              simp only [hsame]
              unfold pa_shared_data_set_integer
              simp [hvalid, hnone, hint, hcur, heq, hsame]
            · simp [hnone, hint, hcur, heq]
          · rename_i hne
            cases h₁
            refine ⟨_, hwritten _ hkey hint rfl, rfl, ?_⟩
            simp [hnone, hint, hcur, hne, hkey]
      · cases h₁; simp at hs

/-- Witness of C3 on the empty store with key `"x-sailfishos.volume.sync"` and value 1. -/
theorem set_integer_noop_suppression_witness :
    is_int32 1 ∧
      pa_shared_data_set_integer pulse [] "x-sailfishos.volume.sync" 1
        = some ⟨0, [⟨"x-sailfishos.volume.sync", INTEGER, word 1, 8, 0⟩],
            ["x-sailfishos.volume.sync"]⟩ ∧
      ∃ r₂, pa_shared_data_set_integer pulse
          [⟨"x-sailfishos.volume.sync", INTEGER, word 1, 8, 0⟩]
          "x-sailfishos.volume.sync" 1 = some r₂ ∧
        r₂ = ⟨0, [⟨"x-sailfishos.volume.sync", INTEGER, word 1, 8, 0⟩], []⟩ ∧
        ["x-sailfishos.volume.sync"] ++ r₂.fired =
          (if (item_get [] "x-sailfishos.volume.sync").1.type = NONE ∨
              ((item_get [] "x-sailfishos.volume.sync").1.type = INTEGER ∧
                PA_PTR_TO_INT (item_get [] "x-sailfishos.volume.sync").1.value ≠ some 1)
            then ["x-sailfishos.volume.sync"] else []) :=
  ⟨by decide, by decide,
    set_integer_noop_suppression pulse [] "x-sailfishos.volume.sync" 1
      ⟨0, [⟨"x-sailfishos.volume.sync", INTEGER, word 1, 8, 0⟩],
        ["x-sailfishos.volume.sync"]⟩ (by decide) (by decide) rfl⟩

/-! ## Strings: change detection and forced firing -/

theorem stored_text_eq (t : pa_shared_data) (key : String) :
    stored_text t key =
      match (item_get t key).1.value with
      | heap buf => some (cstr buf)
      | word _ => none := by
  unfold stored_text
  cases hg : pa_hashmap_get t key with
  | none => rw [item_get_none hg]
  | some i => rw [item_get_some hg]

/-- A string setter applied to an item that already holds the text. -/
theorem sets_on_stored {h : Host} {s : pa_shared_data} {key : String} {v buf : List Nat}
    {j : shared_item} (fire_always : Bool)
    (hk : h.pa_proplist_key_valid key = true) (hu : h.pa_utf8_valid v = true)
    (hg : pa_hashmap_get s key = some j) (hty : j.type = NONE ∨ j.type = STR)
    (hval : j.value = heap buf) (hbuf : cstr buf = v) :
    shared_data_sets h s key v fire_always
      = some ⟨0, s, if fire_always then [key] else []⟩ := by
  have hjk : j.key = key := hashmap_get_key hg
  unfold shared_data_sets
  simp only [hk, hu, item_get_some hg, hval, hbuf]
  rcases hty with hty | hty <;> simp [hty, hjk]

/-- What a successful string setter does. -/
theorem sets_success {h : Host} {t : pa_shared_data} {key : String} {v : List Nat}
    {fire_always : Bool} {r : Result Int} (hv0 : ∀ b ∈ v, b ≠ 0)
    (hr : shared_data_sets h t key v fire_always = some r) (hs : r.ret = 0) :
    r.fired = (if fire_always || !decide (stored_text t key = some v) then [key] else []) ∧
      stored_text r.store key = some v ∧
      ∀ f, shared_data_sets h r.store key v f = some ⟨0, r.store, if f then [key] else []⟩ := by
  obtain ⟨hget, hkey⟩ := item_get_spec t key
  have htext := stored_text_eq t key
  unfold shared_data_sets at hr
  simp only at hr
  split at hr
  · cases hr; simp at hs
  · rename_i hvalid
    simp only [Bool.or_eq_true, Bool.not_eq_true', not_or, Bool.not_eq_false] at hvalid
    obtain ⟨hk, hu⟩ := hvalid
    split at hr
    · cases hr; simp at hs
    · rename_i hty
      have hty' : (item_get t key).1.type = NONE ∨ (item_get t key).1.type = STR := by
        by_contra hcon
        exact hty ⟨fun hn => hcon (Or.inl hn), fun hn => hcon (Or.inr hn)⟩
      have hchanged : ∀ f, shared_data_sets h
          (item_put (item_get t key).2
            ⟨(item_get t key).1.key, STR, heap (v ++ [0]), v.length + 1,
              (item_get t key).1.changed_hook⟩) key v f
          = some ⟨0, item_put (item_get t key).2
            ⟨(item_get t key).1.key, STR, heap (v ++ [0]), v.length + 1,
              (item_get t key).1.changed_hook⟩, if f then [key] else []⟩ :=
        fun f => sets_on_stored f hk hu (hashmap_get_put hget hkey) (Or.inr rfl) rfl
          (cstr_terminated hv0)
      have hchanged_text : stored_text
          (item_put (item_get t key).2
            ⟨(item_get t key).1.key, STR, heap (v ++ [0]), v.length + 1,
              (item_get t key).1.changed_hook⟩) key = some v := by
        unfold stored_text
        rw [hashmap_get_put hget (j := ⟨(item_get t key).1.key, STR, heap (v ++ [0]),
          v.length + 1, (item_get t key).1.changed_hook⟩) hkey]
        simp [cstr_terminated hv0]
      cases hval : (item_get t key).1.value with
      | word w =>
        rw [hval] at hr htext
        by_cases hw : w = 0
        · simp [hw] at hr
          subst hr
          refine ⟨?_, hchanged_text, hchanged⟩
          simp [htext, hkey]
        · simp [hw] at hr
      | heap buf =>
        rw [hval] at hr htext
        simp only [bind, Option.bind, pure] at hr
        by_cases hbuf : cstr buf = v
        · simp [hbuf] at hr
          subst hr
          refine ⟨?_, ?_, ?_⟩
          · simp [htext, hbuf, hkey]
          · unfold stored_text
            rw [hget]
            simp only [hval, hbuf]
          · exact fun f => sets_on_stored f hk hu hget hty' hval hbuf
        · simp [hbuf] at hr
          subst hr
          refine ⟨?_, hchanged_text, hchanged⟩
          simp [htext, hbuf, hkey]

/-- The hooks of the string setters, for a C string `v` (no NUL byte) and any store, in
terms of the text at `item->value` (not of what `pa_shared_data_gets` returns): every
successful `pa_shared_data_sets_always(k, v)` fires the hook of `k` exactly once and
leaves the text `v` at the item; a successful `pa_shared_data_sets(k, v)` fires the
hook once when the text at the item differed from `v` (or there was none) and not at
all when it was `v`; and once `pa_shared_data_sets(k, v)` has succeeded, a repeated
`pa_shared_data_sets(k, v)` fires nothing while `pa_shared_data_sets_always(k, v)`
fires once, both leaving the store as it is. -/
theorem sets_force_fire (h : Host) (t : pa_shared_data) (key : String) (v : List Nat)
    (hv0 : ∀ b ∈ v, b ≠ 0) :
    (∀ r, pa_shared_data_sets_always h t key v = some r → r.ret = 0 →
        r.fired = [key] ∧ stored_text r.store key = some v) ∧
      (∀ r, pa_shared_data_sets h t key v = some r → r.ret = 0 →
        r.fired = (if stored_text t key = some v then [] else [key]) ∧
          stored_text r.store key = some v ∧
          pa_shared_data_sets h r.store key v = some ⟨0, r.store, []⟩ ∧
          pa_shared_data_sets_always h r.store key v = some ⟨0, r.store, [key]⟩) := by
  constructor
  · intro r hr hs
    obtain ⟨hf, htxt, _⟩ := sets_success hv0 hr hs
    exact ⟨by simpa using hf, htxt⟩
  · intro r hr hs
    obtain ⟨hf, htxt, hrep⟩ := sets_success hv0 hr hs
    refine ⟨?_, htxt, ?_, ?_⟩
    · rw [hf]
      by_cases htx : stored_text t key = some v <;> simp [htx]
    · simpa using hrep false
    · simpa using hrep true

/-- The hooks of the string setters with the text `"on"` on the empty store. -/
theorem sets_force_fire_witness :
    (∀ b ∈ [111, 110], b ≠ 0) ∧
      pa_shared_data_sets pulse [] "k" [111, 110]
        = some ⟨0, [⟨"k", STR, heap [111, 110, 0], 3, 0⟩], ["k"]⟩ ∧
      pa_shared_data_sets pulse [⟨"k", STR, heap [111, 110, 0], 3, 0⟩] "k" [111, 110]
        = some ⟨0, [⟨"k", STR, heap [111, 110, 0], 3, 0⟩], []⟩ ∧
      pa_shared_data_sets_always pulse [⟨"k", STR, heap [111, 110, 0], 3, 0⟩] "k" [111, 110]
        = some ⟨0, [⟨"k", STR, heap [111, 110, 0], 3, 0⟩], ["k"]⟩ :=
  ⟨by decide, by decide,
    (((sets_force_fire pulse [] "k" [111, 110] (by decide)).2
      ⟨0, [⟨"k", STR, heap [111, 110, 0], 3, 0⟩], ["k"]⟩ (by decide) rfl).2.2).1,
    (((sets_force_fire pulse [] "k" [111, 110] (by decide)).2
      ⟨0, [⟨"k", STR, heap [111, 110, 0], 3, 0⟩], ["k"]⟩ (by decide) rfl).2.2).2⟩

/-- C5 (blob round trip), evaluated where it breaks: `pa_shared_data_setd` stores the
three bytes 1, 2, 3 (and the terminator) but leaves `nbytes` alone, so that
`pa_shared_data_getd` reports the length 0 with them. -/
theorem getd_length_after_setd :
    pa_shared_data_setd pulse [] "k" [1, 2, 3] 3
        = some ⟨0, [⟨"k", NONE, heap [1, 2, 3, 0], 0, 0⟩], ["k"]⟩ ∧
      pa_shared_data_getd pulse [⟨"k", NONE, heap [1, 2, 3, 0], 0, 0⟩] "k"
        = ⟨(0, some (heap [1, 2, 3, 0], 0)), [⟨"k", NONE, heap [1, 2, 3, 0], 0, 0⟩], []⟩ := by
  decide

/-- C6 (string round trip), evaluated where it breaks: after
`pa_shared_data_setd("k", "abc", 3)` the item is untyped and holds the bytes of
`"abc"`; `pa_shared_data_sets("k", "abc")` then finds the text unchanged, returns 0
without setting the type, and `pa_shared_data_gets("k")` returns `NULL`. -/
theorem gets_absent_after_sets :
    pulse.pa_proplist_key_valid "k" = true ∧ pulse.pa_utf8_valid [97, 98, 99] = true ∧
      pa_shared_data_setd pulse [] "k" [97, 98, 99] 3
        = some ⟨0, [⟨"k", NONE, heap [97, 98, 99, 0], 0, 0⟩], ["k"]⟩ ∧
      pa_shared_data_sets pulse [⟨"k", NONE, heap [97, 98, 99, 0], 0, 0⟩] "k" [97, 98, 99]
        = some ⟨0, [⟨"k", NONE, heap [97, 98, 99, 0], 0, 0⟩], []⟩ ∧
      pa_shared_data_sets_always pulse [⟨"k", NONE, heap [97, 98, 99, 0], 0, 0⟩] "k"
          [97, 98, 99]
        = some ⟨0, [⟨"k", NONE, heap [97, 98, 99, 0], 0, 0⟩], ["k"]⟩ ∧
      pa_shared_data_gets [⟨"k", NONE, heap [97, 98, 99, 0], 0, 0⟩] "k"
        = ⟨word 0, [⟨"k", NONE, heap [97, 98, 99, 0], 0, 0⟩], []⟩ := by
  decide

/-- C4 (force-fire override), evaluated where it breaks: after
`pa_shared_data_setd("k", "abc", 3)` the item is untyped and holds the bytes of
`"abc"`.  `pa_shared_data_sets_always("k", "abc")` then returns 0 and fires the hook of
`"k"` once, but finds the text unchanged and leaves the item untyped, so that
`pa_shared_data_gets("k")` returns `NULL`: the stored string is not `"abc"`.  In the
same state `pa_shared_data_sets("k", "abc")` returns 0 without firing, although
`pa_shared_data_gets` reports no stored string.  On the empty store the same
`pa_shared_data_sets_always` call leaves a string that `pa_shared_data_gets`
returns. -/
theorem sets_always_leaves_gets_absent :
    pa_shared_data_setd pulse [] "k" [97, 98, 99] 3
        = some ⟨0, [⟨"k", NONE, heap [97, 98, 99, 0], 0, 0⟩], ["k"]⟩ ∧
      pa_shared_data_sets_always pulse [⟨"k", NONE, heap [97, 98, 99, 0], 0, 0⟩] "k"
          [97, 98, 99]
        = some ⟨0, [⟨"k", NONE, heap [97, 98, 99, 0], 0, 0⟩], ["k"]⟩ ∧
      (pa_shared_data_gets [⟨"k", NONE, heap [97, 98, 99, 0], 0, 0⟩] "k").ret = word 0 ∧
      pa_shared_data_sets pulse [⟨"k", NONE, heap [97, 98, 99, 0], 0, 0⟩] "k" [97, 98, 99]
        = some ⟨0, [⟨"k", NONE, heap [97, 98, 99, 0], 0, 0⟩], []⟩ ∧
      pa_shared_data_sets_always pulse [] "k" [97, 98, 99]
        = some ⟨0, [⟨"k", STR, heap [97, 98, 99, 0], 4, 0⟩], ["k"]⟩ ∧
      (pa_shared_data_gets [⟨"k", STR, heap [97, 98, 99, 0], 4, 0⟩] "k").ret
        = heap [97, 98, 99, 0] := by
  decide

/-! ## Increment -/

/-- C7 as stated fails for the delta 0: on the empty key, which
`pa_proplist_key_valid` rejects, `pa_shared_data_inc_integer` returns 0. -/
theorem inc_integer_zero_invalid_key :
    pulse.pa_proplist_key_valid "" = false ∧
      pa_shared_data_inc_integer pulse [] "" 0 = some ⟨0, [], []⟩ := by
  decide

/-- C7, amended: for a key that fails property-key validation,
`pa_shared_data_inc_integer` returns -1 for every delta other than 0 and returns 0 for
the delta 0; in both cases the store is untouched and no hook is fired. -/
theorem inc_integer_invalid_key (h : Host) (t : pa_shared_data) (key : String)
    (change : Int) (hk : h.pa_proplist_key_valid key = false) :
    pa_shared_data_inc_integer h t key change
      = some ⟨if change = 0 then 0 else -1, t, []⟩ := by
  unfold pa_shared_data_inc_integer
  by_cases hc : change = 0
  · simp [hc]
  · simp [hc, hk]

/-- Witness of the amended C7: the empty key with the delta 1. -/
theorem inc_integer_invalid_key_witness :
    pulse.pa_proplist_key_valid "" = false ∧
      pa_shared_data_inc_integer pulse [] "" 1
        = some ⟨if (1 : Int) = 0 then 0 else -1, [], []⟩ :=
  ⟨by decide, inc_integer_invalid_key pulse [] "" 1 (by decide)⟩

theorem wrap32_is_int32 (x : Int) : is_int32 (wrap32 x) := by
  unfold is_int32 wrap32
  omega

theorem get_integer_on_integer {h : Host} {s : pa_shared_data} {key : String}
    {j : shared_item} {y : Int} (hk : h.pa_proplist_key_valid key = true)
    (hg : pa_hashmap_get s key = some j) (hty : j.type = INTEGER)
    (hval : PA_PTR_TO_INT j.value = some y) :
    pa_shared_data_get_integer h s key = some ⟨(0, some y), s, []⟩ := by
  unfold pa_shared_data_get_integer
  simp [hk, hg, item_get_some hg, hty, hval]

/-- An increment of an item that holds an integer. -/
theorem inc_on_integer {h : Host} {s : pa_shared_data} {key : String}
    {j : shared_item} {y d : Int} (hk : h.pa_proplist_key_valid key = true)
    (hg : pa_hashmap_get s key = some j) (hty : j.type = INTEGER)
    (hval : PA_PTR_TO_INT j.value = some y) (hd : is_int32 d)
    (hd0 : d ≠ 0) :
    pa_shared_data_inc_integer h s key d
      = some ⟨0, item_put s ⟨j.key, INTEGER, word (wrap32 (d + y)), j.nbytes,
          j.changed_hook⟩, [key]⟩ := by
  have hjk : j.key = key := hashmap_get_key hg
  have hne : wrap32 (d + y) ≠ y := by
    unfold is_int32 at hd
    unfold wrap32
    omega
  unfold pa_shared_data_inc_integer
  simp [hd0, hk, item_get_some hg, hty, hval, hne, hjk, PA_INT_TO_PTR]

/-- C8 (increment semantics): let the item of a valid key `k` be untyped (`x = 0`) or
hold the integer `x`, and let `d` be an `int32_t`.  If `d ≠ 0`, then
`pa_shared_data_inc_integer(k, d)` returns 0 and fires the hook of `k` exactly once,
`pa_shared_data_get_integer(k)` then yields `x + d` reduced to 32 bits, and a following
increment by `-d` returns 0 after which `pa_shared_data_get_integer(k)` yields `x`
again.  An increment by 0 returns 0, fires nothing and leaves the store, with or
without an item for the key, untouched. -/
theorem inc_integer_semantics (h : Host) (t : pa_shared_data) (key : String) (x d : Int)
    (hk : h.pa_proplist_key_valid key = true) (hd : is_int32 d)
    (hitem : ((item_get t key).1.type = NONE ∧ x = 0) ∨
      ((item_get t key).1.type = INTEGER ∧
        PA_PTR_TO_INT (item_get t key).1.value = some x)) :
    (d ≠ 0 → ∃ r, pa_shared_data_inc_integer h t key d = some r ∧ r.ret = 0 ∧
        r.fired = [key] ∧
        pa_shared_data_get_integer h r.store key
          = some ⟨(0, some (wrap32 (x + d))), r.store, []⟩ ∧
        ∃ r', pa_shared_data_inc_integer h r.store key (wrap32 (-d)) = some r' ∧
          r'.ret = 0 ∧ r'.fired = [key] ∧
          pa_shared_data_get_integer h r'.store key = some ⟨(0, some x), r'.store, []⟩) ∧
      (∀ k, pa_shared_data_inc_integer h t k 0 = some ⟨0, t, []⟩) := by
  obtain ⟨hget, hkey⟩ := item_get_spec t key
  refine ⟨fun hd0 => ?_, fun k => by simp [pa_shared_data_inc_integer]⟩
  have hx : is_int32 x := by
    rcases hitem with ⟨_, hx0⟩ | ⟨_, hval⟩
    · subst hx0; decide
    · cases hv : (item_get t key).1.value with
      | word w =>
        rw [hv] at hval
        simp only [PA_PTR_TO_INT, Option.some.injEq] at hval
        rw [← hval]
        exact wrap32_is_int32 w
      | heap buf => rw [hv] at hval; simp [PA_PTR_TO_INT] at hval
  -- what the first increment leaves behind
  have hback : ∀ (s : pa_shared_data) (j : shared_item),
      pa_hashmap_get s key = some j → j.type = INTEGER → j.value = word (wrap32 (d + x)) →
      pa_shared_data_get_integer h s key = some ⟨(0, some (wrap32 (x + d))), s, []⟩ ∧
        ∃ r', pa_shared_data_inc_integer h s key (wrap32 (-d)) = some r' ∧
          r'.ret = 0 ∧ r'.fired = [key] ∧
          pa_shared_data_get_integer h r'.store key = some ⟨(0, some x), r'.store, []⟩ := by
    intro s j hg hty hval
    have hjk : j.key = key := hashmap_get_key hg
    have hcur : PA_PTR_TO_INT j.value = some (wrap32 (x + d)) := by
      rw [hval]
      simp only [PA_PTR_TO_INT, Option.some.injEq]
      unfold wrap32
      omega
    have hneg : wrap32 (-d) ≠ 0 := by
      unfold is_int32 at hd
      unfold wrap32
      omega
    have hres : wrap32 (wrap32 (-d) + wrap32 (x + d)) = x := by
      unfold is_int32 at hx
      unfold wrap32
      omega
    refine ⟨get_integer_on_integer hk hg hty hcur, _,
      inc_on_integer hk hg hty hcur (wrap32_is_int32 _) hneg, rfl, rfl,
      ?_⟩
    refine get_integer_on_integer
      (j := ⟨j.key, INTEGER, word (wrap32 (wrap32 (-d) + wrap32 (x + d))), j.nbytes,
        j.changed_hook⟩) hk (hashmap_get_put hg hjk) rfl ?_
    simp only [PA_PTR_TO_INT, Option.some.injEq]
    rw [hres]
    exact wrap32_of_int32 hx
  rcases hitem with ⟨hnone, hx0⟩ | ⟨hint, hval⟩
  · subst hx0
    have hdd : wrap32 d = d := wrap32_of_int32 hd
    have hrun : pa_shared_data_inc_integer h t key d
        = some ⟨0, item_put (item_get t key).2
            ⟨(item_get t key).1.key, INTEGER, word d, h.sizeof_ptr,
              (item_get t key).1.changed_hook⟩, [key]⟩ := by
      unfold pa_shared_data_inc_integer
      have h0 : wrap32 0 = 0 := by decide
      simp [hd0, hk, hnone, PA_INT_TO_PTR, PA_PTR_TO_INT, h0, hdd, hkey]
    refine ⟨_, hrun, rfl, rfl, ?_⟩
    exact hback _ _ (hashmap_get_put hget hkey) rfl (by simp [hdd])
  · have hty : (item_get t key).1.type ≠ NONE := by rw [hint]; decide
    have hsame : (item_get t key).2 = t := item_get_typed hty
    rw [hsame] at hget
    refine ⟨_, inc_on_integer hk hget hint hval hd hd0, rfl, rfl, ?_⟩
    exact hback _ _ (hashmap_get_put hget hkey) rfl rfl

/-- Witness of C8: the volume-sync counter, absent at first, incremented by 1 and
then by -1. -/
theorem inc_integer_semantics_witness :
    pulse.pa_proplist_key_valid "x-sailfishos.volume.sync" = true ∧ is_int32 1 ∧
      ((1 : Int) ≠ 0 → ∃ r,
        pa_shared_data_inc_integer pulse [] "x-sailfishos.volume.sync" 1 = some r ∧
        r.ret = 0 ∧ r.fired = ["x-sailfishos.volume.sync"] ∧
        pa_shared_data_get_integer pulse r.store "x-sailfishos.volume.sync"
          = some ⟨(0, some (wrap32 (0 + 1))), r.store, []⟩ ∧
        ∃ r', pa_shared_data_inc_integer pulse r.store "x-sailfishos.volume.sync"
            (wrap32 (-1)) = some r' ∧
          r'.ret = 0 ∧ r'.fired = ["x-sailfishos.volume.sync"] ∧
          pa_shared_data_get_integer pulse r'.store "x-sailfishos.volume.sync"
            = some ⟨(0, some 0), r'.store, []⟩) :=
  ⟨by decide, by decide,
    (inc_integer_semantics pulse [] "x-sailfishos.volume.sync" 0 1 (by decide) (by decide)
      (Or.inl ⟨by decide, rfl⟩)).1⟩

end SharedData

namespace MainVolume

/-! ## Step selection is a clamped lower bound -/

theorem sorted_getD {steps : List Nat} (hs : steps.Pairwise (· ≤ ·)) {a b : Nat}
    (hab : a ≤ b) (hb : b < steps.length) : steps.getD a 0 ≤ steps.getD b 0 := by
  have ha : a < steps.length := lt_of_le_of_lt hab hb
  rw [List.getD_eq_getElem _ _ ha, List.getD_eq_getElem _ _ hb]
  rcases Nat.lt_or_eq_of_le hab with hlt | heq
  · exact List.pairwise_iff_getElem.mp hs a b ha hb hlt
  · subst heq; exact le_refl _

/-- The loop ends within `high - low` iterations and keeps the bracket: everything
below the result is smaller than `vol`, everything from the result on is not. -/
theorem search_loop_spec {steps : List Nat} (vol : Nat) (hs : steps.Pairwise (· ≤ ·)) :
    ∀ (fuel low high : Nat), high - low ≤ fuel → low ≤ high → high ≤ steps.length →
      (∀ k, k < low → steps.getD k 0 < vol) →
      (∀ k, high ≤ k → k < steps.length → vol ≤ steps.getD k 0) →
      ∃ r, search_loop steps vol fuel low high = some r ∧ r ≤ steps.length ∧
        (∀ k, k < r → steps.getD k 0 < vol) ∧
        (∀ k, r ≤ k → k < steps.length → vol ≤ steps.getD k 0) := by
  intro fuel
  induction fuel with
  | zero =>
    intro low high hf hle hlen hlo hhi
    have : low = high := by omega
    subst this
    exact ⟨low, by simp [search_loop], hlen, hlo, hhi⟩
  | succ fuel ih =>
    intro low high hf hle hlen hlo hhi
    by_cases hlt : low < high
    · have hmid : low + (high - low) / 2 < high := by omega
      have hmidlen : low + (high - low) / 2 < steps.length := by omega
      have hget : steps[low + (high - low) / 2]? = some (steps.getD (low + (high - low) / 2) 0) := by
        rw [List.getD_eq_getElem _ _ hmidlen]
        exact List.getElem?_eq_getElem hmidlen
      unfold search_loop
      simp only [hlt, if_true, hget]
      by_cases hv : steps.getD (low + (high - low) / 2) 0 < vol
      · simp only [hv, if_true]
        refine ih _ _ (by omega) (by omega) hlen ?_ hhi
        intro k hk
        exact lt_of_le_of_lt (sorted_getD hs (by omega) hmidlen) hv
      · simp only [hv, if_false]
        refine ih _ _ (by omega) (by omega) (by omega) hlo ?_
        intro k hk hklen
        exact le_trans (not_lt.mp hv) (sorted_getD hs hk hklen)
    · have : low = high := by omega
      subst this
      exact ⟨low, by simp [search_loop], hlen, hlo, hhi⟩

/-- C9 (step selection is a clamped lower bound): for a non-empty ascending table of
`n` steps (`n` a `uint32_t`) and any volume, `mv_search_step` returns (the loop ends)
an index `i < n` below which every step is smaller than `vol`; `steps[i] >= vol` if any
step is `>= vol`, so that `i` is the least such index, and `i = n - 1` if no step is.
On the table 0, 10, ..., 90 with the volume 15 the result is 2. -/
theorem mv_search_step_lower_bound (steps : List Nat) (vol : Nat) (hne : steps ≠ [])
    (hn : steps.length < 4294967296) (hs : steps.Pairwise (· ≤ ·)) :
    (∃ i, mv_search_step steps steps.length vol = some i ∧ i < steps.length ∧
        (∀ k, k < i → steps.getD k 0 < vol) ∧
        ((∃ k, k < steps.length ∧ vol ≤ steps.getD k 0) → vol ≤ steps.getD i 0) ∧
        ((∀ k, k < steps.length → steps.getD k 0 < vol) → i = steps.length - 1)) ∧
      mv_search_step [0, 10, 20, 30, 40, 50, 60, 70, 80, 90] 10 15 = some 2 := by
  refine ⟨?_, by decide⟩
  have hpos : 0 < steps.length := List.length_pos.mpr hne
  obtain ⟨r, hr, hrlen, hlo, hhi⟩ :=
    search_loop_spec vol hs steps.length 0 steps.length (by omega) (by omega) (le_refl _)
      (fun k hk => absurd hk (Nat.not_lt_zero k)) (fun k hk hk' => absurd hk' (by omega))
  unfold mv_search_step
  rw [hr]
  by_cases hlt : r < steps.length
  · refine ⟨r, by simp [hlt], hlt, hlo, fun _ => hhi r (le_refl _) hlt, ?_⟩
    intro hall
    exact absurd (hall r hlt) (not_lt.mpr (hhi r (le_refl _) hlt))
  · have hreq : r = steps.length := by omega
    subst hreq
    have hwrap : (steps.length + 4294967296 - 1) % 4294967296 = steps.length - 1 := by
      omega
    refine ⟨steps.length - 1, by simp only [lt_irrefl, if_false, hwrap], by omega, ?_, ?_,
      fun _ => rfl⟩
    · intro k hk
      exact hlo k (by omega)
    · rintro ⟨k, hk, hvk⟩
      exact absurd (hlo k hk) (not_lt.mpr hvk)

/-- Witness of C9: a volume above the last step of the table 0, 10, ..., 90 selects
the last index. -/
theorem mv_search_step_lower_bound_witness :
    [0, 10, 20, 30, 40, 50, 60, 70, 80, 90] ≠ ([] : List Nat) ∧
      [0, 10, 20, 30, 40, 50, 60, 70, 80, 90].Pairwise (· ≤ ·) ∧
      mv_search_step [0, 10, 20, 30, 40, 50, 60, 70, 80, 90] 10 95 = some 9 ∧
      ∃ i, mv_search_step [0, 10, 20, 30, 40, 50, 60, 70, 80, 90]
          [0, 10, 20, 30, 40, 50, 60, 70, 80, 90].length 95 = some i ∧
        i < [0, 10, 20, 30, 40, 50, 60, 70, 80, 90].length :=
  ⟨by decide, by decide, by decide,
    (mv_search_step_lower_bound [0, 10, 20, 30, 40, 50, 60, 70, 80, 90] 95 (by decide)
      (by decide) (by decide)).1.imp (fun _ hi => ⟨hi.1, hi.2.1⟩)⟩

end MainVolume

namespace StreamRestore

/-! ## Entry round trip -/

theorem read_u8s_append (l rest : List Nat) :
    read_u8s l.length (l ++ rest) = some (l, rest) := by
  induction l with
  | nil => simp [read_u8s]
  | cons a l ih => simp [read_u8s, ih]

theorem read_u32s_append (vs rest : List Nat) (hvs : ∀ v ∈ vs, v < 4294967296) :
    read_u32s vs.length ((vs.map write_u32).flatten ++ rest) = some (vs, rest) := by
  induction vs with
  | nil => simp [read_u32s]
  | cons a vs ih =>
    have ha : a < 4294967296 := hvs a (List.mem_cons_self _ _)
    have hrest : ∀ v ∈ vs, v < 4294967296 := fun v hv => hvs v (List.mem_cons_of_mem _ hv)
    have hval : a / 16777216 % 256 * 16777216 + a / 65536 % 256 * 65536 +
        a / 256 % 256 * 256 + a % 256 = a := by omega
    simp [read_u32s, write_u32, ih hrest, hval]

theorem read_string_append (s rest : List Nat) (hs : ∀ b ∈ s, b ≠ 0) :
    read_string (s ++ 0 :: rest) = some (s, rest) := by
  induction s with
  | nil => simp [read_string]
  | cons a s ih =>
    have ha : a ≠ 0 := hs a (List.mem_cons_self _ _)
    have hrest : ∀ b ∈ s, b ≠ 0 := fun b hb => hs b (List.mem_cons_of_mem _ hb)
    simp [read_string, ha, ih hrest]

theorem getu8_putu8 (c : Nat) (rest : List Nat) (hc : c < 256) :
    pa_tagstruct_getu8 (pa_tagstruct_putu8 [] c ++ rest) = some (c, rest) := by
  simp [pa_tagstruct_putu8, pa_tagstruct_getu8, Nat.mod_eq_of_lt hc]

theorem get_boolean_put_boolean (b : Bool) (rest : List Nat) :
    pa_tagstruct_get_boolean (pa_tagstruct_put_boolean [] b ++ rest) = some (b, rest) := by
  cases b <;> simp [pa_tagstruct_put_boolean, pa_tagstruct_get_boolean]

theorem get_channel_map_put_channel_map (m : pa_channel_map) (rest : List Nat)
    (hn : m.channels ≤ PA_CHANNELS_MAX) (hp : ∀ p ∈ m.map, 0 ≤ p ∧ p < 256) :
    pa_tagstruct_get_channel_map (pa_tagstruct_put_channel_map [] m ++ rest)
      = some (m, rest) := by
  have hlt : m.channels < 256 := by unfold PA_CHANNELS_MAX at hn; omega
  have hlen : (m.map.map (fun p => (p % 256).toNat)).length = m.channels := by
    simp [pa_channel_map.channels]
  have hback : (m.map.map (fun p => (p % 256).toNat)).map Int.ofNat = m.map := by
    rw [List.map_map]
    conv_rhs => rw [← List.map_id m.map]
    apply List.map_congr_left
    intro p hpm
    have hpr := hp p hpm
    have hmod : p % 256 = p := Int.emod_eq_of_lt hpr.1 hpr.2
    simp only [Function.comp, id, hmod]
    exact Int.toNat_of_nonneg hpr.1
  have hread := read_u8s_append (m.map.map (fun p => (p % 256).toNat)) rest
  rw [hlen] at hread
  have hnot : ¬ m.channels > PA_CHANNELS_MAX := by omega
  simp only [pa_tagstruct_put_channel_map, List.nil_append, List.cons_append,
    List.append_assoc, pa_tagstruct_get_channel_map, Nat.mod_eq_of_lt hlt, hnot, if_false,
    hread, hback]

theorem get_cvolume_put_cvolume (v : pa_cvolume) (rest : List Nat)
    (hn : v.channels ≤ PA_CHANNELS_MAX) (hv : ∀ x ∈ v.values, x < 4294967296) :
    pa_tagstruct_get_cvolume (pa_tagstruct_put_cvolume [] v ++ rest) = some (v, rest) := by
  have hlt : v.channels < 256 := by unfold PA_CHANNELS_MAX at hn; omega
  have hread := read_u32s_append v.values rest hv
  have hnot : ¬ v.channels > PA_CHANNELS_MAX := by omega
  have hch : v.values.length = v.channels := rfl
  rw [hch] at hread
  simp only [pa_tagstruct_put_cvolume, List.nil_append, List.cons_append,
    List.append_assoc, pa_tagstruct_get_cvolume, Nat.mod_eq_of_lt hlt, hnot, if_false,
    hread]

theorem gets_puts (s : Option (List Nat)) (rest : List Nat)
    (hs : ∀ x, s = some x → ∀ b ∈ x, b ≠ 0) :
    pa_tagstruct_gets (pa_tagstruct_puts [] s ++ rest) = some (s, rest) := by
  cases s with
  | none => simp [pa_tagstruct_puts, pa_tagstruct_gets]
  | some x =>
    have := read_string_append x rest (hs x rfl)
    simp [pa_tagstruct_puts, pa_tagstruct_gets, this]

/-- The record of an entry is the concatenation of the records of its fields. -/
theorem entry_record_eq (e : entry) :
    entry_record e =
      pa_tagstruct_putu8 [] e.version ++ (pa_tagstruct_put_boolean [] e.volume_valid ++
      (pa_tagstruct_put_channel_map [] e.channel_map ++
      (pa_tagstruct_put_cvolume [] e.volume ++
      (pa_tagstruct_put_boolean [] e.muted_valid ++ (pa_tagstruct_put_boolean [] e.muted ++
      (pa_tagstruct_put_boolean [] e.device_valid ++ (pa_tagstruct_puts [] e.device ++
      (pa_tagstruct_put_boolean [] e.card_valid ++
      (pa_tagstruct_puts [] e.card ++ []))))))))) := by
  cases hd : e.device <;> cases hc : e.card <;>
    simp [entry_record, pa_tagstruct_putu8, pa_tagstruct_put_boolean,
      pa_tagstruct_put_channel_map, pa_tagstruct_put_cvolume, pa_tagstruct_puts, hd, hc]

theorem database_get_set (db : pa_database) (key : String) (data : List Nat) :
    pa_database_set db key data true = (0, (pa_database_set db key data true).2) ∧
      pa_database_get (pa_database_set db key data true).2 key = some data := by
  simp [pa_database_set, pa_database_get]

theorem entry_parse_record (e : entry) (hver : e.version ≤ ENTRY_VERSION)
    (hmap : e.channel_map.channels ≤ PA_CHANNELS_MAX)
    (hpos : ∀ p ∈ e.channel_map.map, 0 ≤ p ∧ p < 256)
    (hcv : e.volume.channels ≤ PA_CHANNELS_MAX)
    (hval : ∀ x ∈ e.volume.values, x < 4294967296)
    (hdev : ∀ x, e.device = some x → ∀ b ∈ x, b ≠ 0)
    (hcard : ∀ x, e.card = some x → ∀ b ∈ x, b ≠ 0) :
    entry_parse (entry_record e) = some (e, []) := by
  have hv256 : e.version < 256 := by unfold ENTRY_VERSION at hver; omega
  have hnot : ¬ e.version > ENTRY_VERSION := by omega
  rw [entry_record_eq]
  unfold entry_parse
  simp only [getu8_putu8 _ _ hv256, get_boolean_put_boolean,
    get_channel_map_put_channel_map _ _ hmap hpos, get_cvolume_put_cvolume _ _ hcv hval,
    gets_puts _ _ hdev, gets_puts _ _ hcard, Option.bind_eq_bind, Option.some_bind, hnot,
    if_false, Option.pure_def]

theorem entry_typed_spec {e : entry} (ht : entry_typed e = true) :
    (∀ p ∈ e.channel_map.map, -2147483648 ≤ p ∧ p ≤ 2147483647) ∧
      (∀ x ∈ e.volume.values, x < 4294967296) ∧
      (∀ x, e.device = some x → ∀ b ∈ x, b ≠ 0) ∧
      (∀ x, e.card = some x → ∀ b ∈ x, b ≠ 0) := by
  unfold entry_typed at ht
  simp only [Bool.and_eq_true, decide_eq_true_eq, List.all_eq_true] at ht
  obtain ⟨⟨⟨⟨⟨⟨_, _⟩, _⟩, hp⟩, hx⟩, hd⟩, hc⟩ := ht
  refine ⟨hp, hx, ?_, ?_⟩
  · intro x hx b hb
    rw [hx] at hd
    simp only [List.all_eq_true, decide_eq_true_eq] at hd
    exact (hd b hb).1
  · intro x hx b hb
    rw [hx] at hc
    simp only [List.all_eq_true, decide_eq_true_eq] at hc
    exact (hc b hb).1

theorem channel_map_valid_spec {m : pa_channel_map} (hm : pa_channel_map_valid m = true) :
    m.channels ≤ PA_CHANNELS_MAX ∧ ∀ p ∈ m.map, 0 ≤ p ∧ p < 256 := by
  unfold pa_channel_map_valid at hm
  simp only [Bool.and_eq_true, decide_eq_true_eq, List.all_eq_true] at hm
  refine ⟨hm.1.2, fun p hp => ?_⟩
  have := hm.2 p hp
  unfold PA_CHANNEL_POSITION_MAX at this
  omega

/-- C10 as stated fails on entries whose volume is not flagged valid: they pass every
check named in the claim, yet with 33 channels in the channel map field the record
written by `entry_write` is refused by `entry_read`, and with a channel at position -1
`entry_read` returns an entry with position 255 instead. -/
theorem entry_round_trip_junk_channel_map :
    (entry_typed entry_33_channels = true ∧ entry_33_channels.version ≤ ENTRY_VERSION ∧
        entry_33_channels.device_valid = false ∧ entry_33_channels.card_valid = false ∧
        entry_33_channels.volume_valid = false ∧
        (entry_write [] "x" entry_33_channels true).1 = true ∧
        entry_read (entry_write [] "x" entry_33_channels true).2 "x" = some none) ∧
      (entry_typed entry_invalid_position = true ∧
        entry_invalid_position.version ≤ ENTRY_VERSION ∧
        entry_invalid_position.device_valid = false ∧
        entry_invalid_position.card_valid = false ∧
        entry_invalid_position.volume_valid = false ∧
        (entry_write [] "x" entry_invalid_position true).1 = true ∧
        entry_read (entry_write [] "x" entry_invalid_position true).2 "x"
          = some (some { entry_invalid_position with channel_map := ⟨[255]⟩ }) ∧
        ({ entry_invalid_position with channel_map := ⟨[255]⟩ } : entry)
          ≠ entry_invalid_position) := by
  decide

/-- What `entry_read` returns after `entry_write` with `replace` set. -/
theorem entry_read_entry_write (db : pa_database) (name : String) (e : entry)
    (ht : entry_typed e = true) (hver : e.version ≤ ENTRY_VERSION)
    (hdev : e.device_valid = true → pa_namereg_is_valid_name e.device = some true)
    (hcard : e.card_valid = true → pa_namereg_is_valid_name e.card = some true)
    (hvol : e.volume_valid = true → pa_channel_map_valid e.channel_map = true ∧
      pa_cvolume_valid e.volume = true ∧ e.volume.channels = e.channel_map.channels)
    (hjunk : e.volume_valid = false → e.channel_map.channels ≤ PA_CHANNELS_MAX ∧
      e.volume.channels ≤ PA_CHANNELS_MAX ∧ ∀ p ∈ e.channel_map.map, 0 ≤ p ∧ p < 256) :
    (entry_write db name e true).1 = true ∧
      entry_read (entry_write db name e true).2 name = some (some e) := by
  obtain ⟨_, hval, hd0, hc0⟩ := entry_typed_spec ht
  have hshape : e.channel_map.channels ≤ PA_CHANNELS_MAX ∧
      e.volume.channels ≤ PA_CHANNELS_MAX ∧ ∀ p ∈ e.channel_map.map, 0 ≤ p ∧ p < 256 := by
    cases hvv : e.volume_valid with
    | false => exact hjunk hvv
    | true =>
      obtain ⟨hm, _, hsame⟩ := hvol hvv
      obtain ⟨hm1, hm2⟩ := channel_map_valid_spec hm
      exact ⟨hm1, by rw [hsame]; exact hm1, hm2⟩
  obtain ⟨hmap, hcv, hpos⟩ := hshape
  have hparse := entry_parse_record e hver hmap hpos hcv hval hd0 hc0
  have hchecks : entry_checks e [] = some true := by
    have hdev' : e.device_valid = false ∨
        (e.device_valid = true ∧ pa_namereg_is_valid_name e.device = some true) := by
      cases hdv : e.device_valid with
      | false => exact Or.inl rfl
      | true => exact Or.inr ⟨rfl, hdev hdv⟩
    have hcard' : e.card_valid = false ∨
        (e.card_valid = true ∧ pa_namereg_is_valid_name e.card = some true) := by
      cases hcv : e.card_valid with
      | false => exact Or.inl rfl
      | true => exact Or.inr ⟨rfl, hcard hcv⟩
    have hvol' : e.volume_valid = false ∨
        (e.volume_valid = true ∧ pa_channel_map_valid e.channel_map = true ∧
          pa_cvolume_valid e.volume = true ∧
          pa_cvolume_compatible_with_channel_map e.volume e.channel_map = true) := by
      cases hvv : e.volume_valid with
      | false => exact Or.inl rfl
      | true =>
        obtain ⟨hm, hv, hsame⟩ := hvol hvv
        exact Or.inr ⟨rfl, hm, hv, by simp [pa_cvolume_compatible_with_channel_map, hm, hv, hsame]⟩
    unfold entry_checks
    rcases hdev' with hd | ⟨hd, hd'⟩ <;> rcases hcard' with hc | ⟨hc, hc'⟩ <;>
      rcases hvol' with hv | ⟨hv, hv1, hv2, hv3⟩ <;>
      simp [pa_tagstruct_eof, *]
  obtain ⟨hset, hget⟩ := database_get_set db name (entry_record e)
  refine ⟨?_, ?_⟩
  · unfold entry_write
    rw [hset]
    rfl
  · unfold entry_write entry_read
    simp only [hget, hparse, hchecks]

/-- C10, amended (entry round trip): let `e` hold values of the C types of
`struct entry`, with version <= 4, device and card valid names whenever flagged valid,
and a valid channel map and a valid volume of the same channel count whenever
`volume_valid`; let, when `volume_valid` is false, the channel map and the volume have
at most `PA_CHANNELS_MAX` channels and the channel positions lie in 0..255.  Then
`entry_write(name, e, replace = true)` succeeds and `entry_read(name)` afterwards
returns `e` (version, flags, muted, channel map, volumes, device and card). -/
theorem entry_round_trip (db : pa_database) (name : String) (e : entry)
    (ht : entry_typed e = true) (hver : e.version ≤ ENTRY_VERSION)
    (hdev : e.device_valid = true → pa_namereg_is_valid_name e.device = some true)
    (hcard : e.card_valid = true → pa_namereg_is_valid_name e.card = some true)
    (hvol : e.volume_valid = true → pa_channel_map_valid e.channel_map = true ∧
      pa_cvolume_valid e.volume = true ∧ e.volume.channels = e.channel_map.channels)
    (hjunk : e.volume_valid = false → e.channel_map.channels ≤ PA_CHANNELS_MAX ∧
      e.volume.channels ≤ PA_CHANNELS_MAX ∧ ∀ p ∈ e.channel_map.map, 0 ≤ p ∧ p < 256) :
    (entry_write db name e true).1 = true ∧
      entry_read (entry_write db name e true).2 name = some (some e) :=
  entry_read_entry_write db name e ht hver hdev hcard hvol hjunk

/-- Witness of the amended C10: the entry with device `"sink0"`, muted, and the volume
50000 on front left and front right. -/
theorem entry_round_trip_witness :
    entry_typed sink0_entry = true ∧ sink0_entry.version ≤ ENTRY_VERSION ∧
      pa_namereg_is_valid_name sink0_entry.device = some true ∧
      pa_channel_map_valid sink0_entry.channel_map = true ∧
      pa_cvolume_valid sink0_entry.volume = true ∧
      (entry_write [] "sink-input-by-media-role:music" sink0_entry true).1 = true ∧
      entry_read (entry_write [] "sink-input-by-media-role:music" sink0_entry true).2
        "sink-input-by-media-role:music" = some (some sink0_entry) :=
  ⟨by decide, by decide, by decide, by decide, by decide,
    entry_round_trip [] "sink-input-by-media-role:music" sink0_entry (by decide)
      (by decide) (fun _ => by decide) (fun h => absurd h (by decide))
      (fun _ => by decide) (fun h => absurd h (by decide))⟩

end StreamRestore

namespace StreamRestore

/-! ## Reading records: version and validation -/

theorem entry_parse_version {data : List Nat} {e : entry} {t : List Nat}
    (h : entry_parse data = some (e, t)) : e.version ≤ ENTRY_VERSION := by
  unfold entry_parse at h
  obtain ⟨⟨version, t₁⟩, _, h⟩ := Option.bind_eq_some.mp h
  dsimp only at h
  by_cases hv : version > ENTRY_VERSION
  · rw [if_pos hv] at h
    exact absurd h (by intro h'; cases h')
  · rw [if_neg hv] at h
    obtain ⟨_, _, h⟩ := Option.bind_eq_some.mp h
    obtain ⟨⟨_, _⟩, _, h⟩ := Option.bind_eq_some.mp h
    obtain ⟨⟨_, _⟩, _, h⟩ := Option.bind_eq_some.mp h
    obtain ⟨⟨_, _⟩, _, h⟩ := Option.bind_eq_some.mp h
    obtain ⟨⟨_, _⟩, _, h⟩ := Option.bind_eq_some.mp h
    obtain ⟨⟨_, _⟩, _, h⟩ := Option.bind_eq_some.mp h
    obtain ⟨⟨_, _⟩, _, h⟩ := Option.bind_eq_some.mp h
    obtain ⟨⟨_, _⟩, _, h⟩ := Option.bind_eq_some.mp h
    obtain ⟨⟨_, _⟩, _, h⟩ := Option.bind_eq_some.mp h
    obtain ⟨⟨_, _⟩, _, h⟩ := Option.bind_eq_some.mp h
    cases h
    exact not_lt.mp hv

theorem entry_parse_bad_version (v : Nat) (rest : List Nat) (hv : ENTRY_VERSION < v) :
    entry_parse (66 :: v :: rest) = none := by
  unfold entry_parse
  have hget : pa_tagstruct_getu8 (66 :: v :: rest) = some (v, rest) := rfl
  rw [hget]
  dsimp only [Option.bind_eq_bind, Option.some_bind]
  rw [if_pos hv]
  rfl

theorem bind_not_eq_some_true {x : Option Bool} {k : Option Bool}
    (h : (x.bind fun y => if (!y) = true then some false else k) = some true) :
    x = some true ∧ k = some true := by
  rcases x with _ | _ | _
  · simp at h
  · simp at h
  · exact ⟨rfl, by simpa using h⟩

theorem volume_checks_true {vv m cv cc : Bool}
    (h : (if (vv && !m) = true then some false
      else if (vv && (!cv || !cc)) = true then some false else some true) = some true) :
    vv = true → m = true ∧ cv = true ∧ cc = true := by
  cases vv <;> cases m <;> cases cv <;> cases cc <;> simp at h ⊢

theorem entry_checks_true {e : entry} {t : List Nat} (h : entry_checks e t = some true) :
    t = [] ∧
      (e.device_valid = true → pa_namereg_is_valid_name e.device = some true) ∧
      (e.card_valid = true → pa_namereg_is_valid_name e.card = some true) ∧
      (e.volume_valid = true → pa_channel_map_valid e.channel_map = true ∧
        pa_cvolume_valid e.volume = true ∧
        pa_cvolume_compatible_with_channel_map e.volume e.channel_map = true) := by
  unfold entry_checks at h
  cases t with
  | cons a t => simp [pa_tagstruct_eof] at h
  | nil =>
    refine ⟨rfl, ?_⟩
    simp only [pa_tagstruct_eof, List.isEmpty_nil, Bool.not_true, Bool.false_eq_true,
      if_false, Option.bind_eq_bind] at h
    cases hd : e.device_valid <;> cases hc : e.card_valid <;>
      simp only [hd, hc, Bool.false_eq_true, if_false, if_true, Option.some_bind,
        Bool.not_true, false_implies, true_implies, true_and, and_true] at h ⊢
    · exact volume_checks_true h
    · obtain ⟨h₁, h₂⟩ := bind_not_eq_some_true h
      exact ⟨h₁, volume_checks_true h₂⟩
    · obtain ⟨h₁, h₂⟩ := bind_not_eq_some_true h
      exact ⟨h₁, volume_checks_true h₂⟩
    · obtain ⟨h₁, h₂⟩ := bind_not_eq_some_true h
      obtain ⟨h₃, h₄⟩ := bind_not_eq_some_true h₂
      exact ⟨h₁, h₃, volume_checks_true h₄⟩

/-- C11 (version rejection): for a stored record whose version field (the byte after
the tag `B`) is greater than `ENTRY_VERSION`, whatever bytes follow, `entry_read`
returns `NULL` without a failed assertion (it only reads the database); and an entry
is returned only when the record parses completely, with no byte left, has a version
of at most `ENTRY_VERSION` and passes the device-name, card-name, channel-map and
volume checks. -/
theorem entry_read_version_rejection (db : pa_database) (name : String) :
    (∀ v rest, pa_database_get db name = some (66 :: v :: rest) → ENTRY_VERSION < v →
        entry_read db name = some none) ∧
      (∀ e, entry_read db name = some (some e) →
        ∃ data, pa_database_get db name = some data ∧ entry_parse data = some (e, []) ∧
          e.version ≤ ENTRY_VERSION ∧
          (e.device_valid = true → pa_namereg_is_valid_name e.device = some true) ∧
          (e.card_valid = true → pa_namereg_is_valid_name e.card = some true) ∧
          (e.volume_valid = true → pa_channel_map_valid e.channel_map = true ∧
            pa_cvolume_valid e.volume = true ∧
            pa_cvolume_compatible_with_channel_map e.volume e.channel_map = true)) := by
  constructor
  · intro v rest hget hv
    have hparse := entry_parse_bad_version v rest hv
    unfold entry_read
    rw [hget]
    simp only [hparse]
  · intro e he
    unfold entry_read at he
    cases hget : pa_database_get db name with
    | none => simp [hget] at he
    | some data =>
      simp only [hget] at he
      cases hparse : entry_parse data with
      | none => simp [hparse] at he
      | some p =>
        obtain ⟨e', t⟩ := p
        simp only [hparse] at he
        cases hchk : entry_checks e' t with
        | none => simp [hchk] at he
        | some b =>
          cases b with
          | false => simp [hchk] at he
          | true =>
            simp only [hchk, Option.some.injEq] at he
            subst he
            obtain ⟨ht, hrest⟩ := entry_checks_true hchk
            subst ht
            exact ⟨data, rfl, hparse, entry_parse_version hparse, hrest⟩

/-- Witness of C11: a record with the version 5. -/
theorem entry_read_version_rejection_witness :
    pa_database_get [("x", [66, 5, 49])] "x" = some (66 :: 5 :: [49]) ∧ ENTRY_VERSION < 5 ∧
      entry_read [("x", [66, 5, 49])] "x" = some none :=
  ⟨by decide, by decide,
    (entry_read_version_rejection [("x", [66, 5, 49])] "x").1 5 [49] (by decide) (by decide)⟩

end StreamRestore

namespace StreamRestore

/-! ## The save timer -/

theorem route_writes_frame (route : String) (rs : List ext_route_volume) (u : userdata) :
    rs.foldl (fun u r => ext_route_entry_write u r route) u =
      { u with route_database :=
          (rs.foldl (fun u r => ext_route_entry_write u r route) u).route_database } := by
  induction rs generalizing u with
  | nil => rfl
  | cons r rs ih =>
    rw [List.foldl_cons, ih]
    unfold ext_route_entry_write
    split <;> rfl

/-- What `trigger_save` does: it may rewrite the route database, and it arms the timer
unless one is pending. -/
theorem trigger_save_spec (now : Nat) (u : userdata) :
    ∃ rdb, trigger_save now u =
      ({ u with route_database := rdb,
                save_time_event := some (u.save_time_event.getD (now + SAVE_INTERVAL)) },
        u.subscribed.map Event.subscription_event ++
          (if u.save_time_event.isSome then [] else [Event.time_new (now + SAVE_INTERVAL)])) := by
  have hroute : ∃ rdb,
      (if !u.restore_route_volume then u
        else match u.route with
          | none => u
          | some route => u.route_volumes.foldl (fun u r => ext_route_entry_write u r route) u)
        = { u with route_database := rdb } := by
    split
    · exact ⟨u.route_database, rfl⟩
    · split
      · exact ⟨u.route_database, rfl⟩
      · exact ⟨_, route_writes_frame _ u.route_volumes u⟩
  obtain ⟨rdb, hrdb⟩ := hroute
  refine ⟨rdb, ?_⟩
  unfold trigger_save
  simp only [hrdb]
  cases hs : u.save_time_event with
  | none => simp
  | some d => simp

theorem trigger_save_pending (now : Nat) (u : userdata) :
    (trigger_save now u).1.save_time_event.isSome = true := by
  obtain ⟨rdb, h⟩ := trigger_save_spec now u
  rw [h]
  rfl

/-- C14 (debounce batching): from a state without pending save timer, three calls of
`trigger_save` at the times `t1`, `t2`, `t3` create exactly one timer, for
`t1 + SAVE_INTERVAL`, which the second and the third call leave as it is; when it
fires, `save_time_callback` frees it, syncs the main and the route database once each
and leaves no timer pending, and the next `trigger_save` arms a new one.  (The order
of the three times plays no part.) -/
theorem trigger_save_debounce (u : userdata) (t1 t2 t3 : Nat)
    (h0 : u.save_time_event = none) :
    (trigger_save t1 u).1.save_time_event = some (t1 + SAVE_INTERVAL) ∧
      (trigger_save t2 (trigger_save t1 u).1).1.save_time_event = some (t1 + SAVE_INTERVAL) ∧
      (trigger_save t3 (trigger_save t2 (trigger_save t1 u).1).1).1.save_time_event
        = some (t1 + SAVE_INTERVAL) ∧
      timers_created ((trigger_save t1 u).2 ++ (trigger_save t2 (trigger_save t1 u).1).2 ++
        (trigger_save t3 (trigger_save t2 (trigger_save t1 u).1).1).2)
        = [t1 + SAVE_INTERVAL] ∧
      ∃ u', save_time_callback (trigger_save t3 (trigger_save t2 (trigger_save t1 u).1).1).1
          (t1 + SAVE_INTERVAL)
          = some (u', [.time_free (t1 + SAVE_INTERVAL), .database_sync false,
              .database_sync true]) ∧
        u'.save_time_event = none ∧
        ∀ t4, (trigger_save t4 u').1.save_time_event = some (t4 + SAVE_INTERVAL) ∧
          timers_created (trigger_save t4 u').2 = [t4 + SAVE_INTERVAL] := by
  have hsub : ∀ l : List Nat, timers_created (l.map Event.subscription_event) = [] := by
    intro l
    induction l with
    | nil => rfl
    | cons a l ih => simp [timers_created]
  have hfresh : ∀ (t : Nat) (v : userdata), v.save_time_event = none →
      (trigger_save t v).1.save_time_event = some (t + SAVE_INTERVAL) ∧
        timers_created (trigger_save t v).2 = [t + SAVE_INTERVAL] := by
    intro t v hv
    obtain ⟨rdb, h⟩ := trigger_save_spec t v
    rw [h, hv]
    refine ⟨rfl, ?_⟩
    have := hsub v.subscribed
    simp only [timers_created, List.filterMap_append] at this ⊢
    rw [this]
    rfl
  have hpending : ∀ (t d : Nat) (v : userdata), v.save_time_event = some d →
      (trigger_save t v).1.save_time_event = some d ∧
        timers_created (trigger_save t v).2 = [] := by
    intro t d v hv
    obtain ⟨rdb, h⟩ := trigger_save_spec t v
    rw [h, hv]
    refine ⟨rfl, ?_⟩
    have := hsub v.subscribed
    simp only [timers_created, List.filterMap_append] at this ⊢
    rw [this]
    rfl
  obtain ⟨h1, e1⟩ := hfresh t1 u h0
  obtain ⟨h2, e2⟩ := hpending t2 _ _ h1
  obtain ⟨h3, e3⟩ := hpending t3 _ _ h2
  refine ⟨h1, h2, h3, ?_, ?_⟩
  · simp only [timers_created, List.filterMap_append] at e1 e2 e3 ⊢
    rw [e1, e2, e3]
    rfl
  · refine ⟨{ (trigger_save t3 (trigger_save t2 (trigger_save t1 u).1).1).1 with
        save_time_event := none }, ?_, rfl, ?_⟩
    · unfold save_time_callback
      rw [h3]
      simp
    · intro t4
      exact hfresh t4 _ rfl

/-- Witness of C14: three saves at 0 s, 3 s and 9 s on a state without timer. -/
theorem trigger_save_debounce_witness :
    (⟨[], [], none, [], 0, [], true, none, [], none⟩ : userdata).save_time_event = none ∧
      (trigger_save 9000000 (trigger_save 3000000
          (trigger_save 0 ⟨[], [], none, [], 0, [], true, none, [], none⟩).1).1).1.save_time_event
        = some (0 + SAVE_INTERVAL) :=
  ⟨rfl, (trigger_save_debounce ⟨[], [], none, [], 0, [], true, none, [], none⟩ 0 3000000
    9000000 rfl).2.2.1⟩

end StreamRestore

namespace StreamRestore

/-! ## Stream events -/

theorem differs_branch {k : Bool → Option Bool} {av bv : Bool} {x y : Option (List Nat)}
    (h : (if (av != bv) = true then (some true).bind k
      else if av = true then ((pa_streq x y).map (fun eq => !eq)).bind k
      else (some false).bind k) = some true)
    (hk : k true ≠ some true) :
    av = bv ∧ (av = true → x = y) ∧ k false = some true := by
  cases av <;> cases bv <;> simp at h ⊢
  · exact h
  · exact hk h
  · exact hk h
  · cases x <;> cases y <;> simp [pa_streq] at h ⊢
    rename_i x y
    by_cases hxy : x = y
    · subst hxy
      simpa using h
    · have hb : (x == y) = false := by simpa using hxy
      rw [hb] at h
      exact absurd h hk

/-- What `entries_equal` returning true says of the two entries. -/
theorem entries_equal_spec {L : Lib} {a b : entry} (h : entries_equal L a b = some true) :
    a.device_valid = b.device_valid ∧ (a.device_valid = true → a.device = b.device) ∧
      a.card_valid = b.card_valid ∧ (a.card_valid = true → a.card = b.card) ∧
      a.muted_valid = b.muted_valid ∧ (a.muted_valid = true → a.muted = b.muted) ∧
      a.volume_valid = b.volume_valid ∧
      (a.volume_valid = true →
        pa_cvolume_equal (L.pa_cvolume_remap b.volume b.channel_map a.channel_map) a.volume
          = true) := by
  unfold entries_equal at h
  dsimp only at h
  obtain ⟨hd1, hd2, h⟩ := differs_branch h (by simp)
  simp only [Bool.false_eq_true, if_false] at h
  obtain ⟨hc1, hc2, h⟩ := differs_branch h (by simp)
  simp only [Bool.false_eq_true, if_false] at h
  refine ⟨hd1, hd2, hc1, hc2, ?_⟩
  split at h
  · cases h
  · rename_i hm
    split at h
    · cases h
    · rename_i hv
      simp only [Bool.or_eq_true, bne_iff_ne, ne_eq, Bool.and_eq_true, not_or, not_and,
        Bool.not_eq_true', Bool.not_eq_false, Decidable.not_not] at hm hv
      refine ⟨hm.1, ?_, hv.1, ?_⟩
      · intro ht
        have := hm.2 ht
        simpa using this
      · intro ht
        have := hv.2 ht
        simpa using this

/-- C12 (equality suppression on stream events): when `entry_read` finds an entry for
the name of the stream and the candidate computed from the stream equals it under
`entries_equal`, `subscribe_callback` returns with the module state as it was (main
database, route volumes, D-Bus entries, no save timer created) and without any event:
no D-Bus signal, no database write, no `trigger_save`.  Equal under `entries_equal`
means: the validity flags are pairwise equal and, for each valid field, the device
strings, the card strings and the mute values are equal and the volume of the
candidate, remapped to the stored channel map, equals the stored volume. -/
theorem subscribe_equality_suppression (L : Lib) (now : Nat) (u : userdata) (s : stream)
    (name : String) (old : entry) (c : candidate)
    (hf : s.is_filter = false) (hn : s.name = some name)
    (hold : entry_read u.database name = some (some old))
    (hc : subscribe_candidate s (some old) = some c)
    (heq : entries_equal L old c.entry = some true) :
    subscribe_callback L now u true (some s) = some (u, []) ∧
      old.device_valid = c.entry.device_valid ∧
      (old.device_valid = true → old.device = c.entry.device) ∧
      old.card_valid = c.entry.card_valid ∧
      (old.card_valid = true → old.card = c.entry.card) ∧
      old.muted_valid = c.entry.muted_valid ∧
      (old.muted_valid = true → old.muted = c.entry.muted) ∧
      old.volume_valid = c.entry.volume_valid ∧
      (old.volume_valid = true →
        pa_cvolume_equal
            (L.pa_cvolume_remap c.entry.volume c.entry.channel_map old.channel_map)
            old.volume = true) := by
  refine ⟨?_, entries_equal_spec heq⟩
  unfold subscribe_callback
  simp only [Bool.not_true, Bool.false_eq_true, if_false, hf, hn, hold, hc, heq,
    Option.bind_eq_bind, Option.some_bind, if_true, Option.pure_def]

/-- Witness of C12: the stored entry of the role `"music"` and a stream event that
carries the same device, mute state and volume. -/
theorem subscribe_equality_suppression_witness :
    entry_read music_state.database "sink-input-by-media-role:music"
        = some (some sink0_entry) ∧
      subscribe_candidate music_stream (some sink0_entry)
        = some ⟨sink0_entry, false, false, false⟩ ∧
      entries_equal same_map_lib sink0_entry sink0_entry = some true ∧
      subscribe_callback same_map_lib 7 music_state true (some music_stream)
        = some (music_state, []) :=
  ⟨by decide, by decide, by decide,
    (subscribe_equality_suppression same_map_lib 7 music_state music_stream
      "sink-input-by-media-role:music" sink0_entry ⟨sink0_entry, false, false, false⟩
      rfl rfl (by decide) (by decide) (by decide)).1⟩

end StreamRestore

namespace StreamRestore

/-! ## External writes: what the code does where the claims fail -/

/-- C13 as stated fails: the same `SUBCOMMAND_WRITE` request in Replace mode, issued
twice on the fresh state, calls `pa_database_set` twice, once per request; the first
request sends the `NewEntry` signal, the second sends no signal. -/
theorem write_twice_two_database_sets :
    (extension_write 0 fresh_state PA_UPDATE_REPLACE false [some music_item]).bind
        (fun r₁ =>
          (extension_write 1 r₁.2.1 PA_UPDATE_REPLACE false [some music_item]).map
            (fun r₂ => (r₁.1, r₂.1, database_sets (r₁.2.2 ++ r₂.2.2),
              signals_sent r₁.2.2, signals_sent r₂.2.2)))
      = some (0, 0,
          ["sink-input-by-media-role:music", "sink-input-by-media-role:music"],
          [.new_entry_signal ⟨"sink-input-by-media-role:music", 0⟩], []) := by
  decide

/-- C15 as stated fails: with `"phone"` registered as a route volume, a
`SUBCOMMAND_WRITE` request in Replace mode for `"phone"` with the volume 30000 sets the
route volume and also calls `pa_database_set` for `"phone"`, after which the main
database record holds the volume 30000; so do the D-Bus `Volume` setter and `AddEntry`
with the volumes 20000 and 10000.  `AddEntry` for a name without D-Bus entry leaves
the route volume at 100. -/
theorem external_write_stores_route_volume_name :
    (extension_write 0 phone_state PA_UPDATE_REPLACE false [some phone_item]).map
        (fun r => (r.1, database_sets r.2.2, entry_read r.2.1.database "phone",
          r.2.1.route_volumes.map (fun r => r.volume)))
      = some (0, ["phone"], some (some phone_entry), [⟨[30000]⟩]) ∧
    (handle_entry_set_volume 1 phone_stored_state ⟨"phone", 0⟩ [(0, 20000)]).map
        (fun r => (database_sets r.2, entry_read r.1.database "phone",
          r.1.route_volumes.map (fun r => r.volume)))
      = some (["phone"], some (some ⟨4, true, true, false, false, false, ⟨[0]⟩, ⟨[20000]⟩, none, none⟩), [⟨[20000]⟩]) ∧
    (handle_add_entry 1 phone_stored_state "phone" [] [(0, 10000)] false false).map
        (fun r => (database_sets r.2, entry_read r.1.database "phone",
          r.1.route_volumes.map (fun r => r.volume)))
      = some (["phone"],
          some (some ⟨4, true, true, false, false, false, ⟨[0]⟩, ⟨[10000]⟩, some [], none⟩),
          [⟨[10000]⟩]) ∧
    (handle_add_entry 1 phone_state "phone" [] [(0, 10000)] false false).map
        (fun r => (database_sets r.2, r.1.route_volumes.map (fun r => r.volume)))
      = some (["phone"], [⟨[100]⟩]) :=
  ⟨by decide, by decide, by decide, by decide⟩

/-- C16 as stated fails: a Replace request whose second entry has an empty name makes
`extension_cb` return -1 after the first entry has been stored and mirrored (and no
save is scheduled); a Set request whose only entry cannot be read returns -1 after the
database and the D-Bus entries have been cleared. -/
theorem write_request_not_atomic :
    (extension_write 0 fresh_state PA_UPDATE_REPLACE false
        [some music_item, some ⟨some "", ⟨[1, 2]⟩, ⟨[50000, 50000]⟩, none, true⟩]).map
        (fun r => (r.1, r.2.1.database, r.2.1.dbus_entries, r.2.1.save_time_event))
      = some (-1, [("sink-input-by-media-role:music", entry_record sink0_entry)],
          [⟨"sink-input-by-media-role:music", 0⟩], none) ∧
    (extension_write 0 music_state PA_UPDATE_SET false [none]).map
        (fun r => (r.1, r.2.1.database, r.2.1.dbus_entries))
      = some (-1, [], []) ∧
    music_state.database ≠ [] :=
  ⟨by decide, by decide, by decide⟩

/-- C17, evaluated where it breaks: `AddEntry` with the device `"a b"`, which
`pa_namereg_is_valid_name` refuses, stores the entry with `device_valid` set;
`entry_read` then returns `NULL` for it and the assertion at the head of the `Mute`
setter fails. -/
theorem add_entry_stores_invalid_device :
    pa_namereg_is_valid_name (some [97, 32, 98]) = some false ∧
    (handle_add_entry 0 fresh_state "x" [97, 32, 98] [] false false).map
        (fun r => (r.1.database, entry_read r.1.database "x",
          (handle_entry_set_mute 1 r.1 ⟨"x", 0⟩ true).isNone))
      = some ([("x", [66, 4, 48, 109, 0, 118, 0, 49, 48, 49, 116, 97, 32, 98, 0, 48, 78])],
          some none, true) :=
  ⟨by decide, by decide⟩

/-- C18, evaluated where it breaks: with empty database (no D-Bus entry is created at
load time) and `"phone"` registered as a route volume, the stream event of a new stream
`"phone"` creates the D-Bus entry but writes no record, since the write is skipped for
route-volume names; the assertion at the head of the `Mute` setter then fails for that
D-Bus entry. -/
theorem mirror_without_record :
    init_dbus_entries phone_state (phone_state.database.map Prod.fst) = some phone_state ∧
    (subscribe_callback same_map_lib 0 phone_state true (some phone_stream)).map
        (fun r => (r.1.dbus_entries.map (fun de => de.entry_name),
          r.1.database.map Prod.fst,
          (handle_entry_set_mute 1 r.1 ⟨"phone", 0⟩ true).isNone))
      = some (["phone"], [], true) :=
  ⟨by decide, by decide⟩

/-- C19 as stated fails in its last part: after the D-Bus `Remove` of `"phone"` and
after a `SUBCOMMAND_DELETE` listing `"phone"`, the record and the D-Bus entry are gone
and a save is scheduled, but the route volume named `"phone"` is still registered. -/
theorem remove_keeps_route_volume :
    (handle_entry_remove 1 phone_stored_state ⟨"phone", 0⟩).map
        (fun r => (r.1.database, r.1.dbus_entries, r.1.save_time_event.isSome,
          (ext_get_route_volume_by_name r.1 "phone").isSome))
      = some ([], [], true, true) ∧
    (extension_delete 1 phone_stored_state [some (some "phone")]).map
        (fun r => (r.1, r.2.1.database, r.2.1.dbus_entries))
      = some (0, [], []) ∧
    (extension_delete 1 phone_stored_state [some (some "phone")]).map
        (fun r => (r.2.1.save_time_event.isSome,
          (ext_get_route_volume_by_name r.2.1 "phone").isSome))
      = some (true, true) :=
  ⟨by decide, by decide, by decide⟩

/-- C20 as stated fails in a sink-volume mode: a `SUBCOMMAND_WRITE` request with
`apply_immediately` stores the entry and returns 0 without `entry_apply` and without
pending save timer, and the D-Bus `Volume` setter stores the new volume without
`entry_apply` and without pending save timer. -/
theorem sink_volume_mode_no_save :
    (extension_write 0 sink_volume_state PA_UPDATE_REPLACE true [some phone_item]).map
        (fun r => (r.1, stored_names r.2.2, applied_names r.2.2, r.2.1.save_time_event))
      = some (0, ["phone"], [], none) ∧
    (handle_entry_set_volume 1
        { phone_stored_state with use_sink_volume := some ⟨"btmono", "sink.hw1"⟩ }
        ⟨"phone", 0⟩ [(0, 20000)]).map
        (fun r => (stored_names r.2, applied_names r.2, r.1.save_time_event))
      = some (["phone"], [], none) :=
  ⟨by decide, by decide⟩

end StreamRestore

namespace StreamRestore

/-! ## Rejected write requests -/

theorem write_one_rejected {u : userdata} {mode : Nat} {apply_immediately : Bool}
    {w : write_item} (h : write_validate w = none) :
    write_one u mode apply_immediately w = some none := by
  unfold write_one
  rw [h]

theorem write_loop_rejected (mode : Nat) (apply_immediately : Bool) :
    ∀ (items : List (Option write_item)) (u : userdata) (ev : List Event),
      (∃ it ∈ items, item_rejected it = true) →
      ∀ r, write_loop mode apply_immediately u ev items = some r → r.1 = false := by
  intro items
  induction items with
  | nil => intro u ev h; simp at h
  | cons it rest ih =>
    intro u ev h r hr
    cases it with
    | none =>
      simp only [write_loop, Option.some.injEq] at hr
      rw [← hr]
    | some w =>
      unfold write_loop at hr
      cases hw : write_one u mode apply_immediately w with
      | none => rw [hw] at hr; cases hr
      | some o =>
        cases o with
        | none =>
          rw [hw] at hr
          simp only [Option.some.injEq] at hr
          rw [← hr]
        | some p =>
          obtain ⟨u', ev'⟩ := p
          rw [hw] at hr
          simp only at hr
          have hrest : ∃ it ∈ rest, item_rejected it = true := by
            obtain ⟨it, hmem, hrej⟩ := h
            rcases List.mem_cons.mp hmem with rfl | hmem
            · simp only [item_rejected, Option.isNone_iff_eq_none] at hrej
              rw [write_one_rejected hrej] at hw
              cases hw
            · exact ⟨it, hmem, hrej⟩
          exact ih u' (ev ++ ev') hrest r hr

/-- C16, amended: a `SUBCOMMAND_WRITE` request (any mode, any number of entries) in
which some entry fails validation (missing or empty name, volume incompatible with
its channel map, invalid device name, or fields that cannot be read) makes
`extension_cb` return failure whenever it returns; and when the first entry of a
request in Merge or Replace mode is such an entry, the module state (main database,
route volumes, D-Bus entries) is what it was before the request and nothing has been
sent.  (Entries that precede the first failing one have been processed before the
failure is met, and Set mode has cleared the database by then.) -/
theorem write_request_rejection (now : Nat) (u : userdata) (mode : Nat)
    (apply_immediately : Bool) (items : List (Option write_item)) :
    ((∃ it ∈ items, item_rejected it = true) →
        ∀ r, extension_write now u mode apply_immediately items = some r → r.1 = -1) ∧
      (∀ it rest, items = it :: rest → item_rejected it = true → mode ≠ PA_UPDATE_SET →
        extension_write now u mode apply_immediately items = some (-1, u, [])) := by
  constructor
  · intro h r hr
    unfold extension_write at hr
    split at hr
    · cases hr; rfl
    · simp only at hr
      split at hr
      · cases hr
      · cases hr; rfl
      · rename_i hloop
        have := write_loop_rejected mode apply_immediately items _ _ h _ hloop
        simp at this
  · intro it rest hitems hrej hmode
    subst hitems
    unfold extension_write
    split
    · rfl
    · have hloop : write_loop mode apply_immediately u [] (it :: rest) = some (false, u, []) := by
        cases it with
        | none => rfl
        | some w =>
          simp only [item_rejected, Option.isNone_iff_eq_none] at hrej
          unfold write_loop
          rw [write_one_rejected hrej]
      simp only [hmode, if_false, hloop]

/-- Witness of the amended C16: a Replace request whose only entry has an empty
name. -/
theorem write_request_rejection_witness :
    item_rejected (some ⟨some "", ⟨[1, 2]⟩, ⟨[50000, 50000]⟩, none, true⟩) = true ∧
      PA_UPDATE_REPLACE ≠ PA_UPDATE_SET ∧
      extension_write 0 music_state PA_UPDATE_REPLACE false
          [some ⟨some "", ⟨[1, 2]⟩, ⟨[50000, 50000]⟩, none, true⟩]
        = some (-1, music_state, []) :=
  ⟨by decide, by decide,
    (write_request_rejection 0 music_state PA_UPDATE_REPLACE false
      [some ⟨some "", ⟨[1, 2]⟩, ⟨[50000, 50000]⟩, none, true⟩]).2 _ _ rfl (by decide)
      (by decide)⟩

end StreamRestore


namespace StreamRestore

/-! ## Administrative remove -/

theorem find_filter_key {α : Type} (key_of : α → String) (l : List α) (key n : String) :
    (l.filter (fun a => !(key_of a == key))).find? (fun a => key_of a == n)
      = if n = key then none else l.find? (fun a => key_of a == n) := by
  induction l with
  | nil => simp
  | cons a l ih =>
    by_cases ha : key_of a = key
    · rw [List.filter_cons_of_neg (by simp [ha]), ih]
      by_cases hn : n = key
      · simp [hn]
      · have han : key_of a ≠ n := by rw [ha]; exact fun h => hn h.symm
        rw [List.find?_cons_of_neg _ (by simpa using han)]
    · rw [List.filter_cons_of_pos (by simp [ha])]
      by_cases han : key_of a = n
      · have hn : n ≠ key := by rw [← han]; exact ha
        rw [List.find?_cons_of_pos _ (by simpa using han),
          List.find?_cons_of_pos _ (by simpa using han)]
        simp [hn]
      · rw [List.find?_cons_of_neg _ (by simpa using han),
          List.find?_cons_of_neg _ (by simpa using han)]
        exact ih

theorem database_get_filter_self (db : pa_database) (key : String) :
    pa_database_get (db.filter (fun kv => !(kv.1 == key))) key = none := by
  unfold pa_database_get
  rw [find_filter_key (fun kv : String × List Nat => kv.1) db key key]
  simp

theorem database_get_filter_ne (db : pa_database) (key n : String) (hne : n ≠ key) :
    pa_database_get (db.filter (fun kv => !(kv.1 == key))) n = pa_database_get db n := by
  unfold pa_database_get
  rw [find_filter_key (fun kv : String × List Nat => kv.1) db key n]
  simp [hne]

theorem database_get_filter_none (db : pa_database) (key n : String)
    (h : pa_database_get db n = none) :
    pa_database_get (db.filter (fun kv => !(kv.1 == key))) n = none := by
  by_cases hne : n = key
  · subst hne; exact database_get_filter_self db n
  · rw [database_get_filter_ne db key n hne]; exact h

theorem database_unset_get (db : pa_database) (key n : String)
    (h : pa_database_get db n = none ∨ n = key) :
    pa_database_get (pa_database_unset db key).2 n = none := by
  unfold pa_database_unset
  split
  · rcases h with h | rfl
    · exact database_get_filter_none db key n h
    · exact database_get_filter_self db n
  · rename_i hnone
    rcases h with h | rfl
    · exact h
    · simpa using hnone

theorem dbus_find_filter_self (l : List dbus_entry) (key : String) :
    (l.filter (fun de => !(de.entry_name == key))).find? (fun de => de.entry_name == key)
      = none := by
  rw [find_filter_key (fun de : dbus_entry => de.entry_name) l key key]
  simp

theorem dbus_find_filter_ne (l : List dbus_entry) (key n : String) (hne : n ≠ key) :
    (l.filter (fun de => !(de.entry_name == key))).find? (fun de => de.entry_name == n)
      = l.find? (fun de => de.entry_name == n) := by
  rw [find_filter_key (fun de : dbus_entry => de.entry_name) l key n]
  simp [hne]

theorem dbus_remove_get_self (u : userdata) (key : String) :
    dbus_entries_get (dbus_entries_remove u key).2 key = none := by
  unfold dbus_entries_remove
  split
  · exact dbus_find_filter_self u.dbus_entries key
  · rename_i hnone
    simpa using hnone

theorem dbus_remove_get_ne (u : userdata) (key n : String) (hne : n ≠ key) :
    dbus_entries_get (dbus_entries_remove u key).2 n = dbus_entries_get u n := by
  unfold dbus_entries_remove
  split
  · exact dbus_find_filter_ne u.dbus_entries key n hne
  · rfl

theorem dbus_remove_frame (u : userdata) (key : String) :
    (dbus_entries_remove u key).2.database = u.database ∧
      (dbus_entries_remove u key).2.route_volumes = u.route_volumes ∧
      (dbus_entries_remove u key).2.save_time_event = u.save_time_event := by
  unfold dbus_entries_remove
  split <;> exact ⟨rfl, rfl, rfl⟩

theorem trigger_save_frame (now : Nat) (u : userdata) :
    (trigger_save now u).1.database = u.database ∧
      (trigger_save now u).1.dbus_entries = u.dbus_entries ∧
      (trigger_save now u).1.route_volumes = u.route_volumes ∧
      (trigger_save now u).1.use_sink_volume = u.use_sink_volume ∧
      (trigger_save now u).1.route = u.route := by
  obtain ⟨rdb, h⟩ := trigger_save_spec now u
  rw [h]
  exact ⟨rfl, rfl, rfl, rfl, rfl⟩

/-- What the loop of `SUBCOMMAND_DELETE` leaves when it reaches the end of the
request. -/
theorem delete_loop_spec :
    ∀ (names : List (Option (Option String))) (u : userdata) (ev : List Event)
      (u' : userdata) (ev' : List Event),
      delete_loop u ev names = some (true, u', ev') →
      u'.route_volumes = u.route_volumes ∧
      (∀ e ∈ ev, e ∈ ev') ∧
      (∀ n, pa_database_get u.database n = none ∨ some (some n) ∈ names →
        pa_database_get u'.database n = none) ∧
      (∀ n, dbus_entries_get u n = none ∨ some (some n) ∈ names →
        dbus_entries_get u' n = none) ∧
      (∀ n de, some (some n) ∈ names → dbus_entries_get u n = some de →
        Event.entry_removed_signal de ∈ ev') := by
  intro names
  induction names with
  | nil =>
    intro u ev u' ev' h
    simp only [delete_loop, Option.some.injEq, Prod.mk.injEq, true_and] at h
    obtain ⟨rfl, rfl⟩ := h
    refine ⟨rfl, fun e he => he, ?_, ?_, ?_⟩
    · intro n hn
      rcases hn with hn | hn
      · exact hn
      · simp at hn
    · intro n hn
      rcases hn with hn | hn
      · exact hn
      · simp at hn
    · intro n de hn
      simp at hn
  | cons x rest ih =>
    intro u ev u' ev' h
    rcases x with _ | _ | m
    · simp [delete_loop] at h
    · simp [delete_loop] at h
    · unfold delete_loop at h
      simp only at h
      -- the state and the events after the head name
      cases hde : dbus_entries_get u m with
      | none =>
        simp only [hde] at h
        obtain ⟨hrv, hev, hdb, hdbus, hsig⟩ := ih _ _ _ _ h
        refine ⟨hrv, fun e he => hev e (by simpa using he), ?_, ?_, ?_⟩
        · intro n hn
          apply hdb
          by_cases hnm : n = m
          · exact Or.inl (database_unset_get _ _ _ (Or.inr hnm))
          · rcases hn with hn | hn
            · exact Or.inl (database_unset_get _ _ _ (Or.inl hn))
            · rcases List.mem_cons.mp hn with hn | hn
              · simp only [Option.some.injEq] at hn
                exact absurd hn hnm
              · exact Or.inr hn
        · intro n hn
          apply hdbus
          by_cases hnm : n = m
          · subst hnm
            exact Or.inl hde
          · rcases hn with hn | hn
            · exact Or.inl hn
            · rcases List.mem_cons.mp hn with hn | hn
              · simp only [Option.some.injEq] at hn
                exact absurd hn hnm
              · exact Or.inr hn
        · intro n de hn hget
          by_cases hnm : n = m
          · subst hnm
            rw [hde] at hget
            cases hget
          · rcases List.mem_cons.mp hn with hn | hn
            · simp only [Option.some.injEq] at hn
              exact absurd hn hnm
            · exact hsig n de hn hget
      | some d =>
        simp only [hde] at h
        obtain ⟨hrv, hev, hdb, hdbus, hsig⟩ := ih _ _ _ _ h
        obtain ⟨fdb, frv, _⟩ := dbus_remove_frame u m
        refine ⟨hrv.trans frv, fun e he => hev e (by simp [he]), ?_, ?_, ?_⟩
        · intro n hn
          apply hdb
          by_cases hnm : n = m
          · exact Or.inl (database_unset_get _ _ _ (Or.inr hnm))
          · rcases hn with hn | hn
            · refine Or.inl (database_unset_get _ _ _ (Or.inl ?_))
              rw [fdb]
              exact hn
            · rcases List.mem_cons.mp hn with hn | hn
              · simp only [Option.some.injEq] at hn
                exact absurd hn hnm
              · exact Or.inr hn
        · intro n hn
          apply hdbus
          by_cases hnm : n = m
          · subst hnm
            exact Or.inl (dbus_remove_get_self u n)
          · rcases hn with hn | hn
            · refine Or.inl ?_
              show dbus_entries_get (dbus_entries_remove u m).2 n = none
              rw [dbus_remove_get_ne u m n hnm]
              exact hn
            · rcases List.mem_cons.mp hn with hn | hn
              · simp only [Option.some.injEq] at hn
                exact absurd hn hnm
              · exact Or.inr hn
        · intro n de hn hget
          by_cases hnm : n = m
          · subst hnm
            rw [hde] at hget
            cases hget
            exact hev _ (by simp)
          · rcases List.mem_cons.mp hn with hn | hn
            · simp only [Option.some.injEq] at hn
              exact absurd hn hnm
            · refine hsig n de hn ?_
              show dbus_entries_get (dbus_entries_remove u m).2 n = some de
              rw [dbus_remove_get_ne u m n hnm]
              exact hget

/-- C19, amended (administrative remove): after a D-Bus `Remove` on the entry named
`n`, or a `SUBCOMMAND_DELETE` that lists `n` and returns success, the main database
holds no record for `n`, no D-Bus entry for `n` exists (the `EntryRemoved` signal
having been sent for the one that existed), and a save timer is pending; the list of
route volumes is what it was, so a route volume named `n` stays registered. -/
theorem administrative_remove (now : Nat) (u : userdata) :
    (∀ de u' ev, handle_entry_remove now u de = some (u', ev) →
        pa_database_get u'.database de.entry_name = none ∧
        dbus_entries_get u' de.entry_name = none ∧
        Event.entry_removed_signal de ∈ ev ∧
        u'.save_time_event.isSome = true ∧
        u'.route_volumes = u.route_volumes) ∧
      (∀ names u' ev n, extension_delete now u names = some (0, u', ev) →
        some (some n) ∈ names →
        pa_database_get u'.database n = none ∧
        dbus_entries_get u' n = none ∧
        (∀ de, dbus_entries_get u n = some de → Event.entry_removed_signal de ∈ ev) ∧
        u'.save_time_event.isSome = true ∧
        u'.route_volumes = u.route_volumes) := by
  constructor
  · intro de u' ev h
    unfold handle_entry_remove at h
    simp only at h
    split at h
    · cases h
    · split at h
      · cases h
      · simp only [Option.some.injEq, Prod.mk.injEq] at h
        obtain ⟨rfl, rfl⟩ := h
        obtain ⟨sdb, _, srv, _, _⟩ := trigger_save_frame now
          { u with database := (pa_database_unset u.database de.entry_name).2 }
        obtain ⟨fdb, frv, fst⟩ := dbus_remove_frame
          (trigger_save now
            { u with database := (pa_database_unset u.database de.entry_name).2 }).1
          de.entry_name
        refine ⟨?_, dbus_remove_get_self _ _, by simp, ?_, ?_⟩
        · rw [fdb, sdb]
          exact database_unset_get _ _ _ (Or.inr rfl)
        · rw [fst]
          exact trigger_save_pending now _
        · rw [frv, srv]
  · intro names u' ev n h hn
    unfold extension_delete at h
    split at h
    · cases h
    · simp at h
    · rename_i u₁ ev₁ hloop
      simp only [Option.some.injEq, Prod.mk.injEq, true_and] at h
      obtain ⟨rfl, rfl⟩ := h
      obtain ⟨hrv, hev, hdb, hdbus, hsig⟩ := delete_loop_spec names u [] u₁ ev₁ hloop
      obtain ⟨sdb, sdbus, srv, _, _⟩ := trigger_save_frame now u₁
      refine ⟨?_, ?_, ?_, trigger_save_pending now u₁, ?_⟩
      · rw [sdb]
        exact hdb n (Or.inr hn)
      · have := hdbus n (Or.inr hn)
        unfold dbus_entries_get at this ⊢
        rw [sdbus]
        exact this
      · intro de hde
        exact List.mem_append_left _ (hsig n de hn hde)
      · rw [srv, hrv]

/-- Witness of the amended C19: the D-Bus `Remove` of the entry `"phone"`, whose name
is registered as a route volume. -/
theorem administrative_remove_witness :
    handle_entry_remove 1 phone_stored_state ⟨"phone", 0⟩
        = some (⟨[], [("phone:ihf", ⟨4, ⟨[30000]⟩⟩)], some 10000001, [], 1, [], true,
                  some "ihf", [⟨"phone", ⟨[30000]⟩, ⟨[]⟩, ⟨[100]⟩, false⟩], none⟩,
            [.entry_removed_signal ⟨"phone", 0⟩, .time_new 10000001, .dbus_reply]) ∧
      (⟨[], [("phone:ihf", ⟨4, ⟨[30000]⟩⟩)], some 10000001, [], 1, [], true,
          some "ihf", [⟨"phone", ⟨[30000]⟩, ⟨[]⟩, ⟨[100]⟩, false⟩], none⟩ :
            userdata).route_volumes
        = phone_stored_state.route_volumes :=
  ⟨by decide,
    ((administrative_remove 1 phone_stored_state).1 ⟨"phone", 0⟩ _
      [.entry_removed_signal ⟨"phone", 0⟩, .time_new 10000001, .dbus_reply]
      (by decide)).2.2.2.2⟩

end StreamRestore

namespace StreamRestore

/-! ## The write path -/

theorem proxy_volume_quiet {name : String} {v : pa_cvolume} {ev : List Event}
    (h : ext_proxy_volume name v = some ev) :
    ev = [.proxy_volume name v] ∧ pa_cvolume_valid v = true := by
  unfold ext_proxy_volume at h
  split at h
  · cases h
  · rename_i hv
    simp only [Option.some.injEq] at h
    exact ⟨h.symm, by simpa using hv⟩

theorem set_route_volume_frame {u u' : userdata} {name : String} {v : pa_cvolume}
    (h : ext_set_route_volume u name v = some u') :
    u' = { u with route_volumes := route_volume_put u.route_volumes name v } ∧
      pa_cvolume_valid v = true := by
  unfold ext_set_route_volume at h
  split at h
  · cases h
  · rename_i hv
    simp only [Option.some.injEq] at h
    exact ⟨h.symm, by simpa using hv⟩

theorem set_route_volume_by_name_frame {u u' : userdata} {name : String} {v : pa_cvolume}
    (h : ext_set_route_volume_by_name u name v = some u') :
    u' = { u with route_volumes := u'.route_volumes } ∧ pa_cvolume_valid v = true := by
  unfold ext_set_route_volume_by_name at h
  split at h
  · cases h
  · rename_i hv
    have hv' : pa_cvolume_valid v = true := by simpa using hv
    split at h
    · simp only [Option.some.injEq] at h
      subst h
      exact ⟨rfl, hv'⟩
    · split at h
      · obtain ⟨rfl, _⟩ := set_route_volume_frame h
        exact ⟨rfl, hv'⟩
      · simp only [Option.some.injEq] at h
        subst h
        exact ⟨rfl, hv'⟩

theorem set_route_volumes_frame {u u' : userdata} {v : pa_cvolume}
    (h : ext_set_route_volumes u v = some u') :
    u' = { u with route_volumes := u.route_volumes.map (fun r => { r with volume := v }) } ∧
      pa_cvolume_valid v = true := by
  unfold ext_set_route_volumes at h
  split at h
  · cases h
  · rename_i hv
    simp only [Option.some.injEq] at h
    exact ⟨h.symm, by simpa using hv⟩

/-- What `write_route` changes: the route volumes only, and its events are calls of
the volume proxy. -/
theorem write_route_frame {u u' : userdata} {name : String} {e : entry} {ev : List Event}
    (h : write_route u name e = some (u', ev)) :
    u' = { u with route_volumes := u'.route_volumes } ∧
      applied_names ev = [] ∧ stored_names ev = [] ∧ database_sets ev = [] ∧
      timers_created ev = [] ∧ signals_sent ev = [] ∧
      (e.volume_valid = true → pa_cvolume_valid e.volume = true) := by
  unfold write_route at h
  split at h
  · split at h
    · simp only [Option.map_eq_some', Prod.mk.injEq] at h
      obtain ⟨u₁, h₁, rfl, rfl⟩ := h
      obtain ⟨rfl, hv⟩ := set_route_volumes_frame h₁
      exact ⟨rfl, rfl, rfl, rfl, rfl, rfl, fun _ => hv⟩
    · obtain ⟨u₁, h₁, h⟩ := Option.bind_eq_some.mp h
      obtain ⟨ev₁, h₂, h⟩ := Option.bind_eq_some.mp h
      simp only [Option.pure_def, Option.some.injEq, Prod.mk.injEq] at h
      obtain ⟨rfl, rfl⟩ := h
      obtain ⟨hu, hv⟩ := set_route_volume_by_name_frame h₁
      obtain ⟨rfl, _⟩ := proxy_volume_quiet h₂
      exact ⟨hu, rfl, rfl, rfl, rfl, rfl, fun _ => hv⟩
  · rename_i hvv
    simp only [Option.some.injEq, Prod.mk.injEq] at h
    obtain ⟨rfl, rfl⟩ := h
    exact ⟨rfl, rfl, rfl, rfl, rfl, rfl, fun hv => absurd hv hvv⟩

theorem dbus_entry_new_frame {u u' : userdata} {name : String} {de : dbus_entry}
    (h : dbus_entry_new u name = some (de, u')) :
    de = ⟨name, u.next_index⟩ ∧ dbus_entries_get u name = none ∧
      u' = { u with next_index := (u.next_index + 1) % 4294967296,
                    dbus_entries := u.dbus_entries ++ [de] } := by
  unfold dbus_entry_new at h
  split at h
  · cases h
  · split at h
    · cases h
    · rename_i hn
      simp only [Option.some.injEq, Prod.mk.injEq] at h
      obtain ⟨rfl, rfl⟩ := h
      refine ⟨rfl, ?_, rfl⟩
      cases hg : dbus_entries_get u name with
      | none => rfl
      | some d => rw [hg] at hn; exact absurd rfl hn

theorem mute_signal_quiet {de : dbus_entry} {e : entry} {ev : List Event}
    (h : send_mute_updated_signal de e = some ev) : ev = [.mute_updated_signal de e] := by
  unfold send_mute_updated_signal at h
  split at h
  · simp only [Option.some.injEq] at h
    exact h.symm
  · cases h

/-- What `write_signals` changes: the D-Bus entries and their counter only, and its
events are D-Bus signals. -/
theorem write_signals_frame {u u' : userdata} {name : String} {old : Option entry}
    {e : entry} {ev : List Event} (h : write_signals u name old e = some (u', ev)) :
    u' = { u with dbus_entries := u'.dbus_entries, next_index := u'.next_index } ∧
      applied_names ev = [] ∧ stored_names ev = [] ∧ database_sets ev = [] ∧
      timers_created ev = [] := by
  unfold write_signals at h
  cases old with
  | none =>
    simp only at h
    obtain ⟨⟨de, u₁⟩, h₁, h⟩ := Option.bind_eq_some.mp h
    simp only [Option.pure_def, Option.some.injEq, Prod.mk.injEq] at h
    obtain ⟨rfl, rfl⟩ := h
    obtain ⟨_, _, hu⟩ := dbus_entry_new_frame h₁
    rw [hu]
    exact ⟨rfl, rfl, rfl, rfl, rfl⟩
  | some o =>
    simp only at h
    obtain ⟨de, _, h⟩ := Option.bind_eq_some.mp h
    split_ifs at h <;>
    (obtain ⟨dc, _, h⟩ := Option.bind_eq_some.mp h
     split_ifs at h <;>
     (obtain ⟨evm, hm, h⟩ := Option.bind_eq_some.mp h
      simp only [Option.pure_def, Option.some.injEq, Prod.mk.injEq] at h
      obtain ⟨rfl, rfl⟩ := h
      refine ⟨rfl, ?_⟩
      have hm' : evm = [] ∨ evm = [.mute_updated_signal de e] := by
        first
          | exact Or.inr (mute_signal_quiet hm)
          | (simp only [Option.some.injEq] at hm; exact Or.inl hm.symm)
      rcases hm' with rfl | rfl <;> cases dc <;>
        simp [applied_names, stored_names, database_sets, timers_created]))

/-- The two ways `write_store` returns: the entry was written, mirrored and applied,
or `entry_write` failed. -/
theorem write_store_cases {u u' : userdata} {mode : Nat} {apply_immediately : Bool}
    {name : String} {e : entry} {ev : List Event}
    (h : write_store u mode apply_immediately name e = some (u', ev)) :
    ∃ old, entry_read u.database name = some old ∧
      (((entry_write u.database name e (mode == PA_UPDATE_REPLACE)).1 = true ∧
          ∃ ev₂ ev₃,
            write_signals
                { u with database :=
                    (entry_write u.database name e (mode == PA_UPDATE_REPLACE)).2 }
                name old e = some (u', ev₂) ∧
              (match u'.use_sink_volume with
                | some sv => ext_sink_set_volume sv e.volume
                | none =>
                  some (if apply_immediately then [Event.entry_apply name e] else []))
                = some ev₃ ∧
              ev = [.database_set name (mode == PA_UPDATE_REPLACE) true] ++ ev₂ ++ ev₃) ∨
        ((entry_write u.database name e (mode == PA_UPDATE_REPLACE)).1 = false ∧
          u' = { u with database :=
                    (entry_write u.database name e (mode == PA_UPDATE_REPLACE)).2 } ∧
          ev = [.database_set name (mode == PA_UPDATE_REPLACE) false])) := by
  unfold write_store at h
  obtain ⟨old, hold, h⟩ := Option.bind_eq_some.mp h
  refine ⟨old, hold, ?_⟩
  dsimp only [entry_write_u] at h
  split at h
  · rename_i hw
    left
    obtain ⟨⟨u₂, ev₂⟩, h₂, h⟩ := Option.bind_eq_some.mp h
    dsimp only at h
    split at h <;>
    (rename_i hsv
     obtain ⟨ev₃, h₃, h⟩ := Option.bind_eq_some.mp h
     simp only [Option.pure_def, Option.some.injEq, Prod.mk.injEq] at h
     obtain ⟨rfl, rfl⟩ := h
     refine ⟨hw, ev₂, ev₃, h₂, ?_, ?_⟩
     · rw [hsv]
       exact h₃
     · rw [hw])
  · rename_i hw
    right
    simp only [Option.pure_def, Option.some.injEq, Prod.mk.injEq] at h
    obtain ⟨rfl, rfl⟩ := h
    have hw' : (entry_write u.database name e (mode == PA_UPDATE_REPLACE)).1 = false := by
      simpa using hw
    refine ⟨hw', rfl, ?_⟩
    rw [hw']

/-- A successful iteration of the loop of `SUBCOMMAND_WRITE` passed the checks, went
through `write_route` and then through `write_store`. -/
theorem write_one_cases {u u' : userdata} {mode : Nat} {apply_immediately : Bool}
    {it : write_item} {ev : List Event}
    (h : write_one u mode apply_immediately it = some (some (u', ev))) :
    ∃ name e u₁ ev₁ ev₂, write_validate it = some (name, e) ∧
      write_route u name e = some (u₁, ev₁) ∧
      write_store u₁ mode apply_immediately name e = some (u', ev₂) ∧ ev = ev₁ ++ ev₂ := by
  unfold write_one at h
  split at h
  · cases h
  · rename_i name e hval
    split at h
    · cases h
    · rename_i u₁ ev₁ hroute
      split at h
      · cases h
      · rename_i u₂ ev₂ hstore
        simp only [Option.some.injEq, Prod.mk.injEq] at h
        obtain ⟨rfl, rfl⟩ := h
        exact ⟨name, e, u₁, ev₁, ev₂, hval, hroute, hstore, rfl⟩

theorem sink_set_volume_quiet {sv : ext_sink_volume} {v : pa_cvolume} {ev : List Event}
    (h : ext_sink_set_volume sv v = some ev) : ev = [.sink_set_volume sv.sink_name v] := by
  unfold ext_sink_set_volume at h
  split at h
  · simp only [Option.some.injEq] at h
    exact h.symm
  · cases h

theorem applied_names_append (a b : List Event) :
    applied_names (a ++ b) = applied_names a ++ applied_names b := by
  unfold applied_names
  exact List.filterMap_append _ _ _

theorem stored_names_append (a b : List Event) :
    stored_names (a ++ b) = stored_names a ++ stored_names b := by
  unfold stored_names
  exact List.filterMap_append _ _ _

theorem timers_created_append (a b : List Event) :
    timers_created (a ++ b) = timers_created a ++ timers_created b := by
  unfold timers_created
  exact List.filterMap_append _ _ _

/-- One iteration of the loop of `SUBCOMMAND_WRITE` leaves the timer and the
sink-volume mode alone and creates no timer; without sink-volume mode and with
`apply_immediately` it applies what it stored, in sink-volume mode it applies
nothing. -/
theorem write_one_frame {u u' : userdata} {mode : Nat} {apply_immediately : Bool}
    {it : write_item} {ev : List Event}
    (h : write_one u mode apply_immediately it = some (some (u', ev))) :
    u'.save_time_event = u.save_time_event ∧ u'.use_sink_volume = u.use_sink_volume ∧
      timers_created ev = [] ∧
      (u.use_sink_volume = none → apply_immediately = true →
        applied_names ev = stored_names ev) ∧
      (u.use_sink_volume ≠ none → applied_names ev = []) := by
  obtain ⟨name, e, u₁, ev₁, ev₂, _, hroute, hstore, rfl⟩ := write_one_cases h
  obtain ⟨hu₁, ha₁, hs₁, _, ht₁, _, _⟩ := write_route_frame hroute
  obtain ⟨old, _, hc⟩ := write_store_cases hstore
  rw [applied_names_append, stored_names_append, timers_created_append, ha₁, hs₁, ht₁]
  simp only [List.nil_append]
  rcases hc with ⟨_, evs, ev₃, hsig, h₃, rfl⟩ | ⟨_, rfl, rfl⟩
  · obtain ⟨hu', ha₂, hs₂, _, ht₂⟩ := write_signals_frame hsig
    have hst : u'.save_time_event = u.save_time_event := by rw [hu', hu₁]
    have hsv : u'.use_sink_volume = u.use_sink_volume := by rw [hu', hu₁]
    rw [hsv] at h₃
    refine ⟨hst, hsv, ?_, ?_, ?_⟩
    · cases hm : u.use_sink_volume with
      | none =>
        rw [hm] at h₃
        simp only [Option.some.injEq] at h₃
        subst h₃
        rw [timers_created_append, timers_created_append, ht₂]
        cases apply_immediately <;> rfl
      | some sv =>
        rw [hm] at h₃
        have := sink_set_volume_quiet h₃
        subst this
        rw [timers_created_append, timers_created_append, ht₂]
        rfl
    · intro hm hap
      rw [hm] at h₃
      simp only [Option.some.injEq] at h₃
      subst h₃
      subst hap
      rw [applied_names_append, applied_names_append, stored_names_append,
        stored_names_append, ha₂, hs₂]
      rfl
    · intro hm
      cases hm' : u.use_sink_volume with
      | none => exact absurd hm' hm
      | some sv =>
        rw [hm'] at h₃
        have := sink_set_volume_quiet h₃
        subst this
        rw [applied_names_append, applied_names_append, ha₂]
        rfl
  · refine ⟨by rw [hu₁], by rw [hu₁], rfl, fun _ _ => rfl, fun _ => rfl⟩

/-- The loop of `SUBCOMMAND_WRITE`, over any request: the facts of `write_one_frame`
for the events it adds. -/
theorem write_loop_frame (mode : Nat) (apply_immediately : Bool) :
    ∀ (items : List (Option write_item)) (u : userdata) (ev : List Event) (b : Bool)
      (u' : userdata) (ev' : List Event),
      write_loop mode apply_immediately u ev items = some (b, u', ev') →
      u'.save_time_event = u.save_time_event ∧ u'.use_sink_volume = u.use_sink_volume ∧
        ∃ added, ev' = ev ++ added ∧ timers_created added = [] ∧
          (u.use_sink_volume = none → apply_immediately = true →
            applied_names added = stored_names added) ∧
          (u.use_sink_volume ≠ none → applied_names added = []) := by
  intro items
  induction items with
  | nil =>
    intro u ev b u' ev' h
    simp only [write_loop, Option.some.injEq, Prod.mk.injEq] at h
    obtain ⟨_, rfl, rfl⟩ := h
    exact ⟨rfl, rfl, [], by simp, rfl, fun _ _ => rfl, fun _ => rfl⟩
  | cons it rest ih =>
    intro u ev b u' ev' h
    cases it with
    | none =>
      simp only [write_loop, Option.some.injEq, Prod.mk.injEq] at h
      obtain ⟨_, rfl, rfl⟩ := h
      exact ⟨rfl, rfl, [], by simp, rfl, fun _ _ => rfl, fun _ => rfl⟩
    | some w =>
      simp only [write_loop] at h
      split at h
      · cases h
      · simp only [Option.some.injEq, Prod.mk.injEq] at h
        obtain ⟨_, rfl, rfl⟩ := h
        exact ⟨rfl, rfl, [], by simp, rfl, fun _ _ => rfl, fun _ => rfl⟩
      · rename_i u₁ ev₁ hone
        obtain ⟨hst, hsv, ht, hap, hno⟩ := write_one_frame hone
        obtain ⟨hst', hsv', added, rfl, ht', hap', hno'⟩ := ih u₁ (ev ++ ev₁) b u' ev' h
        refine ⟨by rw [hst', hst], by rw [hsv', hsv], ev₁ ++ added, by simp, ?_, ?_, ?_⟩
        · rw [timers_created_append, ht, ht']
          rfl
        · intro hm hb
          rw [applied_names_append, stored_names_append, hap hm hb,
            hap' (by rw [hsv, hm]) hb]
        · intro hm
          rw [applied_names_append, hno hm, hno' (by rw [hsv]; exact hm)]
          rfl

/-- With `replace` set, `entry_write` succeeds and puts the record under the name. -/
theorem entry_write_replace (db : pa_database) (name : String) (e : entry) :
    entry_write db name e true =
      (true, (name, entry_record e) :: db.filter (fun kv => !(kv.1 == name))) := rfl

theorem trigger_save_events (now : Nat) (u : userdata) :
    applied_names (trigger_save now u).2 = [] ∧ stored_names (trigger_save now u).2 = [] := by
  obtain ⟨rdb, h⟩ := trigger_save_spec now u
  rw [h]
  dsimp only
  rw [applied_names_append, stored_names_append]
  have h1 : ∀ l : List Nat, applied_names (l.map Event.subscription_event) = [] ∧
      stored_names (l.map Event.subscription_event) = [] := by
    intro l
    induction l with
    | nil => exact ⟨rfl, rfl⟩
    | cons a l ih => exact ⟨ih.1, ih.2⟩
  rw [(h1 _).1, (h1 _).2]
  split <;> exact ⟨rfl, rfl⟩

theorem removed_signals_quiet (l : List dbus_entry) :
    applied_names (l.map Event.entry_removed_signal) = [] ∧
      stored_names (l.map Event.entry_removed_signal) = [] ∧
      timers_created (l.map Event.entry_removed_signal) = [] := by
  induction l with
  | nil => exact ⟨rfl, rfl, rfl⟩
  | cons a l ih => exact ⟨ih.1, ih.2.1, ih.2.2⟩

/-- A successful `SUBCOMMAND_WRITE` outside sink-volume mode arms the timer and, with
`apply_immediately`, applies what it stored. -/
theorem extension_write_saves {now : Nat} {u u' : userdata} {mode : Nat}
    {apply_immediately : Bool} {items : List (Option write_item)} {ev : List Event}
    (h : extension_write now u mode apply_immediately items = some (0, u', ev))
    (hm : u.use_sink_volume = none) :
    u'.save_time_event.isSome = true ∧
      (apply_immediately = true → applied_names ev = stored_names ev) := by
  unfold extension_write at h
  split at h
  · simp at h
  · simp only at h
    split at h
    · cases h
    · simp at h
    · rename_i u₁ ev₁ hloop
      obtain ⟨_, hsv, added, rfl, _, hap, _⟩ :=
        write_loop_frame mode apply_immediately items _ _ _ _ _ hloop
      have hm₀ : (if mode = PA_UPDATE_SET then
            (({ u with dbus_entries := [], database := [] } : userdata),
              u.dbus_entries.map Event.entry_removed_signal)
          else (u, [])).1.use_sink_volume = none := by
        split <;> exact hm
      have hev₀ : applied_names (if mode = PA_UPDATE_SET then
            (({ u with dbus_entries := [], database := [] } : userdata),
              u.dbus_entries.map Event.entry_removed_signal)
          else (u, [])).2 = [] ∧ stored_names (if mode = PA_UPDATE_SET then
            (({ u with dbus_entries := [], database := [] } : userdata),
              u.dbus_entries.map Event.entry_removed_signal)
          else (u, [])).2 = [] := by
        split
        · exact ⟨(removed_signals_quiet _).1, (removed_signals_quiet _).2.1⟩
        · exact ⟨rfl, rfl⟩
      rw [hsv, hm₀] at h
      simp only [Option.some.injEq, Prod.mk.injEq, true_and] at h
      obtain ⟨rfl, rfl⟩ := h
      refine ⟨trigger_save_pending now u₁, fun hb => ?_⟩
      rw [applied_names_append, applied_names_append, stored_names_append,
        stored_names_append, hev₀.1, hev₀.2, (trigger_save_events now u₁).1,
        (trigger_save_events now u₁).2, hap hm₀ hb]

/-- A successful `SUBCOMMAND_WRITE` in sink-volume mode leaves the timer as it was,
creates none and applies nothing. -/
theorem extension_write_sink_mode {now : Nat} {u u' : userdata} {mode : Nat}
    {apply_immediately : Bool} {items : List (Option write_item)} {ev : List Event}
    (h : extension_write now u mode apply_immediately items = some (0, u', ev))
    (hm : u.use_sink_volume ≠ none) :
    u'.save_time_event = u.save_time_event ∧ timers_created ev = [] ∧
      applied_names ev = [] := by
  unfold extension_write at h
  split at h
  · simp at h
  · simp only at h
    split at h
    · cases h
    · simp at h
    · rename_i u₁ ev₁ hloop
      obtain ⟨hst, hsv, added, rfl, ht, _, hno⟩ :=
        write_loop_frame mode apply_immediately items _ _ _ _ _ hloop
      have hm₀ : (if mode = PA_UPDATE_SET then
            (({ u with dbus_entries := [], database := [] } : userdata),
              u.dbus_entries.map Event.entry_removed_signal)
          else (u, [])).1.use_sink_volume = u.use_sink_volume := by
        split <;> rfl
      have hs₀ : (if mode = PA_UPDATE_SET then
            (({ u with dbus_entries := [], database := [] } : userdata),
              u.dbus_entries.map Event.entry_removed_signal)
          else (u, [])).1.save_time_event = u.save_time_event := by
        split <;> rfl
      have hev₀ : applied_names (if mode = PA_UPDATE_SET then
            (({ u with dbus_entries := [], database := [] } : userdata),
              u.dbus_entries.map Event.entry_removed_signal)
          else (u, [])).2 = [] ∧ timers_created (if mode = PA_UPDATE_SET then
            (({ u with dbus_entries := [], database := [] } : userdata),
              u.dbus_entries.map Event.entry_removed_signal)
          else (u, [])).2 = [] := by
        split
        · exact ⟨(removed_signals_quiet _).1, (removed_signals_quiet _).2.2⟩
        · exact ⟨rfl, rfl⟩
      rw [hm₀] at hsv
      cases hu : u₁.use_sink_volume with
      | none => rw [hu] at hsv; exact absurd hsv.symm hm
      | some sv =>
        rw [hu] at h
        simp only [Option.some.injEq, Prod.mk.injEq, true_and] at h
        obtain ⟨rfl, rfl⟩ := h
        refine ⟨by rw [hst, hs₀], ?_, ?_⟩
        · rw [timers_created_append, hev₀.2, ht]
          rfl
        · rw [applied_names_append, hev₀.1, hno (by rw [hm₀]; exact hm)]
          rfl

theorem extension_delete_saves {now : Nat} {u u' : userdata}
    {names : List (Option (Option String))} {ev : List Event}
    (h : extension_delete now u names = some (0, u', ev)) :
    u'.save_time_event.isSome = true := by
  unfold extension_delete at h
  split at h
  · cases h
  · simp at h
  · rename_i u₁ ev₁ hloop
    simp only [Option.some.injEq, Prod.mk.injEq, true_and] at h
    obtain ⟨rfl, rfl⟩ := h
    exact trigger_save_pending now u₁

theorem entry_remove_saves {now : Nat} {u u' : userdata} {de : dbus_entry} {ev : List Event}
    (h : handle_entry_remove now u de = some (u', ev)) :
    u'.save_time_event.isSome = true := by
  unfold handle_entry_remove at h
  simp only at h
  split at h
  · cases h
  · split at h
    · cases h
    · simp only [Option.some.injEq, Prod.mk.injEq] at h
      obtain ⟨rfl, rfl⟩ := h
      rw [(dbus_remove_frame _ _).2.2]
      exact trigger_save_pending now _

theorem entry_set_device_saves {now : Nat} {u u' : userdata} {de : dbus_entry}
    {device : List Nat} {ev : List Event}
    (h : handle_entry_set_device now u de device = some (u', ev))
    (hs : stored_names ev ≠ []) :
    u'.save_time_event.isSome = true := by
  unfold handle_entry_set_device at h
  obtain ⟨eo, _, h⟩ := Option.bind_eq_some.mp h
  obtain ⟨e, _, h⟩ := Option.bind_eq_some.mp h
  dsimp only [entry_write_u, entry_write_replace] at h
  split at h
  · simp only [Bool.not_true, Bool.false_eq_true, if_false, Option.pure_def,
      Option.some.injEq, Prod.mk.injEq] at h
    obtain ⟨rfl, rfl⟩ := h
    exact trigger_save_pending now _
  · simp only [Option.pure_def, Option.some.injEq, Prod.mk.injEq] at h
    obtain ⟨rfl, rfl⟩ := h
    exact absurd rfl hs

theorem entry_set_mute_saves {now : Nat} {u u' : userdata} {de : dbus_entry}
    {mute : Bool} {ev : List Event}
    (h : handle_entry_set_mute now u de mute = some (u', ev))
    (hs : stored_names ev ≠ []) :
    u'.save_time_event.isSome = true := by
  unfold handle_entry_set_mute at h
  obtain ⟨eo, _, h⟩ := Option.bind_eq_some.mp h
  obtain ⟨e, _, h⟩ := Option.bind_eq_some.mp h
  dsimp only [entry_write_u, entry_write_replace] at h
  split at h
  · simp only [Bool.not_true, Bool.false_eq_true, if_false] at h
    obtain ⟨evm, _, h⟩ := Option.bind_eq_some.mp h
    simp only [Option.pure_def, Option.some.injEq, Prod.mk.injEq] at h
    obtain ⟨rfl, rfl⟩ := h
    exact trigger_save_pending now _
  · simp only [Option.pure_def, Option.some.injEq, Prod.mk.injEq] at h
    obtain ⟨rfl, rfl⟩ := h
    exact absurd rfl hs

theorem route_volume_put_get (rv : List ext_route_volume) (name : String) (v : pa_cvolume)
    (r : ext_route_volume) (h : rv.find? (fun r => r.name == name) = some r) :
    (route_volume_put rv name v).find? (fun r => r.name == name)
      = some { r with volume := v } := by
  induction rv with
  | nil => cases h
  | cons a rest ih =>
    unfold route_volume_put
    by_cases ha : a.name = name
    · rw [if_pos ha]
      rw [List.find?_cons_of_pos _ (by simp [ha])] at h
      rw [List.find?_cons_of_pos _ (by simp [ha])]
      simp only [Option.some.injEq] at h
      rw [h]
    · rw [if_neg ha]
      rw [List.find?_cons_of_neg _ (by simp [ha])] at h
      rw [List.find?_cons_of_neg _ (by simp [ha])]
      exact ih h

theorem route_volumes_map_get (rv : List ext_route_volume) (name : String) (v : pa_cvolume)
    (r : ext_route_volume) (h : rv.find? (fun r => r.name == name) = some r) :
    (rv.map (fun r => { r with volume := v })).find? (fun r => r.name == name)
      = some { r with volume := v } := by
  induction rv with
  | nil => cases h
  | cons a rest ih =>
    rw [List.map_cons]
    by_cases ha : a.name = name
    · rw [List.find?_cons_of_pos _ (by simp [ha])] at h
      rw [List.find?_cons_of_pos _ (by simp [ha])]
      simp only [Option.some.injEq] at h
      rw [h]
    · rw [List.find?_cons_of_neg _ (by simp [ha])] at h
      rw [List.find?_cons_of_neg _ (by simp [ha])]
      exact ih h

/-- The part of `handle_entry_set_volume` after the route volumes were set: the
record is written; outside sink-volume mode the entry is applied and the timer armed,
in sink-volume mode neither happens. -/
theorem set_volume_tail (now : Nat) (u₁ u' : userdata) (de : dbus_entry) (e : entry)
    (ev₁ ev : List Event)
    (h : (do
        let w := entry_write_u u₁ de.entry_name e true
        if !w.1 then none
        else do
          let ev₂ ← if e.volume_valid then ext_proxy_volume de.entry_name e.volume
            else some []
          let (u, ev₃) :=
            match w.2.1.use_sink_volume with
            | some _ => (w.2.1, [])
            | none =>
              let s := trigger_save now w.2.1
              (s.1, Event.entry_apply de.entry_name e :: s.2)
          pure (u, ev₁ ++ w.2.2 ++ ev₂ ++ ev₃ ++
            [Event.volume_updated_signal de e, Event.dbus_reply])) = some (u', ev)) :
    pa_database_get u'.database de.entry_name = some (entry_record e) ∧
      u'.route_volumes = u₁.route_volumes ∧
      (u₁.use_sink_volume = none → u'.save_time_event.isSome = true) ∧
      (u₁.use_sink_volume ≠ none →
        u'.save_time_event = u₁.save_time_event ∧
          timers_created ev = timers_created ev₁ ∧
          applied_names ev = applied_names ev₁) := by
  dsimp only [entry_write_u, entry_write_replace] at h
  simp only [Bool.not_true, Bool.false_eq_true, if_false] at h
  have hget : ∀ db : pa_database,
      pa_database_get ((de.entry_name, entry_record e) ::
        db.filter (fun kv => !(kv.1 == de.entry_name))) de.entry_name
        = some (entry_record e) := by
    intro db
    unfold pa_database_get
    rw [List.find?_cons_of_pos _ (by simp)]
    rfl
  split at h <;>
  (obtain ⟨ev₂, h₂, h⟩ := Option.bind_eq_some.mp h
   have hq : ev₂ = [] ∨ ev₂ = [.proxy_volume de.entry_name e.volume] := by
     first
       | exact Or.inr (proxy_volume_quiet h₂).1
       | (simp only [Option.some.injEq] at h₂; exact Or.inl h₂.symm)
   cases hm : u₁.use_sink_volume with
   | none =>
     simp only [hm, Option.pure_def, Option.some.injEq, Prod.mk.injEq] at h
     obtain ⟨rfl, rfl⟩ := h
     refine ⟨?_, (trigger_save_frame now _).2.2.1, fun _ => trigger_save_pending now _,
       fun hne => absurd rfl hne⟩
     rw [(trigger_save_frame now _).1]
     exact hget _
   | some sv =>
     simp only [hm, Option.pure_def, Option.some.injEq, Prod.mk.injEq] at h
     obtain ⟨rfl, rfl⟩ := h
     refine ⟨hget _, rfl, fun hc => (by cases hc), fun _ => ⟨rfl, ?_, ?_⟩⟩
     · rcases hq with rfl | rfl <;>
         simp [timers_created, List.filterMap_append]
     · rcases hq with rfl | rfl <;>
         simp [applied_names, List.filterMap_append])

/-- What a D-Bus `Volume` setter that stores the entry does. -/
theorem entry_set_volume_spec {now : Nat} {u u' : userdata} {de : dbus_entry}
    {volume : List (Nat × Nat)} {ev : List Event}
    (h : handle_entry_set_volume now u de volume = some (u', ev))
    (hs : stored_names ev ≠ []) :
    ∃ map vol e₀, get_volume_arg volume = some (map, vol) ∧
      entry_read u.database de.entry_name = some (some e₀) ∧
      pa_database_get u'.database de.entry_name
        = some (entry_record { e₀ with volume := vol, channel_map := map,
                                       volume_valid := decide (map.channels ≠ 0) }) ∧
      (∀ r, ext_get_route_volume_by_name u de.entry_name = some r →
        ext_get_route_volume_by_name u' de.entry_name = some { r with volume := vol }) ∧
      (u.use_sink_volume = none → u'.save_time_event.isSome = true) ∧
      (u.use_sink_volume ≠ none →
        u'.save_time_event = u.save_time_event ∧ timers_created ev = [] ∧
          applied_names ev = []) := by
  unfold handle_entry_set_volume at h
  split at h
  · simp only [Option.some.injEq, Prod.mk.injEq] at h
    obtain ⟨rfl, rfl⟩ := h
    exact absurd rfl hs
  · rename_i map vol harg
    obtain ⟨eo, h₁, h⟩ := Option.bind_eq_some.mp h
    obtain ⟨e₀, h₂, h⟩ := Option.bind_eq_some.mp h
    rw [h₂] at h₁
    refine ⟨map, vol, e₀, harg, h₁, ?_⟩
    dsimp only at h
    by_cases hupd : (e₀.volume_valid != decide (map.channels ≠ 0) ||
        !pa_cvolume_equal e₀.volume vol) = true
    · rw [if_pos hupd] at h
      split at h
      · rename_i r hr
        split at h
        · rename_i sv hsv
          obtain ⟨u₁, hu₁, h⟩ := Option.bind_eq_some.mp h
          obtain ⟨evs, hevs, h⟩ := Option.bind_eq_some.mp h
          obtain ⟨rfl, _⟩ := set_route_volumes_frame hu₁
          have hevs' := sink_set_volume_quiet hevs
          subst hevs'
          obtain ⟨hdb, hrv, _, hsink⟩ := set_volume_tail now
            { u with route_volumes := u.route_volumes.map (fun r => { r with volume := vol }) }
            u' de
            { e₀ with volume := vol, channel_map := map,
                      volume_valid := decide (map.channels ≠ 0) }
            [Event.sink_set_volume sv.sink_name vol] ev h
          refine ⟨hdb, ?_, ?_, ?_⟩
          · intro r' hr'
            unfold ext_get_route_volume_by_name at hr' ⊢
            rw [hrv]
            exact route_volumes_map_get _ _ _ _ hr'
          · intro hn
            rw [hn] at hsv
            cases hsv
          · intro _
            exact hsink (by rw [hsv]; exact Option.some_ne_none sv)
        · rename_i hsv
          obtain ⟨⟨u₁, ev₁⟩, hu₁, h⟩ := Option.bind_eq_some.mp h
          simp only [Option.map_eq_some', Prod.mk.injEq] at hu₁
          obtain ⟨u₂, hu₂, rfl, rfl⟩ := hu₁
          obtain ⟨rfl, _⟩ := set_route_volume_frame hu₂
          obtain ⟨hdb, hrv, hsave, _⟩ := set_volume_tail now
            { u with route_volumes := route_volume_put u.route_volumes de.entry_name vol }
            u' de
            { e₀ with volume := vol, channel_map := map,
                      volume_valid := decide (map.channels ≠ 0) }
            [] ev h
          refine ⟨hdb, ?_, ?_, ?_⟩
          · intro r' hr'
            unfold ext_get_route_volume_by_name at hr' ⊢
            rw [hrv]
            exact route_volume_put_get _ _ _ _ hr'
          · intro hn
            exact hsave hn
          · intro hn
            exact absurd hsv hn
      · rename_i hr
        have h' := set_volume_tail now u u' de
            { e₀ with volume := vol, channel_map := map,
                      volume_valid := decide (map.channels ≠ 0) }
            [] ev h
        obtain ⟨hdb, hrv, hsave, hsink⟩ := h'
        refine ⟨hdb, ?_, hsave, hsink⟩
        intro r' hr'
        rw [hr] at hr'
        cases hr'
    · rw [if_neg hupd] at h
      simp only [Option.pure_def, Option.some.injEq, Prod.mk.injEq] at h
      obtain ⟨rfl, rfl⟩ := h
      exact absurd rfl hs

theorem database_get_written (db : pa_database) (name : String) (data : List Nat) :
    pa_database_get ((name, data) :: db.filter (fun kv => !(kv.1 == name))) name
      = some data := by
  unfold pa_database_get
  rw [List.find?_cons_of_pos _ (by simp)]
  rfl

/-- With a route set, `ext_set_route_volume_by_name` gives the route volume registered
for the name the new volume. -/
theorem set_route_volume_by_name_get {u u' : userdata} {name : String} {v : pa_cvolume}
    {r : ext_route_volume} (h : ext_set_route_volume_by_name u name v = some u')
    (hroute : u.route.isSome = true) (hr : ext_get_route_volume_by_name u name = some r) :
    ext_get_route_volume_by_name u' name = some { r with volume := v } := by
  unfold ext_set_route_volume_by_name at h
  split at h
  · cases h
  · have hn : ¬ (u.route.isNone = true) := by
      cases hu : u.route with
      | none => rw [hu] at hroute; cases hroute
      | some x => simp
    rw [if_neg hn, hr] at h
    obtain ⟨rfl, _⟩ := set_route_volume_frame h
    unfold ext_get_route_volume_by_name at hr ⊢
    exact route_volume_put_get _ _ _ _ hr

/-- The part of `handle_add_entry` after the entry was built: the record is written,
the entry applied on request and the timer armed. -/
theorem add_entry_tail (now : Nat) (u₁ u' : userdata) (name : String) (e : entry)
    (apply_immediately : Bool) (ev₁ ev : List Event)
    (h : (do
        let w := entry_write_u u₁ name e true
        if !w.1 then none
        else do
          let ev₂ := if apply_immediately then [Event.entry_apply name e] else []
          let s := trigger_save now w.2.1
          let ev₃ ← if e.volume_valid then ext_proxy_volume name e.volume else some []
          pure (s.1, ev₁ ++ w.2.2 ++ ev₂ ++ s.2 ++ ev₃ ++ [Event.dbus_reply]))
        = some (u', ev)) :
    pa_database_get u'.database name = some (entry_record e) ∧
      u'.route_volumes = u₁.route_volumes ∧
      u'.save_time_event.isSome = true ∧
      (applied_names ev₁ = [] → stored_names ev₁ = [] → apply_immediately = true →
        applied_names ev = stored_names ev) := by
  dsimp only [entry_write_u, entry_write_replace] at h
  simp only [Bool.not_true, Bool.false_eq_true, if_false] at h
  split at h <;>
  (obtain ⟨ev₃, h₃, h⟩ := Option.bind_eq_some.mp h
   have hq : ev₃ = [] ∨ ev₃ = [.proxy_volume name e.volume] := by
     first
       | exact Or.inr (proxy_volume_quiet h₃).1
       | (simp only [Option.some.injEq] at h₃; exact Or.inl h₃.symm)
   simp only [Option.pure_def, Option.some.injEq, Prod.mk.injEq] at h
   obtain ⟨rfl, rfl⟩ := h
   refine ⟨?_, (trigger_save_frame now _).2.2.1, trigger_save_pending now _, ?_⟩
   · rw [(trigger_save_frame now _).1]
     exact database_get_written _ _ _
   · intro ha hst hap
     subst hap
     simp only [applied_names_append, stored_names_append, ha, hst,
       (trigger_save_events now _).1, (trigger_save_events now _).2]
     rcases hq with rfl | rfl <;> rfl)

/-- What a D-Bus `AddEntry` that stores the entry does. -/
theorem add_entry_spec {now : Nat} {u u' : userdata} {name : String} {device : List Nat}
    {volume : List (Nat × Nat)} {muted apply_immediately : Bool} {ev : List Event}
    (h : handle_add_entry now u name device volume muted apply_immediately = some (u', ev))
    (hs : stored_names ev ≠ []) :
    ∃ map vol e, get_volume_arg volume = some (map, vol) ∧
      e.volume = vol ∧ e.channel_map = map ∧ e.device = some device ∧ e.muted = muted ∧
      pa_database_get u'.database name = some (entry_record e) ∧
      u'.save_time_event.isSome = true ∧
      (apply_immediately = true → applied_names ev = stored_names ev) ∧
      (∀ r, (dbus_entries_get u name).isSome = true → u.route.isSome = true →
        ext_get_route_volume_by_name u name = some r →
        ext_get_route_volume_by_name u' name = some { r with volume := vol }) ∧
      (dbus_entries_get u name = none → u'.route_volumes = u.route_volumes) := by
  unfold handle_add_entry at h
  split at h
  · simp only [Option.some.injEq, Prod.mk.injEq] at h
    obtain ⟨rfl, rfl⟩ := h
    exact absurd rfl hs
  · rename_i map vol harg
    by_cases hname : name = ""
    · rw [if_pos hname] at h
      simp only [Option.some.injEq, Prod.mk.injEq] at h
      obtain ⟨rfl, rfl⟩ := h
      exact absurd rfl hs
    · rw [if_neg hname] at h
      dsimp only at h
      cases hde : dbus_entries_get u name with
      | none =>
        rw [hde] at h
        dsimp only at h
        obtain ⟨⟨de, u₁⟩, hnew, h⟩ := Option.bind_eq_some.mp h
        obtain ⟨_, _, hu₁⟩ := dbus_entry_new_frame hnew
        obtain ⟨hdb, hrv, hsave, hap⟩ := add_entry_tail now u₁ u' name
          ⟨entry_new.version, true, decide (map.channels ≠ 0), !device.isEmpty,
            entry_new.card_valid, muted, map, vol, some device, entry_new.card⟩
          apply_immediately [Event.new_entry_signal de] ev h
        refine ⟨map, vol, _, harg, rfl, rfl, rfl, rfl, hdb, hsave, hap rfl rfl, ?_, ?_⟩
        · intro r hc
          cases hc
        · intro _
          rw [hrv, hu₁]
      | some de =>
        rw [hde] at h
        dsimp only at h
        obtain ⟨eo, _, h⟩ := Option.bind_eq_some.mp h
        obtain ⟨e₀, _, h⟩ := Option.bind_eq_some.mp h
        obtain ⟨u₁, hu₁, h⟩ := Option.bind_eq_some.mp h
        split at h <;>
        (obtain ⟨evm, hm, h⟩ := Option.bind_eq_some.mp h
         have hq : evm = [] ∨ ∃ x, evm = [.mute_updated_signal de x] := by
           first
             | exact Or.inr ⟨_, mute_signal_quiet hm⟩
             | (simp only [Option.some.injEq] at hm; exact Or.inl hm.symm)
         obtain ⟨hdb, hrv, hsave, hap⟩ := add_entry_tail now u₁ u' name
           ⟨e₀.version, true, decide (map.channels ≠ 0), !device.isEmpty, e₀.card_valid,
             muted, map, vol, some device, e₀.card⟩
           apply_immediately _ ev h
         refine ⟨map, vol, _, harg, rfl, rfl, rfl, rfl, hdb, hsave, ?_, ?_, ?_⟩
         · apply hap
           · rcases hq with rfl | ⟨x, rfl⟩ <;>
               simp only [applied_names_append] <;> split_ifs <;> rfl
           · rcases hq with rfl | ⟨x, rfl⟩ <;>
               simp only [stored_names_append] <;> split_ifs <;> rfl
         · intro r _ hroute hr
           have := set_route_volume_by_name_get hu₁ hroute hr
           unfold ext_get_route_volume_by_name at this ⊢
           rw [hrv]
           exact this
         · intro hc
           cases hc)

/-- What the checks of the loop of `SUBCOMMAND_WRITE` leave in the entry they build. -/
theorem write_validate_spec {it : write_item} {name : String} {e : entry}
    (h : write_validate it = some (name, e)) :
    it.name = some name ∧ name ≠ "" ∧
      e = ⟨ENTRY_VERSION, true, decide (it.volume.channels > 0),
            (match it.device with
              | none => false
              | some d => !d.isEmpty),
            false, it.muted, it.channel_map, it.volume, it.device, none⟩ ∧
      (e.volume_valid = true →
        pa_cvolume_compatible_with_channel_map it.volume it.channel_map = true) ∧
      (e.device_valid = true → pa_namereg_is_valid_name it.device = some true) := by
  unfold write_validate at h
  split at h
  · cases h
  · rename_i n hn
    split at h
    · cases h
    · rename_i hne
      dsimp only at h
      split at h
      · cases h
      · rename_i hcompat
        split at h
        · cases h
        · rename_i hdev
          simp only [Option.some.injEq, Prod.mk.injEq] at h
          obtain ⟨rfl, rfl⟩ := h
          refine ⟨hn, hne, rfl, ?_, ?_⟩
          · intro hv
            have hv' : decide (it.volume.channels > 0) = true := hv
            rw [hv'] at hcompat
            simpa using hcompat
          · intro hd
            have hd' : (match it.device with
              | none => false
              | some d => !d.isEmpty) = true := hd
            rw [hd'] at hdev
            simpa using hdev

/-- With a route set or in sink-volume mode, `write_route` gives the route volume
registered for the name the volume of the request. -/
theorem write_route_get {u u₁ : userdata} {name : String} {e : entry} {ev : List Event}
    {r : ext_route_volume} (h : write_route u name e = some (u₁, ev))
    (hv : e.volume_valid = true)
    (hmode : u.route.isSome = true ∨ u.use_sink_volume ≠ none)
    (hr : ext_get_route_volume_by_name u name = some r) :
    ext_get_route_volume_by_name u₁ name = some { r with volume := e.volume } := by
  unfold write_route at h
  rw [if_pos hv] at h
  split at h
  · simp only [Option.map_eq_some', Prod.mk.injEq] at h
    obtain ⟨u₂, h₂, rfl, rfl⟩ := h
    obtain ⟨rfl, _⟩ := set_route_volumes_frame h₂
    unfold ext_get_route_volume_by_name at hr ⊢
    exact route_volumes_map_get _ _ _ _ hr
  · rename_i hsv
    obtain ⟨u₂, h₂, h⟩ := Option.bind_eq_some.mp h
    obtain ⟨ev₂, _, h⟩ := Option.bind_eq_some.mp h
    simp only [Option.pure_def, Option.some.injEq, Prod.mk.injEq] at h
    obtain ⟨rfl, rfl⟩ := h
    rcases hmode with hroute | hne
    · exact set_route_volume_by_name_get h₂ hroute hr
    · exact absurd hsv hne

/-- A `SUBCOMMAND_WRITE` request in Replace mode with one entry that returns success:
the steps it went through. -/
theorem write_single_cases {now : Nat} {u u' : userdata} {apply_immediately : Bool}
    {it : write_item} {ev : List Event}
    (h : extension_write now u PA_UPDATE_REPLACE apply_immediately [some it]
      = some (0, u', ev)) :
    ∃ name e u₁ ev₁ old u₂ ev₂ ev₃,
      write_validate it = some (name, e) ∧
      write_route u name e = some (u₁, ev₁) ∧
      entry_read u.database name = some old ∧
      write_signals
        { u₁ with database :=
            (name, entry_record e) :: u₁.database.filter (fun kv => !(kv.1 == name)) }
        name old e = some (u₂, ev₂) ∧
      (match u₂.use_sink_volume with
        | some sv => ext_sink_set_volume sv e.volume
        | none => some (if apply_immediately then [Event.entry_apply name e] else []))
        = some ev₃ ∧
      ((u₂.use_sink_volume = none ∧ u' = (trigger_save now u₂).1 ∧
          ev = ev₁ ++ ([.database_set name true true] ++ ev₂ ++ ev₃)
            ++ (trigger_save now u₂).2) ∨
        (u₂.use_sink_volume ≠ none ∧ u' = u₂ ∧
          ev = ev₁ ++ ([.database_set name true true] ++ ev₂ ++ ev₃))) := by
  unfold extension_write at h
  rw [if_neg (by decide)] at h
  simp only at h
  rw [if_neg (by decide)] at h
  simp only [write_loop] at h
  split at h
  · cases h
  · rename_i b u₂ ev₀ hloop
    simp at h
  · rename_i u₂ ev₀ hloop
    split at hloop
    · cases hloop
    · cases hloop
    · rename_i u₃ ev' hone
      simp only [Option.some.injEq, Prod.mk.injEq, true_and, List.nil_append] at hloop
      obtain ⟨rfl, rfl⟩ := hloop
      obtain ⟨name, e, u₁, ev₁, evs, hval, hroute, hstore, rfl⟩ := write_one_cases hone
      obtain ⟨hu₁, _⟩ := write_route_frame hroute
      obtain ⟨old, hold, hc⟩ := write_store_cases hstore
      have hdb : u₁.database = u.database := by rw [hu₁]
      rw [hdb] at hold
      rcases hc with ⟨_, ev₂, ev₃, hsig, h₃, rfl⟩ | ⟨hf, _, _⟩
      · refine ⟨name, e, u₁, ev₁, old, u₃, ev₂, ev₃, hval, hroute, hold, hsig, h₃, ?_⟩
        cases hm : u₃.use_sink_volume with
        | none =>
          rw [hm] at h
          simp only [Option.some.injEq, Prod.mk.injEq, true_and] at h
          obtain ⟨rfl, rfl⟩ := h
          exact Or.inl ⟨rfl, rfl, rfl⟩
        | some sv =>
          rw [hm] at h
          simp only [Option.some.injEq, Prod.mk.injEq, true_and] at h
          obtain ⟨rfl, rfl⟩ := h
          exact Or.inr ⟨Option.some_ne_none sv, rfl, rfl⟩
      · have hft : true = false := hf
        cases hft

/-- An entry written over itself: no signal is sent. -/
theorem write_signals_same {u : userdata} {name : String} {e : entry} {de : dbus_entry}
    (hde : dbus_entries_get u name = some de)
    (hdv : e.device_valid = true → ∃ d, e.device = some d)
    (hvv : e.volume_valid = true →
      pa_cvolume_valid e.volume = true ∧ pa_channel_map_valid e.channel_map = true)
    (hmv : e.muted_valid = true) :
    write_signals u name (some e) e = some (u, []) := by
  unfold write_signals
  have hvol : e.volume_valid = true →
      pa_cvolume_equal e.volume e.volume = true ∧
        pa_channel_map_equal e.channel_map e.channel_map = true := by
    intro hv
    obtain ⟨h1, h2⟩ := hvv hv
    simp [pa_cvolume_equal, pa_channel_map_equal, h1, h2]
  cases hd : e.device_valid with
  | false =>
    simp [hde, hd, hmv]
    exact hvol
  | true =>
    obtain ⟨d, hdev⟩ := hdv hd
    simp [hde, hd, hmv, hdev, pa_streq]
    exact hvol

/-- After `write_signals` the name has a D-Bus entry. -/
theorem write_signals_mirror {u u' : userdata} {name : String} {old : Option entry}
    {e : entry} {ev : List Event} (h : write_signals u name old e = some (u', ev)) :
    ∃ de, dbus_entries_get u' name = some de := by
  unfold write_signals at h
  cases old with
  | none =>
    simp only at h
    obtain ⟨⟨de, u₁⟩, h₁, h⟩ := Option.bind_eq_some.mp h
    simp only [Option.pure_def, Option.some.injEq, Prod.mk.injEq] at h
    obtain ⟨rfl, rfl⟩ := h
    obtain ⟨hde, hnone, hu⟩ := dbus_entry_new_frame h₁
    refine ⟨de, ?_⟩
    unfold dbus_entries_get at hnone ⊢
    rw [hu]
    dsimp only
    rw [List.find?_append, hnone, hde]
    simp
  | some o =>
    simp only at h
    obtain ⟨de, hde, h⟩ := Option.bind_eq_some.mp h
    split_ifs at h <;>
    (obtain ⟨dc, _, h⟩ := Option.bind_eq_some.mp h
     split_ifs at h <;>
     (obtain ⟨evm, _, h⟩ := Option.bind_eq_some.mp h
      simp only [Option.pure_def, Option.some.injEq, Prod.mk.injEq] at h
      obtain ⟨rfl, rfl⟩ := h
      exact ⟨de, hde⟩))

/-- With a valid volume `write_route` passes its assertions. -/
theorem write_route_total (u : userdata) (name : String) (e : entry)
    (hv : e.volume_valid = true → pa_cvolume_valid e.volume = true) :
    ∃ u' ev, write_route u name e = some (u', ev) := by
  unfold write_route
  split
  · rename_i hvv
    have hvalid := hv hvv
    split
    · unfold ext_set_route_volumes
      simp only [hvalid, Bool.not_true, Bool.false_eq_true, if_false, Option.map_some']
      exact ⟨_, _, rfl⟩
    · unfold ext_set_route_volume_by_name ext_proxy_volume ext_set_route_volume
      simp only [hvalid, Bool.not_true, Bool.false_eq_true, if_false]
      split
      · exact ⟨_, _, rfl⟩
      · split
        · exact ⟨_, _, rfl⟩
        · exact ⟨_, _, rfl⟩
  · exact ⟨_, _, rfl⟩

/-- The way through `write_store` in Replace mode, forwards. -/
theorem write_store_forward {u u₂ : userdata} {apply_immediately : Bool} {name : String}
    {e : entry} {old : Option entry} {ev₂ ev₃ : List Event}
    (hold : entry_read u.database name = some old)
    (hsig : write_signals
        { u with database :=
            (name, entry_record e) :: u.database.filter (fun kv => !(kv.1 == name)) }
        name old e = some (u₂, ev₂))
    (h₃ : (match u₂.use_sink_volume with
        | some sv => ext_sink_set_volume sv e.volume
        | none => some (if apply_immediately then [Event.entry_apply name e] else []))
        = some ev₃) :
    write_store u PA_UPDATE_REPLACE apply_immediately name e
      = some (u₂, [.database_set name true true] ++ ev₂ ++ ev₃) := by
  unfold write_store
  rw [hold]
  have hrep : (PA_UPDATE_REPLACE == PA_UPDATE_REPLACE) = true := rfl
  simp only [Option.bind_eq_bind, Option.some_bind, entry_write_u, hrep, entry_write_replace,
    if_true, hsig]
  cases hsv : u₂.use_sink_volume with
  | none =>
    rw [hsv] at h₃
    simp only [Option.some.injEq] at h₃
    subst h₃
    simp
  | some sv =>
    rw [hsv] at h₃
    dsimp only at h₃
    simp [h₃]

/-- A Replace request with one entry, forwards. -/
theorem write_single_forward (now : Nat) {u u₁ u₂ : userdata} {apply_immediately : Bool}
    {it : write_item} {name : String} {e : entry} {ev₁ evs : List Event}
    (hval : write_validate it = some (name, e))
    (hroute : write_route u name e = some (u₁, ev₁))
    (hstore : write_store u₁ PA_UPDATE_REPLACE apply_immediately name e = some (u₂, evs)) :
    extension_write now u PA_UPDATE_REPLACE apply_immediately [some it]
      = some (0,
          match u₂.use_sink_volume with
          | some _ => (u₂, ev₁ ++ evs)
          | none => ((trigger_save now u₂).1, ev₁ ++ evs ++ (trigger_save now u₂).2)) := by
  have hone : write_one u PA_UPDATE_REPLACE apply_immediately it
      = some (some (u₂, ev₁ ++ evs)) := by
    unfold write_one
    rw [hval]
    simp only [hroute, hstore]
  unfold extension_write
  rw [if_neg (by decide)]
  simp only
  rw [if_neg (by decide)]
  simp only [write_loop, hone, List.nil_append]
  cases hsv : u₂.use_sink_volume <;> rfl

end StreamRestore

namespace StreamRestore

/-! ## Saving and applying after a mutating call -/

/-- C20, amended (persistence and live apply): outside a sink-volume mode
(`use_sink_volume` is `NULL`) a `SUBCOMMAND_WRITE` that returns success leaves a save
timer pending and, when `apply_immediately` is set, calls `entry_apply` for exactly the
entries it stored, in order; so does a D-Bus `AddEntry` that stores its entry, in any
mode.  A `SUBCOMMAND_DELETE` that returns success, a D-Bus `Device` or `Mute` setter
that stores the entry and a D-Bus `Remove` leave a save timer pending in any mode, and
so does a D-Bus `Volume` setter that stores the entry outside a sink-volume mode.  In a
sink-volume mode a successful `SUBCOMMAND_WRITE` and a storing `Volume` setter leave the
timer as it was, create none and call `entry_apply` for no entry. -/
theorem mutating_calls_save_and_apply (now : Nat) (u : userdata) :
    (∀ mode apply_immediately items u' ev, u.use_sink_volume = none →
        extension_write now u mode apply_immediately items = some (0, u', ev) →
        u'.save_time_event.isSome = true ∧
          (apply_immediately = true → applied_names ev = stored_names ev)) ∧
      (∀ name device volume muted apply_immediately u' ev,
        handle_add_entry now u name device volume muted apply_immediately = some (u', ev) →
        stored_names ev ≠ [] →
        u'.save_time_event.isSome = true ∧
          (apply_immediately = true → applied_names ev = stored_names ev)) ∧
      (∀ names u' ev, extension_delete now u names = some (0, u', ev) →
        u'.save_time_event.isSome = true) ∧
      (∀ de device u' ev, handle_entry_set_device now u de device = some (u', ev) →
        stored_names ev ≠ [] → u'.save_time_event.isSome = true) ∧
      (∀ de mute u' ev, handle_entry_set_mute now u de mute = some (u', ev) →
        stored_names ev ≠ [] → u'.save_time_event.isSome = true) ∧
      (∀ de u' ev, handle_entry_remove now u de = some (u', ev) →
        u'.save_time_event.isSome = true) ∧
      (∀ de volume u' ev, u.use_sink_volume = none →
        handle_entry_set_volume now u de volume = some (u', ev) →
        stored_names ev ≠ [] → u'.save_time_event.isSome = true) ∧
      (∀ mode apply_immediately items u' ev, u.use_sink_volume ≠ none →
        extension_write now u mode apply_immediately items = some (0, u', ev) →
        u'.save_time_event = u.save_time_event ∧ timers_created ev = [] ∧
          applied_names ev = []) ∧
      (∀ de volume u' ev, u.use_sink_volume ≠ none →
        handle_entry_set_volume now u de volume = some (u', ev) →
        stored_names ev ≠ [] →
        u'.save_time_event = u.save_time_event ∧ timers_created ev = [] ∧
          applied_names ev = []) := by
  refine ⟨?_, ?_, ?_, ?_, ?_, ?_, ?_, ?_, ?_⟩
  · intro mode apply_immediately items u' ev hm h
    exact extension_write_saves h hm
  · intro name device volume muted apply_immediately u' ev h hs
    obtain ⟨_, _, _, _, _, _, _, _, _, hsave, hap, _⟩ := add_entry_spec h hs
    exact ⟨hsave, hap⟩
  · intro names u' ev h
    exact extension_delete_saves h
  · intro de device u' ev h hs
    exact entry_set_device_saves h hs
  · intro de mute u' ev h hs
    exact entry_set_mute_saves h hs
  · intro de u' ev h
    exact entry_remove_saves h
  · intro de volume u' ev hm h hs
    obtain ⟨_, _, _, _, _, _, _, hsave, _⟩ := entry_set_volume_spec h hs
    exact hsave hm
  · intro mode apply_immediately items u' ev hm h
    exact extension_write_sink_mode h hm
  · intro de volume u' ev hm h hs
    obtain ⟨_, _, _, _, _, _, _, _, hsink⟩ := entry_set_volume_spec h hs
    exact hsink hm

/-- Witness of the amended C20: a Replace request with `apply_immediately` for the
entry `"phone"`, outside a sink-volume mode and in the sink-volume mode `"btmono"`. -/
theorem mutating_calls_save_and_apply_witness :
    (phone_state.use_sink_volume = none ∧
      extension_write 0 phone_state PA_UPDATE_REPLACE true [some phone_item]
        = some (0,
            ⟨[("phone", entry_record phone_entry)], [("phone:ihf", ⟨4, ⟨[30000]⟩⟩)],
              some 10000000, [⟨"phone", 0⟩], 1, [], true, some "ihf",
              [⟨"phone", ⟨[30000]⟩, ⟨[]⟩, ⟨[100]⟩, false⟩], none⟩,
            [.proxy_volume "phone" ⟨[30000]⟩, .database_set "phone" true true,
              .new_entry_signal ⟨"phone", 0⟩, .entry_apply "phone" phone_entry,
              .time_new 10000000]) ∧
      (⟨[("phone", entry_record phone_entry)], [("phone:ihf", ⟨4, ⟨[30000]⟩⟩)],
          some 10000000, [⟨"phone", 0⟩], 1, [], true, some "ihf",
          [⟨"phone", ⟨[30000]⟩, ⟨[]⟩, ⟨[100]⟩, false⟩], none⟩ :
            userdata).save_time_event.isSome = true ∧
      (true = true →
        applied_names [.proxy_volume "phone" ⟨[30000]⟩, .database_set "phone" true true,
            .new_entry_signal ⟨"phone", 0⟩, .entry_apply "phone" phone_entry,
            .time_new 10000000]
          = stored_names [.proxy_volume "phone" ⟨[30000]⟩,
            .database_set "phone" true true, .new_entry_signal ⟨"phone", 0⟩,
            .entry_apply "phone" phone_entry, .time_new 10000000])) ∧
    (sink_volume_state.use_sink_volume ≠ none ∧
      extension_write 0 sink_volume_state PA_UPDATE_REPLACE true [some phone_item]
        = some (0,
            ⟨[("phone", entry_record phone_entry)], [], none, [⟨"phone", 0⟩], 1, [], true,
              some "ihf", [⟨"phone", ⟨[30000]⟩, ⟨[]⟩, ⟨[100]⟩, false⟩],
              some ⟨"btmono", "sink.hw1"⟩⟩,
            [.database_set "phone" true true, .new_entry_signal ⟨"phone", 0⟩,
              .sink_set_volume "sink.hw1" ⟨[30000]⟩]) ∧
      (⟨[("phone", entry_record phone_entry)], [], none, [⟨"phone", 0⟩], 1, [], true,
          some "ihf", [⟨"phone", ⟨[30000]⟩, ⟨[]⟩, ⟨[100]⟩, false⟩],
          some ⟨"btmono", "sink.hw1"⟩⟩ : userdata).save_time_event
        = sink_volume_state.save_time_event ∧
      timers_created [.database_set "phone" true true, .new_entry_signal ⟨"phone", 0⟩,
          .sink_set_volume "sink.hw1" ⟨[30000]⟩] = [] ∧
      applied_names [.database_set "phone" true true, .new_entry_signal ⟨"phone", 0⟩,
          .sink_set_volume "sink.hw1" ⟨[30000]⟩] = []) :=
  ⟨⟨rfl, by decide,
      (mutating_calls_save_and_apply 0 phone_state).1 PA_UPDATE_REPLACE true
        [some phone_item] _ _ rfl (by decide)⟩,
    ⟨by decide, by decide,
      (mutating_calls_save_and_apply 0 sink_volume_state).2.2.2.2.2.2.2.1
        PA_UPDATE_REPLACE true [some phone_item] _ _ (by decide) (by decide)⟩⟩

end StreamRestore

namespace StreamRestore

/-! ## Route volumes and the main database -/

/-- C15, amended (route-volume shadow): let `name` be registered as a route volume.
A `SUBCOMMAND_WRITE` request in Replace mode that returns success, with one entry of
that name and a volume of at least one channel (with a route set, or in a sink-volume
mode), a D-Bus `Volume` setter on the entry of that name that stores the entry, and a
D-Bus `AddEntry` for that name that finds its D-Bus entry (with a route set) each set
the volume of the route volume registered for `name` to the new volume, and each also
writes the record with the new volume into the main database under `name`. -/
theorem route_volume_shadow (now : Nat) (u : userdata) (name : String)
    (r : ext_route_volume) (hr : ext_get_route_volume_by_name u name = some r) :
    (∀ apply_immediately it e u' ev,
        extension_write now u PA_UPDATE_REPLACE apply_immediately [some it]
          = some (0, u', ev) →
        write_validate it = some (name, e) → e.volume_valid = true →
        u.route.isSome = true ∨ u.use_sink_volume ≠ none →
        e.volume = it.volume ∧
          ext_get_route_volume_by_name u' name = some { r with volume := it.volume } ∧
          pa_database_get u'.database name = some (entry_record e)) ∧
      (∀ index volume u' ev,
        handle_entry_set_volume now u ⟨name, index⟩ volume = some (u', ev) →
        stored_names ev ≠ [] →
        ∃ map vol e, get_volume_arg volume = some (map, vol) ∧ e.volume = vol ∧
          ext_get_route_volume_by_name u' name = some { r with volume := vol } ∧
          pa_database_get u'.database name = some (entry_record e)) ∧
      (∀ device volume muted apply_immediately u' ev,
        handle_add_entry now u name device volume muted apply_immediately = some (u', ev) →
        stored_names ev ≠ [] →
        (dbus_entries_get u name).isSome = true → u.route.isSome = true →
        ∃ map vol e, get_volume_arg volume = some (map, vol) ∧ e.volume = vol ∧
          ext_get_route_volume_by_name u' name = some { r with volume := vol } ∧
          pa_database_get u'.database name = some (entry_record e)) := by
  refine ⟨?_, ?_, ?_⟩
  · intro apply_immediately it e u' ev h hval hv hmode
    obtain ⟨name', e', u₁, ev₁, old, u₂, ev₂, ev₃, hval', hroute, _, hsig, _, hc⟩ :=
      write_single_cases h
    rw [hval] at hval'
    simp only [Option.some.injEq, Prod.mk.injEq] at hval'
    obtain ⟨rfl, rfl⟩ := hval'
    obtain ⟨_, _, he, _, _⟩ := write_validate_spec hval
    have hvol : e.volume = it.volume := by rw [he]
    have hget := write_route_get hroute hv hmode hr
    obtain ⟨hu₂, _⟩ := write_signals_frame hsig
    have hrv₂ : u₂.route_volumes = u₁.route_volumes := by rw [hu₂]
    have hdb₂ : u₂.database
        = (name, entry_record e) :: u₁.database.filter (fun kv => !(kv.1 == name)) := by
      rw [hu₂]
    have hfin : ext_get_route_volume_by_name u₂ name = some { r with volume := it.volume } ∧
        pa_database_get u₂.database name = some (entry_record e) := by
      refine ⟨?_, ?_⟩
      · unfold ext_get_route_volume_by_name at hget ⊢
        rw [hrv₂, hget, hvol]
      · rw [hdb₂]
        exact database_get_written _ _ _
    rcases hc with ⟨_, rfl, _⟩ | ⟨_, rfl, _⟩
    · refine ⟨hvol, ?_, ?_⟩
      · unfold ext_get_route_volume_by_name
        rw [(trigger_save_frame now u₂).2.2.1]
        exact hfin.1
      · rw [(trigger_save_frame now u₂).1]
        exact hfin.2
    · exact ⟨hvol, hfin⟩
  · intro index volume u' ev h hs
    obtain ⟨map, vol, e₀, harg, _, hdb, hroute, _⟩ := entry_set_volume_spec h hs
    exact ⟨map, vol, _, harg, rfl, hroute r hr, hdb⟩
  · intro device volume muted apply_immediately u' ev h hs hde hroute
    obtain ⟨map, vol, e, harg, hvol, _, _, _, hdb, _, _, hget, _⟩ := add_entry_spec h hs
    exact ⟨map, vol, e, harg, hvol, hget r hde hroute hr, hdb⟩

/-- Witness of the amended C15: the Replace request for `"phone"` with the volume
30000 on the state with the route `"ihf"` and the route volume `"phone"`. -/
theorem route_volume_shadow_witness :
    ext_get_route_volume_by_name phone_state "phone"
        = some ⟨"phone", ⟨[100]⟩, ⟨[]⟩, ⟨[100]⟩, false⟩ ∧
      extension_write 0 phone_state PA_UPDATE_REPLACE true [some phone_item]
        = some (0,
            ⟨[("phone", entry_record phone_entry)], [("phone:ihf", ⟨4, ⟨[30000]⟩⟩)],
              some 10000000, [⟨"phone", 0⟩], 1, [], true, some "ihf",
              [⟨"phone", ⟨[30000]⟩, ⟨[]⟩, ⟨[100]⟩, false⟩], none⟩,
            [.proxy_volume "phone" ⟨[30000]⟩, .database_set "phone" true true,
              .new_entry_signal ⟨"phone", 0⟩, .entry_apply "phone" phone_entry,
              .time_new 10000000]) ∧
      write_validate phone_item = some ("phone", phone_entry) ∧
      (phone_entry.volume = phone_item.volume ∧
        ext_get_route_volume_by_name
            ⟨[("phone", entry_record phone_entry)], [("phone:ihf", ⟨4, ⟨[30000]⟩⟩)],
              some 10000000, [⟨"phone", 0⟩], 1, [], true, some "ihf",
              [⟨"phone", ⟨[30000]⟩, ⟨[]⟩, ⟨[100]⟩, false⟩], none⟩ "phone"
          = some ⟨"phone", phone_item.volume, ⟨[]⟩, ⟨[100]⟩, false⟩ ∧
        pa_database_get
            (⟨[("phone", entry_record phone_entry)], [("phone:ihf", ⟨4, ⟨[30000]⟩⟩)],
              some 10000000, [⟨"phone", 0⟩], 1, [], true, some "ihf",
              [⟨"phone", ⟨[30000]⟩, ⟨[]⟩, ⟨[100]⟩, false⟩], none⟩ : userdata).database
            "phone"
          = some (entry_record phone_entry)) :=
  ⟨by decide, by decide, by decide,
    (route_volume_shadow 0 phone_state "phone" ⟨"phone", ⟨[100]⟩, ⟨[]⟩, ⟨[100]⟩, false⟩
      (by decide)).1 true phone_item phone_entry _
      [.proxy_volume "phone" ⟨[30000]⟩, .database_set "phone" true true,
        .new_entry_signal ⟨"phone", 0⟩, .entry_apply "phone" phone_entry,
        .time_new 10000000]
      (by decide) (by decide) rfl (Or.inl rfl)⟩

end StreamRestore

namespace StreamRestore

/-! ## The same write request twice -/

theorem database_sets_append (a b : List Event) :
    database_sets (a ++ b) = database_sets a ++ database_sets b := by
  unfold database_sets
  exact List.filterMap_append _ _ _

theorem signals_sent_append (a b : List Event) :
    signals_sent (a ++ b) = signals_sent a ++ signals_sent b := by
  unfold signals_sent
  exact List.filter_append _ _

theorem trigger_save_no_signal (now : Nat) (u : userdata) :
    database_sets (trigger_save now u).2 = [] ∧ signals_sent (trigger_save now u).2 = [] := by
  obtain ⟨rdb, h⟩ := trigger_save_spec now u
  rw [h]
  dsimp only
  rw [database_sets_append, signals_sent_append]
  have h1 : ∀ l : List Nat, database_sets (l.map Event.subscription_event) = [] ∧
      signals_sent (l.map Event.subscription_event) = [] := by
    intro l
    induction l with
    | nil => exact ⟨rfl, rfl⟩
    | cons a l ih => exact ⟨ih.1, ih.2⟩
  rw [(h1 _).1, (h1 _).2]
  split <;> exact ⟨rfl, rfl⟩

/-- What follows `write_signals` in `write_store` (the sink volume is set, or the
entry applied) writes no record and sends no signal. -/
theorem apply_events_quiet {sink : Option ext_sink_volume} {apply_immediately : Bool}
    {name : String} {e : entry} {ev : List Event}
    (h : (match sink with
        | some sv => ext_sink_set_volume sv e.volume
        | none => some (if apply_immediately then [Event.entry_apply name e] else []))
        = some ev) :
    database_sets ev = [] ∧ signals_sent ev = [] := by
  cases sink with
  | none =>
    simp only [Option.some.injEq] at h
    subst h
    cases apply_immediately <;> exact ⟨rfl, rfl⟩
  | some sv =>
    have := sink_set_volume_quiet h
    subst this
    exact ⟨rfl, rfl⟩

/-- Writing a record under a key that was just written with the same record leaves
the database as it is. -/
theorem database_set_twice (db : pa_database) (name : String) (data : List Nat) :
    (name, data) :: ((name, data) :: db.filter (fun kv => !(kv.1 == name))).filter
        (fun kv => !(kv.1 == name))
      = (name, data) :: db.filter (fun kv => !(kv.1 == name)) := by
  rw [List.filter_cons_of_neg (by simp), List.filter_filter]
  simp

/-- C13, amended (the same write twice): let a `SUBCOMMAND_WRITE` request in Replace
mode with one entry pass the checks of the loop and return success, the entry holding
values of the C types of `struct entry` and, when its volume is empty, a channel map of
at most `PA_CHANNELS_MAX` positions in 0..255 (what the tagstruct readers deliver).
Then the same request issued again returns success as well; each of the two requests
calls `pa_database_set` once for the name (two physical writes in total); the second
request sends no D-Bus signal and leaves the main database and the D-Bus entries as
the first request left them. -/
theorem write_twice (now₁ now₂ : Nat) (u u₁ : userdata) (apply_immediately : Bool)
    (it : write_item) (name : String) (e : entry) (ev₁ : List Event)
    (hval : write_validate it = some (name, e))
    (ht : entry_typed e = true)
    (hjunk : e.volume_valid = false → e.channel_map.channels ≤ PA_CHANNELS_MAX ∧
      ∀ p ∈ e.channel_map.map, 0 ≤ p ∧ p < 256)
    (h₁ : extension_write now₁ u PA_UPDATE_REPLACE apply_immediately [some it]
      = some (0, u₁, ev₁)) :
    ∃ u₂ ev₂,
      extension_write now₂ u₁ PA_UPDATE_REPLACE apply_immediately [some it]
        = some (0, u₂, ev₂) ∧
      database_sets ev₁ = [name] ∧ database_sets ev₂ = [name] ∧ signals_sent ev₂ = [] ∧
      u₂.database = u₁.database ∧ u₂.dbus_entries = u₁.dbus_entries := by
  obtain ⟨name', e', ur, evr, old, s, evsig, ev₃, hval', hroute, hold, hsig, h₃, hc⟩ :=
    write_single_cases h₁
  rw [hval] at hval'
  simp only [Option.some.injEq, Prod.mk.injEq] at hval'
  obtain ⟨rfl, rfl⟩ := hval'
  obtain ⟨_, _, he, hcompat, hdevv⟩ := write_validate_spec hval
  obtain ⟨hur, _, _, hdsr, _, _, hvalid⟩ := write_route_frame hroute
  obtain ⟨hs, _, _, hdss, _⟩ := write_signals_frame hsig
  obtain ⟨de, hde⟩ := write_signals_mirror hsig
  obtain ⟨hds₃, hss₃⟩ := apply_events_quiet h₃
  -- the entry of the request
  have hmv : e.muted_valid = true := by rw [he]
  have hcv : e.card_valid = false := by rw [he]
  have hver : e.version ≤ ENTRY_VERSION := by rw [he]
  have hedev : e.device = it.device := by rw [he]
  have hevol : e.volume = it.volume := by rw [he]
  have hemap : e.channel_map = it.channel_map := by rw [he]
  have hvol : e.volume_valid = true → pa_channel_map_valid e.channel_map = true ∧
      pa_cvolume_valid e.volume = true ∧ e.volume.channels = e.channel_map.channels := by
    intro hv
    have hcm := hcompat hv
    unfold pa_cvolume_compatible_with_channel_map at hcm
    simp only [Bool.and_eq_true, beq_iff_eq] at hcm
    rw [hevol, hemap]
    exact ⟨hcm.1.2, hcm.1.1, hcm.2⟩
  have hjunk' : e.volume_valid = false → e.channel_map.channels ≤ PA_CHANNELS_MAX ∧
      e.volume.channels ≤ PA_CHANNELS_MAX ∧ ∀ p ∈ e.channel_map.map, 0 ≤ p ∧ p < 256 := by
    intro hv
    obtain ⟨h1, h2⟩ := hjunk hv
    refine ⟨h1, ?_, h2⟩
    have hz : decide (it.volume.channels > 0) = false := by
      rw [he] at hv
      exact hv
    rw [hevol]
    simp only [gt_iff_lt, decide_eq_false_iff_not, not_lt, Nat.le_zero_eq] at hz
    rw [hz]
    exact Nat.zero_le _
  have hdv : e.device_valid = true → ∃ d, e.device = some d := by
    intro hd
    rw [hedev]
    cases hdev : it.device with
    | none =>
      rw [he, hdev] at hd
      cases hd
    | some d => exact ⟨d, rfl⟩
  -- the state after the first request
  have hsdb : s.database
      = (name, entry_record e) :: ur.database.filter (fun kv => !(kv.1 == name)) := by
    rw [hs]
  have hfirst : u₁.database = s.database ∧ u₁.dbus_entries = s.dbus_entries ∧
      u₁.use_sink_volume = s.use_sink_volume ∧ database_sets ev₁ = [name] := by
    have hcore : database_sets (evr ++ ([Event.database_set name true true] ++ evsig ++ ev₃))
        = [name] := by
      rw [database_sets_append, database_sets_append, database_sets_append, hdsr, hdss,
        hds₃]
      rfl
    rcases hc with ⟨_, rfl, rfl⟩ | ⟨_, rfl, rfl⟩
    · obtain ⟨f1, f2, _, f4, _⟩ := trigger_save_frame now₁ s
      refine ⟨f1, f2, f4, ?_⟩
      rw [database_sets_append, hcore, (trigger_save_no_signal now₁ s).1]
      rfl
    · exact ⟨rfl, rfl, rfl, hcore⟩
  obtain ⟨hdb₁, hdbus₁, hsink₁, hsets₁⟩ := hfirst
  -- the second request
  obtain ⟨ur2, evr2, hroute2⟩ := write_route_total u₁ name e hvalid
  obtain ⟨hur2, _, _, hdsr2, _, hssr2, _⟩ := write_route_frame hroute2
  have hdb2 : ur2.database
      = (name, entry_record e) :: ur.database.filter (fun kv => !(kv.1 == name)) := by
    rw [hur2]
    exact hdb₁.trans hsdb
  have hdbus2 : ur2.dbus_entries = s.dbus_entries := by
    rw [hur2]
    exact hdbus₁
  have hsink2 : ur2.use_sink_volume = s.use_sink_volume := by
    rw [hur2]
    exact hsink₁
  have hread : entry_read ur2.database name = some (some e) := by
    rw [hdb2]
    exact (entry_read_entry_write ur.database name e ht hver
      (fun hd => by rw [hedev]; exact hdevv hd)
      (fun hc => by rw [hcv] at hc; cases hc) hvol hjunk').2
  have hde2 : dbus_entries_get
      { ur2 with database :=
          (name, entry_record e) :: ur2.database.filter (fun kv => !(kv.1 == name)) }
      name = some de := by
    unfold dbus_entries_get at hde ⊢
    dsimp only
    rw [hdbus2]
    exact hde
  have hsame := write_signals_same hde2 hdv (fun hv => ⟨(hvol hv).2.1, (hvol hv).1⟩) hmv
  have h₃' : (match ({ ur2 with database :=
          (name, entry_record e) :: ur2.database.filter (fun kv => !(kv.1 == name)) } :
            userdata).use_sink_volume with
        | some sv => ext_sink_set_volume sv e.volume
        | none => some (if apply_immediately then [Event.entry_apply name e] else []))
        = some ev₃ := by
    dsimp only
    rw [hsink2]
    exact h₃
  have hrun := write_single_forward now₂ hval hroute2 (write_store_forward hread hsame h₃')
  have hcore2 : database_sets (evr2 ++ ([Event.database_set name true true] ++ [] ++ ev₃))
        = [name] ∧
      signals_sent (evr2 ++ ([Event.database_set name true true] ++ [] ++ ev₃)) = [] := by
    rw [database_sets_append, database_sets_append, database_sets_append, hdsr2, hds₃,
      signals_sent_append, signals_sent_append, signals_sent_append, hssr2, hss₃]
    exact ⟨rfl, rfl⟩
  have hdbfin : (name, entry_record e) :: ur2.database.filter (fun kv => !(kv.1 == name))
      = u₁.database := by
    rw [hdb2, database_set_twice, hdb₁, hsdb]
  dsimp only at hrun
  cases hsv : ur2.use_sink_volume with
  | none =>
    rw [hsv] at hrun
    dsimp only at hrun
    refine ⟨_, _, hrun, hsets₁, ?_, ?_, ?_, ?_⟩
    · rw [database_sets_append, hcore2.1, (trigger_save_no_signal now₂ _).1]
      rfl
    · rw [signals_sent_append, hcore2.2, (trigger_save_no_signal now₂ _).2]
      rfl
    · rw [(trigger_save_frame now₂ _).1]
      exact hdbfin
    · rw [(trigger_save_frame now₂ _).2.1]
      exact hdbus2.trans hdbus₁.symm
  | some sv =>
    rw [hsv] at hrun
    dsimp only at hrun
    exact ⟨_, _, hrun, hsets₁, hcore2.1, hcore2.2, hdbfin, hdbus2.trans hdbus₁.symm⟩

/-- Witness of the amended C13: the Replace request for the role `"music"` on the
state after loading, issued at the times 0 and 1. -/
theorem write_twice_witness :
    write_validate music_item = some ("sink-input-by-media-role:music", sink0_entry) ∧
      entry_typed sink0_entry = true ∧
      extension_write 0 fresh_state PA_UPDATE_REPLACE false [some music_item]
        = some (0,
            ⟨[("sink-input-by-media-role:music", entry_record sink0_entry)], [],
              some 10000000, [⟨"sink-input-by-media-role:music", 0⟩], 1, [], true, none,
              [], none⟩,
            [.proxy_volume "sink-input-by-media-role:music" ⟨[50000, 50000]⟩,
              .database_set "sink-input-by-media-role:music" true true,
              .new_entry_signal ⟨"sink-input-by-media-role:music", 0⟩,
              .time_new 10000000]) ∧
      ∃ u₂ ev₂,
        extension_write 1
            ⟨[("sink-input-by-media-role:music", entry_record sink0_entry)], [],
              some 10000000, [⟨"sink-input-by-media-role:music", 0⟩], 1, [], true, none,
              [], none⟩
            PA_UPDATE_REPLACE false [some music_item]
          = some (0, u₂, ev₂) ∧
        database_sets
            [.proxy_volume "sink-input-by-media-role:music" ⟨[50000, 50000]⟩,
              .database_set "sink-input-by-media-role:music" true true,
              .new_entry_signal ⟨"sink-input-by-media-role:music", 0⟩,
              .time_new 10000000]
          = ["sink-input-by-media-role:music"] ∧
        database_sets ev₂ = ["sink-input-by-media-role:music"] ∧
        signals_sent ev₂ = [] ∧
        u₂.database
          = (⟨[("sink-input-by-media-role:music", entry_record sink0_entry)], [],
              some 10000000, [⟨"sink-input-by-media-role:music", 0⟩], 1, [], true, none,
              [], none⟩ : userdata).database ∧
        u₂.dbus_entries
          = (⟨[("sink-input-by-media-role:music", entry_record sink0_entry)], [],
              some 10000000, [⟨"sink-input-by-media-role:music", 0⟩], 1, [], true, none,
              [], none⟩ : userdata).dbus_entries :=
  ⟨by decide, by decide, by decide,
    write_twice 0 1 fresh_state _ false music_item "sink-input-by-media-role:music"
      sink0_entry _ (by decide) (by decide) (fun h => absurd h (by decide)) (by decide)⟩

end StreamRestore

namespace StreamRestore

/-! ## Signals after a stream event -/

/-- An entry that `entry_read` returns passed the checks at its end. -/
theorem entry_read_checked {db : pa_database} {name : String} {e : entry}
    (h : entry_read db name = some (some e)) :
    e.volume_valid = true →
      pa_channel_map_valid e.channel_map = true ∧ pa_cvolume_valid e.volume = true := by
  unfold entry_read at h
  cases hget : pa_database_get db name with
  | none => simp [hget] at h
  | some data =>
    simp only [hget] at h
    cases hparse : entry_parse data with
    | none => simp [hparse] at h
    | some p =>
      obtain ⟨e', t⟩ := p
      simp only [hparse] at h
      cases hchk : entry_checks e' t with
      | none => simp [hchk] at h
      | some b =>
        cases b with
        | false => simp [hchk] at h
        | true =>
          simp only [hchk, Option.some.injEq] at h
          subst h
          intro hv
          obtain ⟨_, _, _, hvol⟩ := entry_checks_true hchk
          exact ⟨(hvol hv).1, (hvol hv).2.1⟩

/-- The candidate of `subscribe_callback` for a stored entry: its fields and the three
update flags. -/
theorem subscribe_candidate_flags {s : stream} {old : entry} {c : candidate}
    (hc : subscribe_candidate s (some old) = some c) :
    c.entry.device = s.preferred_device ∧
      c.device_updated = !pa_safe_streq s.preferred_device old.device ∧
      ((s.save_volume && s.volume_readable) = true →
        c.entry.volume_valid = true ∧ c.entry.channel_map = s.channel_map ∧
          c.entry.volume = s.volume ∧
          c.volume_updated = (!old.volume_valid ||
            !pa_channel_map_equal s.channel_map old.channel_map ||
            !pa_cvolume_equal s.volume old.volume)) ∧
      ((s.save_volume && s.volume_readable) = false →
        c.entry.volume_valid = old.volume_valid ∧ c.entry.channel_map = old.channel_map ∧
          c.entry.volume = old.volume ∧ c.volume_updated = false) ∧
      (s.save_muted = true →
        c.entry.muted_valid = true ∧ c.entry.muted = s.muted ∧
          c.mute_updated = (!old.muted_valid || s.muted != old.muted)) ∧
      (s.save_muted = false →
        c.entry.muted_valid = old.muted_valid ∧ c.entry.muted = old.muted ∧
          c.mute_updated = false) := by
  unfold subscribe_candidate at hc
  cases hsv : s.save_volume <;> cases hvr : s.volume_readable <;>
    cases hvw : s.volume_writable <;> cases hsm : s.save_muted <;>
    cases hcard : s.card <;> cases hpd : s.preferred_device <;>
    simp [hsv, hvr, hvw, hsm, hcard, hpd] at hc <;>
    subst hc <;> simp

/-- The signals that `subscribe_store` sends for an entry that was stored before are
those of the three update flags, in the order device, volume, mute, and they go to the
D-Bus entry of the name. -/
theorem subscribe_store_signals {now : Nat} {u u' : userdata} {name : String}
    {c : candidate} {ev : List Event}
    (h : subscribe_store now u name false c = some (u', ev)) :
    ∃ de, dbus_entries_get u name = some de ∧
      signals_sent ev =
        (if c.device_updated then [Event.device_updated_signal de c.entry] else []) ++
        (if c.volume_updated then [Event.volume_updated_signal de c.entry] else []) ++
        (if c.mute_updated then [Event.mute_updated_signal de c.entry] else []) := by
  unfold subscribe_store at h
  dsimp only at h
  simp only [Bool.false_eq_true, if_false] at h
  have step : ∀ (y : userdata × List Event) (x : Option (userdata × List Event)),
      x = some y →
      (x = Option.map (fun u => (u, [])) (ext_set_route_volume u name c.entry.volume) ∨
        x = some (u, []) ∨
        x = some ((trigger_save now (entry_write_u u name c.entry true).2.1).1,
            (entry_write_u u name c.entry true).2.2 ++
              (trigger_save now (entry_write_u u name c.entry true).2.1).2) ∨
        x = some ((entry_write_u u name c.entry true).2.1,
            (entry_write_u u name c.entry true).2.2)) →
      signals_sent y.2 = [] ∧ y.1.dbus_entries = u.dbus_entries := by
    intro y x hx hcases
    rcases hcases with rfl | rfl | rfl | rfl
    · simp only [Option.map_eq_some'] at hx
      obtain ⟨u₂, h₂, rfl⟩ := hx
      obtain ⟨rfl, _⟩ := set_route_volume_frame h₂
      exact ⟨rfl, rfl⟩
    · cases hx
      exact ⟨rfl, rfl⟩
    · cases hx
      refine ⟨?_, ?_⟩
      · dsimp only [entry_write_u]
        rw [signals_sent_append, (trigger_save_no_signal now _).2]
        rfl
      · dsimp only
        rw [(trigger_save_frame now _).2.1]
        rfl
    · cases hx
      exact ⟨rfl, rfl⟩
  have fin : ∀ (y : userdata × List Event) (de : dbus_entry) (evm ev₃ : List Event),
      signals_sent y.2 = [] →
      (evm = [] ∧ c.mute_updated = false ∨
        evm = [Event.mute_updated_signal de c.entry] ∧ c.mute_updated = true) →
      (ev₃ = [] ∨ ev₃ = [Event.proxy_volume name c.entry.volume]) →
      signals_sent (y.2 ++
          (((if c.device_updated = true then [Event.device_updated_signal de c.entry]
              else []) ++
            if c.volume_updated = true then [Event.volume_updated_signal de c.entry]
              else []) ++ evm) ++ ev₃) =
        (if c.device_updated then [Event.device_updated_signal de c.entry] else []) ++
        (if c.volume_updated then [Event.volume_updated_signal de c.entry] else []) ++
        (if c.mute_updated then [Event.mute_updated_signal de c.entry] else []) := by
    intro y de evm ev₃ hy hm h₃
    rw [signals_sent_append, signals_sent_append, hy]
    rcases hm with ⟨rfl, hm⟩ | ⟨rfl, hm⟩ <;> rcases h₃ with rfl | rfl <;>
      cases hd : c.device_updated <;> cases hv : c.volume_updated <;>
      simp [signals_sent, hm]
  split at h <;> [split at h; split at h] <;>
  (obtain ⟨y, hy, h⟩ := Option.bind_eq_some.mp h
   obtain ⟨hsig, hdbus⟩ := step y _ hy (by simp)
   obtain ⟨de, hde, h⟩ := Option.bind_eq_some.mp h
   refine ⟨de, ?_, ?_⟩
   · unfold dbus_entries_get at hde ⊢
     rw [← hdbus]
     exact hde
   · split at h <;>
     (rename_i hmu
      obtain ⟨evm, hm, h⟩ := Option.bind_eq_some.mp h
      obtain ⟨y₂, hy₂, h⟩ := Option.bind_eq_some.mp h
      simp only [Option.pure_def, Option.some.injEq] at hy₂
      subst hy₂
      have hm' : evm = [] ∧ c.mute_updated = false ∨
          evm = [Event.mute_updated_signal de c.entry] ∧ c.mute_updated = true := by
        first
          | exact Or.inr ⟨mute_signal_quiet hm, hmu⟩
          | (simp only [Option.some.injEq] at hm
             exact Or.inl ⟨hm.symm, by simpa using hmu⟩)
      split at h <;>
      (obtain ⟨ev₃, h₃, h⟩ := Option.bind_eq_some.mp h
       simp only [Option.pure_def, Option.some.injEq, Prod.mk.injEq] at h
       obtain ⟨_, rfl⟩ := h
       have h₃' : ev₃ = [] ∨ ev₃ = [Event.proxy_volume name c.entry.volume] := by
         first
           | exact Or.inr (proxy_volume_quiet h₃).1
           | (simp only [Option.some.injEq] at h₃; exact Or.inl h₃.symm)
       exact fin y de evm ev₃ hsig hm' h₃')))

theorem channel_map_equal_iff {a b : pa_channel_map} (ha : pa_channel_map_valid a = true)
    (hb : pa_channel_map_valid b = true) : pa_channel_map_equal a b = true ↔ a = b := by
  cases a
  cases b
  simp [pa_channel_map_equal, ha, hb]

theorem cvolume_equal_iff {a b : pa_cvolume} (ha : pa_cvolume_valid a = true)
    (hb : pa_cvolume_valid b = true) : pa_cvolume_equal a b = true ↔ a = b := by
  cases a
  cases b
  simp [pa_cvolume_equal, ha, hb]

/-- C21 as stated fails for the device: the entry `"x"` stored by `AddEntry` with an
empty device string has `device_valid` false; a stream event for `"x"` that changes the
mute state and has no preferred device leaves `device_valid` false, yet `DeviceUpdated`
is sent along with `MuteUpdated`, because the stored device string is `""` and the new
one is `NULL`. -/
theorem device_updated_without_change :
    (handle_add_entry 0 fresh_state "x" [] [] false false).bind
        (fun r =>
          (subscribe_callback same_map_lib 1 r.1 true (some muted_stream_x)).map
            (fun r' => (entry_read r.1.database "x", signals_sent r'.2)))
      = some (some (some ⟨4, true, false, false, false, false, ⟨[]⟩, ⟨[]⟩, some [], none⟩),
          [.device_updated_signal ⟨"x", 0⟩
              ⟨4, true, false, false, false, true, ⟨[]⟩, ⟨[]⟩, none, none⟩,
            .mute_updated_signal ⟨"x", 0⟩
              ⟨4, true, false, false, false, true, ⟨[]⟩, ⟨[]⟩, none, none⟩]) := by
  decide

/-- C21, amended (field-level notifications on stream events): let `subscribe_callback`
find the stored entry `old` for the name of a stream whose channel map and volume are
valid, let `c` be the candidate computed from the stream, not equal to `old` under
`entries_equal`, and let the callback return.  Then the D-Bus signals it sends go to
the D-Bus entry of the name and are, in this order: `DeviceUpdated` if and only if the
device strings of `old` and the candidate differ (`NULL` being equal to `NULL` only,
whatever the validity flags), `VolumeUpdated` if and only if the volume field changed
(validity flag, channel map or per-channel values), and `MuteUpdated` if and only if
the mute field changed (validity flag or value); no other signal is sent. -/
theorem stream_event_signals (L : Lib) (now : Nat) (u u' : userdata) (s : stream)
    (name : String) (old : entry) (c : candidate) (ev : List Event)
    (hf : s.is_filter = false) (hn : s.name = some name)
    (hold : entry_read u.database name = some (some old))
    (hc : subscribe_candidate s (some old) = some c)
    (hsv : pa_channel_map_valid s.channel_map = true ∧ pa_cvolume_valid s.volume = true)
    (hne : entries_equal L old c.entry = some false)
    (hrun : subscribe_callback L now u true (some s) = some (u', ev)) :
    ∃ de, dbus_entries_get u name = some de ∧
      signals_sent ev =
        (if c.entry.device ≠ old.device then [Event.device_updated_signal de c.entry]
          else []) ++
        (if old.volume_valid ≠ c.entry.volume_valid ∨
            c.entry.channel_map ≠ old.channel_map ∨ c.entry.volume ≠ old.volume then
          [Event.volume_updated_signal de c.entry] else []) ++
        (if old.muted_valid ≠ c.entry.muted_valid ∨ c.entry.muted ≠ old.muted then
          [Event.mute_updated_signal de c.entry] else []) := by
  unfold subscribe_callback at hrun
  simp only [Bool.not_true, Bool.false_eq_true, if_false, hf, hn, hold, hc, hne,
    Option.bind_eq_bind, Option.some_bind] at hrun
  obtain ⟨de, hde, hsig⟩ := subscribe_store_signals hrun
  refine ⟨de, hde, ?_⟩
  obtain ⟨hdev, hdu, hvs, hvn, hms, hmn⟩ := subscribe_candidate_flags hc
  have hd : c.device_updated = true ↔ c.entry.device ≠ old.device := by
    rw [hdu, hdev]
    simp [pa_safe_streq]
  have hv : c.volume_updated = true ↔
      (old.volume_valid ≠ c.entry.volume_valid ∨ c.entry.channel_map ≠ old.channel_map ∨
        c.entry.volume ≠ old.volume) := by
    cases hsave : (s.save_volume && s.volume_readable) with
    | false =>
      obtain ⟨h1, h2, h3, h4⟩ := hvn hsave
      rw [h1, h2, h3, h4]
      simp
    | true =>
      obtain ⟨h1, h2, h3, h4⟩ := hvs hsave
      rw [h1, h2, h3, h4]
      cases hov : old.volume_valid with
      | false => simp
      | true =>
        obtain ⟨hm, hvv⟩ := entry_read_checked hold hov
        have e1 := channel_map_equal_iff hsv.1 hm
        have e2 := cvolume_equal_iff hsv.2 hvv
        simp only [Bool.not_true, Bool.false_or, Bool.or_eq_true, Bool.not_eq_true',
          ne_eq, not_true_eq_false, false_or]
        constructor
        · rintro (h | h)
          · left
            intro heq
            rw [e1.mpr heq] at h
            cases h
          · right
            intro heq
            rw [e2.mpr heq] at h
            cases h
        · rintro (h | h)
          · left
            cases hce : pa_channel_map_equal s.channel_map old.channel_map with
            | false => rfl
            | true => exact absurd (e1.mp hce) h
          · right
            cases hce : pa_cvolume_equal s.volume old.volume with
            | false => rfl
            | true => exact absurd (e2.mp hce) h
  have hm : c.mute_updated = true ↔
      (old.muted_valid ≠ c.entry.muted_valid ∨ c.entry.muted ≠ old.muted) := by
    cases hsave : s.save_muted with
    | false =>
      obtain ⟨h1, h2, h3⟩ := hmn hsave
      rw [h1, h2, h3]
      simp
    | true =>
      obtain ⟨h1, h2, h3⟩ := hms hsave
      rw [h1, h2, h3]
      cases old.muted_valid <;> simp
  rw [hsig]
  simp only [hd, hv, hm]

/-- Witness of the amended C21: the stored entry of the role `"music"` and a stream
event that carries the same device and volume, not muted. -/
theorem stream_event_signals_witness :
    entry_read music_state.database "sink-input-by-media-role:music"
        = some (some sink0_entry) ∧
      subscribe_candidate unmuted_music_stream (some sink0_entry)
        = some ⟨unmuted_entry, false, false, true⟩ ∧
      entries_equal same_map_lib sink0_entry unmuted_entry = some false ∧
      subscribe_callback same_map_lib 7 music_state true (some unmuted_music_stream)
        = some (⟨[("sink-input-by-media-role:music", entry_record unmuted_entry)], [],
              some 10000007, [⟨"sink-input-by-media-role:music", 0⟩], 1, [], true, none,
              [], none⟩,
            [.database_set "sink-input-by-media-role:music" true true,
              .time_new 10000007,
              .mute_updated_signal ⟨"sink-input-by-media-role:music", 0⟩ unmuted_entry]) ∧
      ∃ de, dbus_entries_get music_state "sink-input-by-media-role:music" = some de ∧
        signals_sent [.database_set "sink-input-by-media-role:music" true true,
            .time_new 10000007,
            .mute_updated_signal ⟨"sink-input-by-media-role:music", 0⟩ unmuted_entry] =
          (if unmuted_entry.device ≠ sink0_entry.device then
              [Event.device_updated_signal de unmuted_entry] else []) ++
          (if sink0_entry.volume_valid ≠ unmuted_entry.volume_valid ∨
              unmuted_entry.channel_map ≠ sink0_entry.channel_map ∨
              unmuted_entry.volume ≠ sink0_entry.volume then
            [Event.volume_updated_signal de unmuted_entry] else []) ++
          (if sink0_entry.muted_valid ≠ unmuted_entry.muted_valid ∨
              unmuted_entry.muted ≠ sink0_entry.muted then
            [Event.mute_updated_signal de unmuted_entry] else []) :=
  ⟨by decide, by decide, by decide, by decide,
    stream_event_signals same_map_lib 7 music_state
      ⟨[("sink-input-by-media-role:music", entry_record unmuted_entry)], [],
        some 10000007, [⟨"sink-input-by-media-role:music", 0⟩], 1, [], true, none, [],
        none⟩
      unmuted_music_stream
      "sink-input-by-media-role:music" sink0_entry ⟨unmuted_entry, false, false, true⟩ _
      rfl rfl (by decide) (by decide) ⟨by decide, by decide⟩ (by decide) (by decide)⟩

end StreamRestore

namespace StreamRestore

/-! ## Startup cleanup -/

/-- What `legacy_entry_read` has checked of an entry it returns. -/
theorem legacy_entry_read_spec {db : pa_database} {name : String} {e : entry}
    (h : legacy_entry_read db name = some e) :
    pa_database_get db name ≠ none ∧ e.version = ENTRY_VERSION ∧
      (e.device_valid = true → pa_namereg_is_valid_name e.device = some true) ∧
      (e.card_valid = true → pa_namereg_is_valid_name e.card = some true) ∧
      (e.volume_valid = true → pa_channel_map_valid e.channel_map = true ∧
        pa_cvolume_valid e.volume = true ∧ e.volume.channels = e.channel_map.channels) := by
  unfold legacy_entry_read at h
  split at h
  · cases h
  · rename_i data hget
    refine ⟨by rw [hget]; exact Option.some_ne_none _, ?_⟩
    dsimp only at h
    split at h
    · cases h
    · split at h
      · cases h
      · split at h
        · cases h
        · split at h
          · cases h
          · split at h
            · cases h
            · rename_i hdev
              split at h
              · cases h
              · rename_i hcard
                split at h
                · cases h
                · rename_i hmap
                  split at h
                  · cases h
                  · rename_i hvol
                    simp only [Option.some.injEq] at h
                    subst h
                    refine ⟨rfl, ?_, ?_, ?_⟩
                    · intro hv
                      dsimp only at hv ⊢
                      rw [hv] at hdev
                      simpa using hdev
                    · intro hv
                      dsimp only at hv ⊢
                      rw [hv] at hcard
                      simpa using hcard
                    · intro hv
                      dsimp only at hv ⊢
                      rw [hv] at hmap hvol
                      simp only [Bool.true_and, Bool.not_eq_true', Bool.not_eq_false,
                        Bool.or_eq_true, not_or] at hmap hvol
                      have hc := hvol.2
                      unfold pa_cvolume_compatible_with_channel_map at hc
                      simp only [Bool.and_eq_true, beq_iff_eq] at hc
                      exact ⟨hmap, hvol.1, hc.2⟩

theorem entry_read_congr {db db' : pa_database} {name : String}
    (h : pa_database_get db' name = pa_database_get db name) :
    entry_read db' name = entry_read db name := by
  unfold entry_read
  rw [h]

theorem legacy_entry_read_absent {db : pa_database} {name : String}
    (h : pa_database_get db name = none) :
    entry_read db name = some none ∧ legacy_entry_read db name = none := by
  unfold entry_read legacy_entry_read
  rw [h]
  exact ⟨rfl, rfl⟩

theorem database_get_mem_keys {db : pa_database} {name : String}
    (h : pa_database_get db name ≠ none) : name ∈ pa_database_keys db := by
  unfold pa_database_keys
  rw [List.mem_dedup]
  unfold pa_database_get at h
  cases hf : db.find? (fun kv => kv.1 == name) with
  | none => rw [hf] at h; exact absurd rfl h
  | some kv =>
    have hmem := List.mem_of_find?_eq_some hf
    have hkey := List.find?_some hf
    simp only [beq_iff_eq] at hkey
    rw [← hkey]
    exact List.mem_map_of_mem Prod.fst hmem

/-- The lists that the first loop of `clean_up_db` builds. -/
theorem clean_up_scan_spec (db : pa_database) :
    ∀ (keys : List String) (rem : List String) (conv : List (String × entry))
      (rem' : List String) (conv' : List (String × entry)),
      clean_up_scan db keys rem conv = some (rem', conv') →
      (∀ k, k ∈ rem' →
        k ∈ rem ∨ (entry_read db k = some none ∧ legacy_entry_read db k = none)) ∧
      (∀ k e, (k, e) ∈ conv' →
        (k, e) ∈ conv ∨ (entry_read db k = some none ∧ legacy_entry_read db k = some e)) ∧
      (∀ k, k ∈ rem ∨ (k ∈ keys ∧ entry_read db k = some none ∧
        legacy_entry_read db k = none) → k ∈ rem') ∧
      (∀ k e, (k, e) ∈ conv ∨ (k ∈ keys ∧ entry_read db k = some none ∧
        legacy_entry_read db k = some e) → (k, e) ∈ conv') ∧
      (∀ k ∈ keys, entry_read db k ≠ none) := by
  intro keys
  induction keys with
  | nil =>
    intro rem conv rem' conv' h
    simp only [clean_up_scan, Option.some.injEq, Prod.mk.injEq] at h
    obtain ⟨rfl, rfl⟩ := h
    refine ⟨fun k hk => Or.inl hk, fun k e hk => Or.inl hk, ?_, ?_, ?_⟩
    · rintro k (hk | ⟨hk, _⟩)
      · exact hk
      · cases hk
    · rintro k e (hk | ⟨hk, _⟩)
      · exact hk
      · cases hk
    · intro k hk
      cases hk
  | cons a rest ih =>
    intro rem conv rem' conv' h
    unfold clean_up_scan at h
    cases hread : entry_read db a with
    | none => simp [hread] at h
    | some r =>
      cases r with
      | some e₀ =>
        simp only [hread] at h
        obtain ⟨h1, h2, h3, h4, h5⟩ := ih rem conv rem' conv' h
        refine ⟨h1, h2, ?_, ?_, ?_⟩
        · rintro k (hk | ⟨hk, hr, hl⟩)
          · exact h3 k (Or.inl hk)
          · rcases List.mem_cons.mp hk with rfl | hk'
            · rw [hread] at hr
              cases hr
            · exact h3 k (Or.inr ⟨hk', hr, hl⟩)
        · rintro k e (hk | ⟨hk, hr, hl⟩)
          · exact h4 k e (Or.inl hk)
          · rcases List.mem_cons.mp hk with rfl | hk'
            · rw [hread] at hr
              cases hr
            · exact h4 k e (Or.inr ⟨hk', hr, hl⟩)
        · intro k hk
          rcases List.mem_cons.mp hk with rfl | hk'
          · rw [hread]
            exact Option.some_ne_none _
          · exact h5 k hk'
      | none =>
        simp only [hread] at h
        cases hleg : legacy_entry_read db a with
        | none =>
          simp only [hleg] at h
          obtain ⟨h1, h2, h3, h4, h5⟩ := ih (a :: rem) conv rem' conv' h
          refine ⟨?_, h2, ?_, ?_, ?_⟩
          · intro k hk
            rcases h1 k hk with hk' | hk'
            · rcases List.mem_cons.mp hk' with rfl | hk''
              · exact Or.inr ⟨hread, hleg⟩
              · exact Or.inl hk''
            · exact Or.inr hk'
          · rintro k (hk | ⟨hk, hr, hl⟩)
            · exact h3 k (Or.inl (List.mem_cons_of_mem _ hk))
            · rcases List.mem_cons.mp hk with rfl | hk'
              · exact h3 k (Or.inl (List.mem_cons_self _ _))
              · exact h3 k (Or.inr ⟨hk', hr, hl⟩)
          · rintro k e (hk | ⟨hk, hr, hl⟩)
            · exact h4 k e (Or.inl hk)
            · rcases List.mem_cons.mp hk with rfl | hk'
              · rw [hleg] at hl
                cases hl
              · exact h4 k e (Or.inr ⟨hk', hr, hl⟩)
          · intro k hk
            rcases List.mem_cons.mp hk with rfl | hk'
            · rw [hread]
              exact Option.some_ne_none _
            · exact h5 k hk'
        | some e₁ =>
          simp only [hleg] at h
          obtain ⟨h1, h2, h3, h4, h5⟩ := ih rem ((a, e₁) :: conv) rem' conv' h
          refine ⟨h1, ?_, ?_, ?_, ?_⟩
          · intro k e hk
            rcases h2 k e hk with hk' | hk'
            · rcases List.mem_cons.mp hk' with hk'' | hk''
              · simp only [Prod.mk.injEq] at hk''
                obtain ⟨rfl, rfl⟩ := hk''
                exact Or.inr ⟨hread, hleg⟩
              · exact Or.inl hk''
            · exact Or.inr hk'
          · rintro k (hk | ⟨hk, hr, hl⟩)
            · exact h3 k (Or.inl hk)
            · rcases List.mem_cons.mp hk with rfl | hk'
              · rw [hleg] at hl
                cases hl
              · exact h3 k (Or.inr ⟨hk', hr, hl⟩)
          · rintro k e (hk | ⟨hk, hr, hl⟩)
            · exact h4 k e (Or.inl (List.mem_cons_of_mem _ hk))
            · rcases List.mem_cons.mp hk with rfl | hk'
              · rw [hleg] at hl
                simp only [Option.some.injEq] at hl
                subst hl
                exact h4 k e₁ (Or.inl (List.mem_cons_self _ _))
              · exact h4 k e (Or.inr ⟨hk', hr, hl⟩)
          · intro k hk
            rcases List.mem_cons.mp hk with rfl | hk'
            · rw [hread]
              exact Option.some_ne_none _
            · exact h5 k hk'

theorem database_unset_get_ne (db : pa_database) (key n : String) (hne : n ≠ key) :
    pa_database_get (pa_database_unset db key).2 n = pa_database_get db n := by
  unfold pa_database_unset
  split
  · exact database_get_filter_ne db key n hne
  · rfl

theorem database_get_written_ne (db : pa_database) (key n : String) (data : List Nat)
    (hne : n ≠ key) :
    pa_database_get ((key, data) :: db.filter (fun kv => !(kv.1 == key))) n
      = pa_database_get db n := by
  have h := database_get_filter_ne db key n hne
  unfold pa_database_get at h ⊢
  rw [List.find?_cons_of_neg _ (by simpa using fun heq => hne heq.symm)]
  exact h

/-- The database after the second loop of `clean_up_db`: the listed keys are gone,
the other records are as they were. -/
theorem clean_up_remove_spec (now : Nat) :
    ∀ (rem : List String) (u : userdata) (ev : List Event) (u' : userdata)
      (ev' : List Event), clean_up_remove now u ev rem = some (u', ev') →
      ∀ k, pa_database_get u'.database k
        = if k ∈ rem then none else pa_database_get u.database k := by
  intro rem
  induction rem with
  | nil =>
    intro u ev u' ev' h k
    simp only [clean_up_remove, Option.some.injEq, Prod.mk.injEq] at h
    obtain ⟨rfl, rfl⟩ := h
    simp
  | cons a rest ih =>
    intro u ev u' ev' h k
    unfold clean_up_remove at h
    dsimp only at h
    split at h
    · cases h
    · have hrec := ih _ _ _ _ h k
      rw [(trigger_save_frame now _).1] at hrec
      dsimp only at hrec
      rw [hrec]
      by_cases hk : k ∈ rest
      · simp [hk]
      · by_cases hka : k = a
        · subst hka
          simp only [hk, if_false, List.mem_cons, true_or, if_true]
          exact database_unset_get _ _ _ (Or.inr rfl)
        · simp only [hk, if_false, List.mem_cons, hka, or_self]
          exact database_unset_get_ne _ _ _ hka

/-- The database after the third loop of `clean_up_db`: a key that is not listed
keeps its record, a listed key holds the record of its entry. -/
theorem clean_up_convert_spec (now : Nat) :
    ∀ (conv : List (String × entry)) (u : userdata) (ev : List Event) (k : String),
      ((∀ e, (k, e) ∉ conv) →
        pa_database_get (clean_up_convert now u ev conv).1.database k
          = pa_database_get u.database k) ∧
      (∀ e, (k, e) ∈ conv → (∀ e', (k, e') ∈ conv → e' = e) →
        pa_database_get (clean_up_convert now u ev conv).1.database k
          = some (entry_record e)) := by
  intro conv
  induction conv with
  | nil =>
    intro u ev k
    refine ⟨fun _ => rfl, ?_⟩
    intro e he
    cases he
  | cons p rest ih =>
    obtain ⟨a, e₀⟩ := p
    intro u ev k
    unfold clean_up_convert
    dsimp only [entry_write_u, entry_write_replace]
    obtain ⟨ih1, ih2⟩ := ih
      (trigger_save now
        { u with database :=
            (a, entry_record e₀) :: u.database.filter (fun kv => !(kv.1 == a)) }).1
      (ev ++ [Event.database_set a true true] ++
        (trigger_save now
          { u with database :=
              (a, entry_record e₀) :: u.database.filter (fun kv => !(kv.1 == a)) }).2) k
    rw [(trigger_save_frame now _).1] at ih1
    dsimp only at ih1
    constructor
    · intro hno
      rw [ih1 (fun e he => hno e (List.mem_cons_of_mem _ he))]
      have hka : k ≠ a := by
        intro heq
        subst heq
        exact hno e₀ (List.mem_cons_self _ _)
      exact database_get_written_ne _ _ _ _ hka
    · intro e he huniq
      by_cases hrest : ∃ e', (k, e') ∈ rest
      · obtain ⟨e', he'⟩ := hrest
        have hee : e' = e := huniq e' (List.mem_cons_of_mem _ he')
        subst hee
        exact ih2 e' he' (fun e'' he'' => huniq e'' (List.mem_cons_of_mem _ he''))
      · have hno : ∀ e', (k, e') ∉ rest := fun e' he' => hrest ⟨e', he'⟩
        rw [ih1 hno]
        rcases List.mem_cons.mp he with heq | hmem
        · simp only [Prod.mk.injEq] at heq
          obtain ⟨rfl, rfl⟩ := heq
          exact database_get_written _ _ _
        · exact absurd hmem (hno e)

/-- The database after `clean_up_db`, key by key. -/
theorem clean_up_db_get {now : Nat} {u u' : userdata} {ev : List Event}
    (h : clean_up_db now u = some (u', ev)) (k : String) :
    (∀ e, entry_read u.database k = some (some e) →
        pa_database_get u'.database k = pa_database_get u.database k) ∧
      (∀ e, entry_read u.database k = some none →
        legacy_entry_read u.database k = some e →
        pa_database_get u'.database k = some (entry_record e)) ∧
      (entry_read u.database k = some none → legacy_entry_read u.database k = none →
        pa_database_get u'.database k = none) ∧
      (pa_database_get u.database k ≠ none → entry_read u.database k ≠ none) := by
  unfold clean_up_db at h
  split at h
  · cases h
  · rename_i rem conv hscan
    split at h
    · cases h
    · rename_i u₁ ev₁ hrem
      simp only [Option.some.injEq] at h
      obtain ⟨s1, s2, s3, s4, s5⟩ := clean_up_scan_spec _ _ _ _ _ _ hscan
      have hremove := clean_up_remove_spec now _ _ _ _ _ hrem k
      obtain ⟨c1, c2⟩ := clean_up_convert_spec now conv u₁ ev₁ k
      rw [h] at c1 c2
      refine ⟨?_, ?_, ?_, ?_⟩
      · intro e hread
        have hnoconv : ∀ e', (k, e') ∉ conv := by
          intro e' he'
          rcases s2 k e' he' with hc | ⟨hr, _⟩
          · cases hc
          · rw [hread] at hr
            cases hr
        have hnorem : k ∉ rem := by
          intro hk
          rcases s1 k hk with hc | ⟨hr, _⟩
          · cases hc
          · rw [hread] at hr
            cases hr
        rw [c1 hnoconv, hremove, if_neg hnorem]
      · intro e hread hleg
        have hkeys := database_get_mem_keys (legacy_entry_read_spec hleg).1
        have hmem : (k, e) ∈ conv := s4 k e (Or.inr ⟨hkeys, hread, hleg⟩)
        refine c2 e hmem ?_
        intro e' he'
        rcases s2 k e' he' with hc | ⟨_, hl⟩
        · cases hc
        · rw [hleg] at hl
          simp only [Option.some.injEq] at hl
          exact hl.symm
      · intro hread hleg
        have hnoconv : ∀ e', (k, e') ∉ conv := by
          intro e' he'
          rcases s2 k e' he' with hc | ⟨_, hl⟩
          · cases hc
          · rw [hleg] at hl
            cases hl
        rw [c1 hnoconv, hremove]
        by_cases hk : k ∈ rem
        · rw [if_pos hk]
        · rw [if_neg hk]
          cases hget : pa_database_get u.database k with
          | none => rfl
          | some data =>
            have hkeys : k ∈ pa_database_keys u.database :=
              database_get_mem_keys (by rw [hget]; exact Option.some_ne_none _)
            exact absurd (s3 k (Or.inr ⟨hkeys, hread, hleg⟩)) hk
      · intro hget
        exact s5 k (database_get_mem_keys hget)

set_option maxRecDepth 100000 in
/-- C22 (startup cleanup), evaluated where it breaks: a legacy record whose channel
map, with the volume not valid, holds the count 33.  `entry_read` rejects the record,
`legacy_entry_read` accepts it, and the record that `clean_up_db` writes for it is one
that `entry_read` rejects, since the reader of the current format takes no channel map
of more than 32 channels: the key remains in the database with a record that
`entry_read` does not accept. -/
theorem legacy_junk_stays_unreadable :
    entry_read [("j", legacy_junk_record)] "j" = some none ∧
    ((legacy_entry_read [("j", legacy_junk_record)] "j").map
        (fun e => (e.volume_valid, e.channel_map.channels))) = some (false, 33) ∧
    (clean_up_db 0 ⟨[("j", legacy_junk_record)], [], none, [], 0, [], true, none, [], none⟩).map
        (fun r => (r.1.database.map Prod.fst, entry_read r.1.database "j"))
      = some (["j"], some none) :=
  ⟨by decide, by decide, by decide⟩

/-- What `clean_up_db` does to each record, in the build with the legacy format: when
`clean_up_db` returns, every record that `entry_read` accepted before the pass is what
it was and is still accepted; every key whose record only `legacy_entry_read` accepts
holds the record of the current format built from the legacy field values, and
`entry_read` returns these field values for it when the legacy entry is convertible
(values of the C types and, with the volume not valid, a channel map and a volume of at
most 32 channels with positions in 0..255); every record that neither reader accepts
is removed, and no key is added.  Hence, when every legacy entry is convertible, every
key that remains holds a record that `entry_read` accepts. -/
theorem clean_up_db_spec (now : Nat) (u u' : userdata) (ev : List Event)
    (h : clean_up_db now u = some (u', ev)) :
    (∀ k e, entry_read u.database k = some (some e) →
        pa_database_get u'.database k = pa_database_get u.database k ∧
          entry_read u'.database k = some (some e)) ∧
      (∀ k e, entry_read u.database k = some none →
        legacy_entry_read u.database k = some e →
        pa_database_get u'.database k = some (entry_record e) ∧
          (legacy_convertible e → entry_read u'.database k = some (some e))) ∧
      (∀ k, entry_read u.database k = some none → legacy_entry_read u.database k = none →
        pa_database_get u'.database k = none) ∧
      (∀ k, pa_database_get u.database k = none → pa_database_get u'.database k = none) ∧
      ((∀ k e, legacy_entry_read u.database k = some e → legacy_convertible e) →
        ∀ k, pa_database_get u'.database k ≠ none →
          ∃ e, entry_read u'.database k = some (some e)) := by
  have hconv : ∀ k e, entry_read u.database k = some none →
      legacy_entry_read u.database k = some e →
      pa_database_get u'.database k = some (entry_record e) ∧
        (legacy_convertible e → entry_read u'.database k = some (some e)) := by
    intro k e hread hleg
    have hget := (clean_up_db_get h k).2.1 e hread hleg
    refine ⟨hget, ?_⟩
    rintro ⟨ht, hjunk⟩
    obtain ⟨_, hver, hdev, hcard, hvol⟩ := legacy_entry_read_spec hleg
    have hrt := (entry_read_entry_write [] k e ht (by rw [hver]) hdev hcard hvol hjunk).2
    rw [← hrt]
    apply entry_read_congr
    rw [hget, entry_write_replace]
    exact (database_get_written _ _ _).symm
  refine ⟨?_, hconv, ?_, ?_, ?_⟩
  · intro k e hread
    have hget := (clean_up_db_get h k).1 e hread
    exact ⟨hget, by rw [entry_read_congr hget]; exact hread⟩
  · intro k hread hleg
    exact (clean_up_db_get h k).2.2.1 hread hleg
  · intro k hget
    obtain ⟨hread, hleg⟩ := legacy_entry_read_absent hget
    exact (clean_up_db_get h k).2.2.1 hread hleg
  · intro hall k hk
    have hpresent : pa_database_get u.database k ≠ none := by
      intro hget
      obtain ⟨hread, hleg⟩ := legacy_entry_read_absent hget
      exact hk ((clean_up_db_get h k).2.2.1 hread hleg)
    have hread := (clean_up_db_get h k).2.2.2 hpresent
    cases hr : entry_read u.database k with
    | none => exact absurd hr hread
    | some r =>
      cases r with
      | some e =>
        have hget := (clean_up_db_get h k).1 e hr
        exact ⟨e, by rw [entry_read_congr hget]; exact hr⟩
      | none =>
        cases hleg : legacy_entry_read u.database k with
        | none => exact absurd ((clean_up_db_get h k).2.2.1 hr hleg) hk
        | some e => exact ⟨e, (hconv k e hr hleg).2 (hall k e hleg)⟩

set_option maxRecDepth 100000 in
/-- The pass on a database with a legacy record, a record that no reader accepts and a
record of the current format. -/
theorem clean_up_db_spec_witness :
    clean_up_db 0 legacy_state
        = some (⟨[("m", entry_record legacy_sink0_entry), ("ok", entry_record sink0_entry)],
              [], some 10000000, [], 0, [], true, none, [], none⟩,
            [.time_new 10000000, .database_set "m" true true]) ∧
      entry_read legacy_state.database "m" = some none ∧
      legacy_entry_read legacy_state.database "m" = some legacy_sink0_entry ∧
      legacy_convertible legacy_sink0_entry ∧
      entry_read
          (⟨[("m", entry_record legacy_sink0_entry), ("ok", entry_record sink0_entry)],
            [], some 10000000, [], 0, [], true, none, [], none⟩ : userdata).database "m"
        = some (some legacy_sink0_entry) :=
  ⟨by decide, by decide, by decide, ⟨by decide, fun h => absurd h (by decide)⟩,
    ((clean_up_db_spec 0 legacy_state _ [.time_new 10000000, .database_set "m" true true]
      (by decide)).2.1 "m" legacy_sink0_entry (by decide) (by decide)).2
      ⟨by decide, fun h => absurd h (by decide)⟩⟩

end StreamRestore

namespace StreamRestore

/-! ## Keys of the route database -/

theorem append_separator_inj {α : Type} (c : α) :
    ∀ (l₁ l₂ r₁ r₂ : List α), c ∉ r₁ → c ∉ r₂ →
      l₁ ++ c :: r₁ = l₂ ++ c :: r₂ → l₁ = l₂ ∧ r₁ = r₂ := by
  intro l₁
  induction l₁ with
  | nil =>
    intro l₂ r₁ r₂ h₁ h₂ h
    cases l₂ with
    | nil =>
      simp only [List.nil_append, List.cons.injEq, true_and] at h
      exact ⟨rfl, h⟩
    | cons x l₂ =>
      simp only [List.nil_append, List.cons_append, List.cons.injEq] at h
      obtain ⟨_, hr⟩ := h
      exact absurd (by rw [hr]; simp) h₁
  | cons x l₁ ih =>
    intro l₂ r₁ r₂ h₁ h₂ h
    cases l₂ with
    | nil =>
      simp only [List.nil_append, List.cons_append, List.cons.injEq] at h
      obtain ⟨_, hr⟩ := h
      exact absurd (by rw [← hr]; simp) h₂
    | cons y l₂ =>
      simp only [List.cons_append, List.cons.injEq] at h
      obtain ⟨hxy, ht⟩ := h
      obtain ⟨hl, hr⟩ := ih l₂ r₁ r₂ h₁ h₂ ht
      exact ⟨by rw [hxy, hl], hr⟩

/-- The key of a pair tells the pair when the routes hold no colon. -/
theorem ext_route_key_inj {n₁ n₂ r₁ r₂ : String} (h₁ : ':' ∉ r₁.data) (h₂ : ':' ∉ r₂.data)
    (h : ext_route_key n₁ r₁ = ext_route_key n₂ r₂) : n₁ = n₂ ∧ r₁ = r₂ := by
  unfold ext_route_key at h
  have hd := congrArg String.data h
  simp only [String.data_append] at hd
  rw [List.append_assoc, List.append_assoc] at hd
  obtain ⟨hn, hr⟩ := append_separator_inj ':' _ _ _ _ h₁ h₂ hd
  exact ⟨String.ext hn, String.ext hr⟩

/-- C23 as stated fails: the pairs (`"a:b"`, `"c"`) and (`"a"`, `"b:c"`) have the same
key, so that `ext_route_entry_write` for the route volume `"a:b"` on the route `"c"`
makes `ext_read_route_entry` return that record for the name `"a"` on the route
`"b:c"`, for which there was none. -/
theorem route_key_not_injective :
    ext_route_key "a:b" "c" = ext_route_key "a" "b:c" ∧
    ext_read_route_entry colon_state "a" "b:c" = none ∧
    ext_read_route_entry
        (ext_route_entry_write colon_state ⟨"a:b", ⟨[100]⟩, ⟨[]⟩, ⟨[100]⟩, false⟩ "c")
        "a" "b:c"
      = some ⟨4, ⟨[100]⟩⟩ :=
  ⟨by decide, by decide, by decide⟩

/-- C23, amended (route-volume keys): for routes that hold no colon (names may),
`ext_route_key(n1, r1) = ext_route_key(n2, r2)` implies `n1 = n2` and `r1 = r2`, and
`ext_route_entry_write` for the pair (`n1`, `r1`) leaves what `ext_read_route_entry`
returns for every other pair (`n2`, `r2`) as it was. -/
theorem route_key_pairs (n₁ n₂ r₁ r₂ : String) (h₁ : ':' ∉ r₁.data) (h₂ : ':' ∉ r₂.data) :
    (ext_route_key n₁ r₁ = ext_route_key n₂ r₂ → n₁ = n₂ ∧ r₁ = r₂) ∧
      (∀ (u : userdata) (rv : ext_route_volume), rv.name = n₁ → (n₁, r₁) ≠ (n₂, r₂) →
        ext_read_route_entry (ext_route_entry_write u rv r₁) n₂ r₂
          = ext_read_route_entry u n₂ r₂) := by
  refine ⟨ext_route_key_inj h₁ h₂, ?_⟩
  intro u rv hname hne
  have hkey : ext_route_key n₂ r₂ ≠ ext_route_key rv.name r₁ := by
    intro heq
    rw [hname] at heq
    obtain ⟨hn, hr⟩ := ext_route_key_inj h₂ h₁ heq
    exact hne (by rw [hn, hr])
  unfold ext_route_entry_write
  split
  · rfl
  · unfold ext_read_route_entry
    dsimp only
    rw [List.find?_cons_of_neg _ (by simpa using fun heq => hkey heq.symm),
      find_filter_key (fun kv : String × ext_route_entry => kv.1) u.route_database
        (ext_route_key rv.name r₁) (ext_route_key n₂ r₂), if_neg hkey]

/-- Witness of the amended C23: the name `"phone"` on the routes `"ihf"` and
`"earpiece"`. -/
theorem route_key_pairs_witness :
    ':' ∉ "ihf".data ∧ ':' ∉ "earpiece".data ∧
      (ext_route_key "phone" "ihf" = ext_route_key "phone" "earpiece" →
        "phone" = "phone" ∧ "ihf" = "earpiece") :=
  ⟨by decide, by decide, (route_key_pairs "phone" "phone" "ihf" "earpiece"
    (by decide) (by decide)).1⟩

end StreamRestore

namespace StreamRestore

/-! ## The volume argument of the D-Bus interface -/

theorem take_set_succ {α : Type} (x : α) :
    ∀ (l : List α) (c : Nat), c < l.length → (l.set c x).take (c + 1) = l.take c ++ [x] := by
  intro l
  induction l with
  | nil =>
    intro c hc
    cases hc
  | cons a l ih =>
    intro c hc
    cases c with
    | zero => rfl
    | succ c =>
      simp only [List.set_cons_succ, List.take_succ_cons, List.cons_append, List.cons.injEq,
        true_and]
      exact ih c (Nat.lt_of_succ_lt_succ hc)

/-- The loop of `get_volume_arg` on fewer elements than make the 8-bit counter wrap:
it counts them, and the first 32 of them are in the arrays. -/
theorem get_volume_loop_spec :
    ∀ (rest : List (Nat × Nat)) (c : Nat) (map : List Int) (values : List Nat),
      c + rest.length < 256 →
      (∀ p ∈ rest, p.1 < PA_CHANNEL_POSITION_MAX.toNat ∧ p.2 ≤ PA_VOLUME_MAX) →
      map.length = PA_CHANNELS_MAX → values.length = PA_CHANNELS_MAX →
      ∃ map' values',
        get_volume_loop rest c map values = some (c + rest.length, map', values') ∧
        (c + rest.length ≤ PA_CHANNELS_MAX →
          map'.take (c + rest.length) = map.take c ++ rest.map (fun p => (p.1 : Int)) ∧
          values'.take (c + rest.length) = values.take c ++ rest.map (fun p => p.2)) := by
  intro rest
  induction rest with
  | nil =>
    intro c map values _ _ _ _
    exact ⟨map, values, rfl, fun _ => by simp⟩
  | cons p rest ih =>
    obtain ⟨pos, vol⟩ := p
    intro c map values hlen hvalid hm hv
    have hp := hvalid (pos, vol) (List.mem_cons_self _ _)
    simp only [List.length_cons] at hlen
    have hc : (c + 1) % 256 = c + 1 := Nat.mod_eq_of_lt (by omega)
    unfold get_volume_loop
    rw [if_neg (by have := hp.1; omega), if_neg (by have := hp.2; omega), hc]
    dsimp only
    obtain ⟨map', values', hrun, htake⟩ := ih (c + 1)
      (if c < PA_CHANNELS_MAX then map.set c (pos : Int) else map)
      (if c < PA_CHANNELS_MAX then values.set c vol else values)
      (by omega) (fun q hq => hvalid q (List.mem_cons_of_mem _ hq))
      (by split <;> simp [hm]) (by split <;> simp [hv])
    have hsum : c + 1 + rest.length = c + (rest.length + 1) := by omega
    refine ⟨map', values', by rw [hrun, hsum]; rfl, ?_⟩
    intro hle
    simp only [List.length_cons] at hle
    have hc32 : c < PA_CHANNELS_MAX := by omega
    obtain ⟨h1, h2⟩ := htake (by omega)
    rw [if_pos hc32, take_set_succ _ _ _ (by rw [hm]; exact hc32)] at h1
    rw [if_pos hc32, take_set_succ _ _ _ (by rw [hv]; exact hc32)] at h2
    simp only [List.length_cons, List.map_cons]
    rw [← hsum, h1, h2]
    simp

/-- On fewer than 256 valid elements `get_volume_arg` does what its comment says:
more than 32 elements are an error, and up to 32 elements are returned as they
are. -/
theorem get_volume_arg_below_wrap (arg : List (Nat × Nat)) (hlen : arg.length < 256)
    (hvalid : ∀ p ∈ arg, p.1 < PA_CHANNEL_POSITION_MAX.toNat ∧ p.2 ≤ PA_VOLUME_MAX) :
    (PA_CHANNELS_MAX < arg.length → get_volume_arg arg = none) ∧
      (arg.length ≤ PA_CHANNELS_MAX →
        get_volume_arg arg
          = some (⟨arg.map (fun p => (p.1 : Int))⟩, ⟨arg.map (fun p => p.2)⟩)) := by
  obtain ⟨map', values', hrun, htake⟩ := get_volume_loop_spec arg 0
    (List.replicate PA_CHANNELS_MAX (-1)) (List.replicate PA_CHANNELS_MAX 4294967295)
    (by omega) hvalid (by simp) (by simp)
  simp only [Nat.zero_add] at hrun htake
  unfold get_volume_arg
  rw [hrun]
  dsimp only
  constructor
  · intro h
    rw [if_pos h]
  · intro h
    rw [if_neg (by omega)]
    obtain ⟨h1, h2⟩ := htake h
    rw [h1, h2]
    simp

set_option maxRecDepth 100000 in
/-- C24, evaluated where it breaks: an array of 256 valid elements makes the 8-bit
channel counters wrap to 0, and `get_volume_arg` returns success with an empty channel
map and an empty volume; with one more element it returns success with that element
alone.  An array of 33 or of 255 elements is an error, and the empty array gives
`channels = 0`. -/
theorem get_volume_arg_counter_wraps :
    get_volume_arg (List.replicate 256 (1, 100)) = some (⟨[]⟩, ⟨[]⟩) ∧
    get_volume_arg (List.replicate 256 (1, 100) ++ [(2, 7)]) = some (⟨[2]⟩, ⟨[7]⟩) ∧
    get_volume_arg (List.replicate 33 (1, 100)) = none ∧
    get_volume_arg (List.replicate 255 (1, 100)) = none ∧
    get_volume_arg [] = some (⟨[]⟩, ⟨[]⟩) :=
  ⟨by decide, by decide, by decide, by decide, by decide⟩

end StreamRestore

namespace StreamRestore

/-! ## The empty volume array -/

theorem get_volume_arg_nil : get_volume_arg [] = some (⟨[]⟩, ⟨[]⟩) := by
  decide

theorem cvolume_empty_invalid : pa_cvolume_valid ⟨[]⟩ = false := by
  decide

/-- `AddEntry` with an empty volume array for a name that has a D-Bus entry always
stops at a failed assertion. -/
theorem add_entry_empty_volume_fails (now : Nat) (u : userdata) (name : String)
    (device : List Nat) (muted apply_immediately : Bool) (hn : name ≠ "")
    (hde : (dbus_entries_get u name).isSome = true) :
    handle_add_entry now u name device [] muted apply_immediately = none := by
  cases h : handle_add_entry now u name device [] muted apply_immediately with
  | none => rfl
  | some r =>
    exfalso
    unfold handle_add_entry at h
    rw [get_volume_arg_nil] at h
    dsimp only at h
    rw [if_neg hn] at h
    cases hd : dbus_entries_get u name with
    | none =>
      rw [hd] at hde
      cases hde
    | some de =>
      rw [hd] at h
      dsimp only at h
      obtain ⟨eo, _, h⟩ := Option.bind_eq_some.mp h
      obtain ⟨e₀, _, h⟩ := Option.bind_eq_some.mp h
      obtain ⟨u₁, hu₁, h⟩ := Option.bind_eq_some.mp h
      have hv := (set_route_volume_by_name_frame hu₁).2
      rw [cvolume_empty_invalid] at hv
      cases hv

/-- The `Volume` setter with an empty volume array on the D-Bus entry of a name that
has a route volume always stops at a failed assertion. -/
theorem set_volume_empty_fails (now : Nat) (u : userdata) (de : dbus_entry)
    (hr : (ext_get_route_volume_by_name u de.entry_name).isSome = true) :
    handle_entry_set_volume now u de [] = none := by
  cases h : handle_entry_set_volume now u de [] with
  | none => rfl
  | some r =>
    exfalso
    unfold handle_entry_set_volume at h
    rw [get_volume_arg_nil] at h
    dsimp only at h
    obtain ⟨eo, _, h⟩ := Option.bind_eq_some.mp h
    obtain ⟨e₀, _, h⟩ := Option.bind_eq_some.mp h
    have hupd : (e₀.volume_valid != decide ((⟨[]⟩ : pa_channel_map).channels ≠ 0) ||
        !pa_cvolume_equal e₀.volume ⟨[]⟩) = true := by
      simp [pa_cvolume_equal, cvolume_empty_invalid]
    rw [if_pos hupd] at h
    cases hrv : ext_get_route_volume_by_name u de.entry_name with
    | none =>
      rw [hrv] at hr
      cases hr
    | some rv =>
      rw [hrv] at h
      dsimp only at h
      split at h
      · obtain ⟨u₁, hu₁, h⟩ := Option.bind_eq_some.mp h
        have hv := (set_route_volumes_frame hu₁).2
        rw [cvolume_empty_invalid] at hv
        cases hv
      · obtain ⟨⟨u₁, ev₁⟩, hu₁, h⟩ := Option.bind_eq_some.mp h
        simp only [Option.map_eq_some', Prod.mk.injEq] at hu₁
        obtain ⟨u₂, hu₂, _, _⟩ := hu₁
        have hv := (set_route_volume_frame hu₂).2
        rw [cvolume_empty_invalid] at hv
        cases hv

/-- C25, evaluated where it breaks: the empty array is accepted by `get_volume_arg`,
`AddEntry` with it for the stored and mirrored entry of the role `"music"` stops at the
assertion of `ext_set_route_volume_by_name`, and the `Volume` setter with it on the
entry `"phone"`, which has a route volume, stops at the assertion of
`ext_set_route_volume`; `AddEntry` for a new name and the `Volume` setter on an entry
without route volume run to completion. -/
theorem empty_volume_array_asserts :
    get_volume_arg [] = some (⟨[]⟩, ⟨[]⟩) ∧
    handle_add_entry 1 music_state "sink-input-by-media-role:music" [115] [] true false
      = none ∧
    handle_entry_set_volume 1 phone_stored_state ⟨"phone", 0⟩ [] = none ∧
    (handle_add_entry 1 music_state "other" [115] [] true false).isSome = true ∧
    (handle_entry_set_volume 1 music_state ⟨"sink-input-by-media-role:music", 0⟩ []).isSome
      = true :=
  ⟨by decide, by decide, by decide, by decide, by decide⟩

end StreamRestore

namespace SharedData

open shared_item_type Ptr

/-! ## Reads that create items -/

theorem hashmap_get_put_ne {t : pa_shared_data} {k : String} {j : shared_item}
    (hk : j.key ≠ k) : pa_hashmap_get (item_put t j) k = pa_hashmap_get t k := by
  induction t with
  | nil => rfl
  | cons a rest ih =>
    unfold item_put
    by_cases ha : a.key = j.key
    · rw [if_pos ha, hashmap_get_cons_neg hk, hashmap_get_cons_neg (by rw [ha]; exact hk)]
    · rw [if_neg ha]
      by_cases hak : a.key = k
      · rw [hashmap_get_cons_pos hak, hashmap_get_cons_pos hak]
      · rw [hashmap_get_cons_neg hak, hashmap_get_cons_neg hak, ih]

theorem keeps_items_refl (t : pa_shared_data) : keeps_items t t :=
  fun _ i hi => ⟨i, hi, rfl, rfl, rfl⟩

theorem keeps_items_item_get (t : pa_shared_data) (key : String) :
    keeps_items t (item_get t key).2 := by
  cases hg : pa_hashmap_get t key with
  | some i =>
    rw [item_get_some hg]
    exact keeps_items_refl t
  | none =>
    rw [item_get_none hg]
    intro k i hi
    refine ⟨i, ?_, rfl, rfl, rfl⟩
    unfold pa_hashmap_get at hi ⊢
    rw [List.find?_append, hi]
    rfl

theorem has_key_iff (t : pa_shared_data) (key : String) :
    pa_shared_data_has_key t key = true ↔ ∃ i ∈ t, i.key = key := by
  unfold pa_shared_data_has_key pa_hashmap_get
  rw [List.find?_isSome]
  simp

/-- C26 (existence check and read side effects): `pa_shared_data_has_key` (a function
of the store alone) is true exactly when the store holds an item of the key;
`pa_shared_data_get_integer` returns the store as it was; on a key without item,
`pa_shared_data_connect`, `pa_shared_data_get_boolean`, `pa_shared_data_gets` and, for
a key that passes the validation, `pa_shared_data_getd` append the item that
`pa_xnew0` leaves (type none, `NULL` value, byte length 0; `connect` adds its slot to
the hook), after which `pa_shared_data_has_key` is true; and each item of the store
keeps its type, value and byte length through these four calls. -/
theorem read_side_effects (h : Host) (t : pa_shared_data) (key : String) :
    (pa_shared_data_has_key t key = true ↔ ∃ i ∈ t, i.key = key) ∧
      (∀ r, pa_shared_data_get_integer h t key = some r → r.store = t) ∧
      (pa_shared_data_has_key t key = false →
        (pa_shared_data_connect t key).store = t ++ [⟨key, NONE, word 0, 0, 1⟩] ∧
          pa_shared_data_get_boolean t key
            = some ⟨false, t ++ [⟨key, NONE, word 0, 0, 0⟩], []⟩ ∧
          pa_shared_data_gets t key = ⟨word 0, t ++ [⟨key, NONE, word 0, 0, 0⟩], []⟩ ∧
          (h.pa_proplist_key_valid key = true →
            pa_shared_data_getd h t key
              = ⟨(0, some (word 0, 0)), t ++ [⟨key, NONE, word 0, 0, 0⟩], []⟩) ∧
          pa_shared_data_has_key (t ++ [⟨key, NONE, word 0, 0, 1⟩]) key = true ∧
          pa_shared_data_has_key (t ++ [⟨key, NONE, word 0, 0, 0⟩]) key = true) ∧
      keeps_items t (pa_shared_data_connect t key).store ∧
      (∀ r, pa_shared_data_get_boolean t key = some r → keeps_items t r.store) ∧
      keeps_items t (pa_shared_data_gets t key).store ∧
      keeps_items t (pa_shared_data_getd h t key).store := by
  refine ⟨has_key_iff t key, ?_, ?_, ?_, ?_, ?_, ?_⟩
  · intro r hr
    unfold pa_shared_data_get_integer at hr
    split at hr
    · cases hr
      rfl
    · split at hr
      · cases hr
        rfl
      · rename_i i hg
        rw [item_get_some hg] at hr
        dsimp only at hr
        split at hr
        · cases hr
          rfl
        · obtain ⟨v, _, hr⟩ := Option.bind_eq_some.mp hr
          cases hr
          rfl
  · intro hk
    have hg : pa_hashmap_get t key = none := by
      unfold pa_shared_data_has_key at hk
      cases hget : pa_hashmap_get t key with
      | none => rfl
      | some i => rw [hget] at hk; cases hk
    have happ : ∀ n, pa_shared_data_has_key (t ++ [⟨key, NONE, word 0, 0, n⟩]) key = true := by
      intro n
      unfold pa_shared_data_has_key
      rw [hashmap_get_append _ hg rfl]
      rfl
    refine ⟨?_, ?_, ?_, ?_, happ 1, happ 0⟩
    · unfold pa_shared_data_connect
      rw [item_get_none hg]
      dsimp only
      have hput : ∀ (l : pa_shared_data), pa_hashmap_get l key = none →
          item_put (l ++ [⟨key, NONE, word 0, 0, 0⟩]) ⟨key, NONE, word 0, 0, 0 + 1⟩
            = l ++ [⟨key, NONE, word 0, 0, 1⟩] := by
        intro l
        induction l with
        | nil => intro _; simp [item_put]
        | cons a rest ih =>
          intro hl
          have ha : a.key ≠ key := by
            intro heq
            rw [hashmap_get_cons_pos heq] at hl
            cases hl
          rw [hashmap_get_cons_neg ha] at hl
          rw [List.cons_append]
          show (if a.key = key then _ else a :: item_put _ _) = _
          rw [if_neg ha, ih hl]
          rfl
      exact hput t hg
    · unfold pa_shared_data_get_boolean
      rw [item_get_none hg]
      rfl
    · unfold pa_shared_data_gets
      rw [item_get_none hg]
      rfl
    · intro hv
      unfold pa_shared_data_getd
      rw [item_get_none hg]
      simp [hv]
  · unfold pa_shared_data_connect
    intro k i hi
    have hki : i.key = k := hashmap_get_key hi
    obtain ⟨j, hj, h1, h2, h3⟩ := keeps_items_item_get t key k i hi
    by_cases hk : key = k
    · subst hk
      have hspec := item_get_spec t key
      rw [hj] at hspec
      simp only [Option.some.injEq] at hspec
      refine ⟨{ (item_get t key).1 with changed_hook := (item_get t key).1.changed_hook + 1 },
        hashmap_get_put (item_get_spec t key).1 (item_get_spec t key).2, ?_, ?_, ?_⟩
      · rw [← hspec.1]; exact h1
      · rw [← hspec.1]; exact h2
      · rw [← hspec.1]; exact h3
    · refine ⟨j, ?_, h1, h2, h3⟩
      rw [hashmap_get_put_ne (by rw [(item_get_spec t key).2]; exact hk)]
      exact hj
  · intro r hr
    unfold pa_shared_data_get_boolean at hr
    have hkeep := keeps_items_item_get t key
    dsimp only at hr
    split at hr
    · obtain ⟨v, _, hr⟩ := Option.bind_eq_some.mp hr
      cases hr
      exact hkeep
    · split at hr
      · cases hr
        exact hkeep
      · split at hr <;> (cases hr; exact hkeep)
  · unfold pa_shared_data_gets
    dsimp only
    split <;> exact keeps_items_item_get t key
  · unfold pa_shared_data_getd
    split
    · exact keeps_items_refl t
    · exact keeps_items_item_get t key

/-- Witness of C26: the empty store and the key `"k"`. -/
theorem read_side_effects_witness :
    pa_shared_data_has_key [] "k" = false ∧
      pa_shared_data_get_boolean [] "k" = some ⟨false, [] ++ [⟨"k", NONE, word 0, 0, 0⟩], []⟩ ∧
      pa_shared_data_has_key ([] ++ [⟨"k", NONE, word 0, 0, 0⟩]) "k" = true :=
  ⟨rfl, ((read_side_effects pulse [] "k").2.2.1 rfl).2.1,
    ((read_side_effects pulse [] "k").2.2.1 rfl).2.2.2.2.2⟩

end SharedData

namespace MainVolume

/-! ## Parsing of step strings -/

theorem dropWhile_ne_append (c : Char) (l r : List Char) (hl : c ∉ l) :
    (l ++ c :: r).dropWhile (fun a => a != c) = c :: r := by
  induction l with
  | nil => simp [List.dropWhile]
  | cons a l ih =>
    have ha : a ≠ c := fun h => hl (by simp [h])
    have hl2 : c ∉ l := fun h => hl (List.mem_cons_of_mem _ h)
    simp [List.dropWhile_cons, ha, ih hl2]

theorem dropWhile_ne_all (c : Char) (l : List Char) (hl : c ∉ l) :
    l.dropWhile (fun a => a != c) = [] := by
  induction l with
  | nil => rfl
  | cons a l ih =>
    have ha : a ≠ c := fun h => hl (by simp [h])
    have hl2 : c ∉ l := fun h => hl (List.mem_cons_of_mem _ h)
    simp [List.dropWhile_cons, ha, ih hl2]

/-- The value of a pair ends at the end of the text or at the next comma. -/
theorem takeWhile_value (v t : List Char) (hv : ',' ∉ v) (ht : t = [] ∨ ∃ r, t = ',' :: r) :
    (v ++ t).takeWhile (fun a => a != ',') = v ∧ (v ++ t).dropWhile (fun a => a != ',') = t := by
  induction v with
  | nil =>
    rcases ht with rfl | ⟨r, rfl⟩
    · exact ⟨rfl, rfl⟩
    · simp [List.takeWhile, List.dropWhile]
  | cons a v ih =>
    have ha : a ≠ ',' := fun h => hv (by simp [h])
    have hv2 : ',' ∉ v := fun h => hv (List.mem_cons_of_mem _ h)
    obtain ⟨h1, h2⟩ := ih hv2
    simp [List.takeWhile_cons, List.dropWhile_cons, ha, h1, h2]

/-- One round of the loop on a well-formed pair. -/
theorem parse_loop_pair (M : Nat) (atoi : List Char → Option Int) (fuel : Nat)
    (l v t : List Char) (x : Int) (count : Nat) (st : List Int)
    (hl : ':' ∉ l) (hv : ',' ∉ v) (h1 : 1 ≤ v.length) (h15 : v.length ≤ 15)
    (hx : atoi v = some x) (ht : t = [] ∨ ∃ r, t = ',' :: r) (hc : count < M) :
    parse_loop M atoi (fuel + 1) (l ++ ':' :: (v ++ t)) count st
      = parse_loop M atoi fuel t (count + 1) (st ++ [x]) := by
  obtain ⟨htake, hdrop⟩ := takeWhile_value v t hv ht
  have hne : l ++ ':' :: (v ++ t) ≠ [] := by simp
  rw [parse_loop]
  rw [if_pos ⟨hne, hc⟩]
  simp only [dropWhile_ne_append ':' l (v ++ t) hl, List.tail_cons, htake, hdrop]
  rw [if_neg (by simp), if_neg (by omega)]
  simp only [hx]

/-- A defective rest: rounds on a text without colon, or on a pair whose value is
empty, too long or refused, return 0. -/
theorem parse_loop_no_colon (M : Nat) (atoi : List Char → Option Int) (fuel : Nat)
    (r : List Char) (count : Nat) (st : List Int) (hr : ':' ∉ r) (hne : r ≠ [])
    (hc : count < M) : parse_loop M atoi (fuel + 1) r count st = some (0, st) := by
  rw [parse_loop]
  rw [if_pos ⟨hne, hc⟩]
  simp only [dropWhile_ne_all ':' r hr, if_true]

theorem parse_loop_bad_value (M : Nat) (atoi : List Char → Option Int) (fuel : Nat)
    (l v t : List Char) (count : Nat) (st : List Int)
    (hl : ':' ∉ l) (hv : ',' ∉ v) (ht : t = [] ∨ ∃ r, t = ',' :: r) (hc : count < M)
    (hbad : v.length < 1 ∨ 15 < v.length ∨ atoi v = none) :
    parse_loop M atoi (fuel + 1) (l ++ ':' :: (v ++ t)) count st = some (0, st) := by
  obtain ⟨htake, hdrop⟩ := takeWhile_value v t hv ht
  have hne : l ++ ':' :: (v ++ t) ≠ [] := by simp
  rw [parse_loop]
  rw [if_pos ⟨hne, hc⟩]
  simp only [dropWhile_ne_append ':' l (v ++ t) hl, List.tail_cons, htake, hdrop]
  rw [if_neg (by simp)]
  by_cases hlen : v.length < 1 ∨ v.length > 15
  · rw [if_pos hlen]
  · rw [if_neg hlen]
    have hnone : atoi v = none := by
      rcases hbad with h | h | h
      · exact absurd (Or.inl h) hlen
      · exact absurd (Or.inr h) hlen
      · exact h
    simp only [hnone]

/-- The loop stops when the counter has reached `MAX_STEPS` or the text is used up. -/
theorem parse_loop_stop (M : Nat) (atoi : List Char → Option Int) (fuel : Nat)
    (rest : List Char) (count : Nat) (st : List Int) (h : rest = [] ∨ M ≤ count) :
    parse_loop M atoi (fuel + 1) rest count st = some (count, st) := by
  rw [parse_loop]
  rw [if_neg]
  rintro ⟨h1, h2⟩
  rcases h with h | h
  · exact h1 h
  · omega

theorem steps_text_cons (p : step_pair) (ps : List step_pair) (hps : ps ≠ []) :
    steps_text (p :: ps) = p.label ++ ':' :: (p.value ++ ',' :: steps_text ps) := by
  cases ps with
  | nil => exact absurd rfl hps
  | cons q qs => simp [steps_text]

theorem steps_text_length (ps : List step_pair) : ps.length ≤ (steps_text ps).length := by
  induction ps with
  | nil => simp
  | cons p ps ih =>
    cases ps with
    | nil =>
      simp only [steps_text, List.length_append, List.length_cons, List.length_nil]
      omega
    | cons q qs =>
      rw [steps_text_cons p (q :: qs) (by simp)]
      simp only [List.length_append, List.length_cons] at ih ⊢
      omega

/-- The rounds on a list of well-formed pairs that are followed by the end of the
text or by a comma: one value is stored per round. -/
theorem parse_loop_pairs (M : Nat) (atoi : List Char → Option Int) :
    ∀ (ps : List step_pair) (pre t : List Char) (fuel count : Nat) (st : List Int),
      ps ≠ [] → (∀ p ∈ ps, step_pair_ok atoi p) → ':' ∉ pre →
      (t = [] ∨ ∃ r, t = ',' :: r) → count + ps.length ≤ M →
      parse_loop M atoi (fuel + ps.length) (pre ++ (steps_text ps ++ t)) count st
        = parse_loop M atoi fuel t (count + ps.length) (st ++ ps.map step_pair.mB) := by
  intro ps
  induction ps with
  | nil => intro _ _ _ _ _ h; exact absurd rfl h
  | cons p ps ih =>
    intro pre t fuel count st _ hok hpre ht hc
    obtain ⟨hl, hv, h1, h15, hx⟩ := hok p (List.mem_cons_self _ _)
    have hlab : ':' ∉ pre ++ p.label := by
      simp only [List.mem_append, not_or]
      exact ⟨hpre, hl⟩
    simp only [List.length_cons] at hc
    cases hps : ps with
    | nil =>
      have e : pre ++ (steps_text [p] ++ t) = (pre ++ p.label) ++ ':' :: (p.value ++ t) := by
        simp [steps_text]
      rw [e]
      exact parse_loop_pair M atoi fuel _ _ t p.mB count st hlab hv h1 h15 hx ht (by omega)
    | cons q qs =>
      rw [← hps]
      have hne : ps ≠ [] := by rw [hps]; simp
      have e : pre ++ (steps_text (p :: ps) ++ t)
          = (pre ++ p.label) ++ ':' :: (p.value ++ ([','] ++ (steps_text ps ++ t))) := by
        rw [steps_text_cons p ps hne]
        simp
      have ef : fuel + (p :: ps).length = (fuel + ps.length) + 1 := by
        simp only [List.length_cons]
        omega
      have step := parse_loop_pair M atoi (fuel + ps.length) (pre ++ p.label) p.value
        ([','] ++ (steps_text ps ++ t)) p.mB count st hlab hv h1 h15 hx (Or.inr ⟨_, rfl⟩)
        (by omega)
      rw [e, ef, step]
      rw [ih [','] t fuel (count + 1) (st ++ [p.mB]) hne
        (fun r hr => hok r (List.mem_cons_of_mem _ hr)) (by simp) ht (by omega)]
      simp only [List.length_cons, List.map_cons, List.append_assoc, List.singleton_append]
      congr 1
      omega

end MainVolume

namespace MainVolume

theorem steps_text_append (a b : List step_pair) (ha : a ≠ []) (hb : b ≠ []) :
    steps_text (a ++ b) = steps_text a ++ ',' :: steps_text b := by
  induction a with
  | nil => exact absurd rfl ha
  | cons p a ih =>
    cases a with
    | nil =>
      rw [List.singleton_append, steps_text_cons p b hb]
      simp [steps_text]
    | cons q qs =>
      rw [List.cons_append, steps_text_cons p _ (by simp), ih (by simp),
        steps_text_cons p (q :: qs) (by simp)]
      simp

/-- All pairs are read when `MAX_STEPS` allows it and the text ends after them. -/
theorem parse_loop_all (M : Nat) (atoi : List Char → Option Int) (ps : List step_pair)
    (fuel : Nat) (hok : ∀ p ∈ ps, step_pair_ok atoi p) (hk : ps.length ≤ M)
    (hf : ps.length < fuel) :
    parse_loop M atoi fuel (steps_text ps) 0 [] = some (ps.length, ps.map step_pair.mB) := by
  obtain ⟨f, rfl⟩ : ∃ f, fuel = f + 1 + ps.length := ⟨fuel - 1 - ps.length, by omega⟩
  by_cases hps : ps = []
  · subst hps
    exact parse_loop_stop M atoi f [] 0 [] (Or.inl rfl)
  · have h := parse_loop_pairs M atoi ps [] [] (f + 1) 0 [] hps hok (by simp) (Or.inl rfl)
      (by omega)
    simp only [List.nil_append, List.append_nil, Nat.zero_add] at h
    rw [h]
    exact parse_loop_stop M atoi f [] _ _ (Or.inl rfl)

/-- Once `MAX_STEPS` values are stored the loop ends, whatever follows in the text. -/
theorem parse_loop_full (M : Nat) (atoi : List Char → Option Int) (ps : List step_pair)
    (t : List Char) (fuel : Nat) (hok : ∀ p ∈ ps, step_pair_ok atoi p) (hk : M ≤ ps.length)
    (ht : t = [] ∨ ∃ r, t = ',' :: r) (hf : M < fuel) :
    parse_loop M atoi fuel (steps_text ps ++ t) 0 []
      = some (M, (ps.map step_pair.mB).take M) := by
  obtain ⟨f, rfl⟩ : ∃ f, fuel = f + 1 + M := ⟨fuel - 1 - M, by omega⟩
  by_cases hM : M = 0
  · subst hM
    exact parse_loop_stop 0 atoi f _ 0 [] (Or.inr (le_refl _))
  · have hlen : (ps.take M).length = M := by
      rw [List.length_take]
      omega
    have hne : ps.take M ≠ [] := by
      intro h
      rw [h] at hlen
      exact hM hlen.symm
    have hoka : ∀ p ∈ ps.take M, step_pair_ok atoi p :=
      fun p hp => hok p (List.mem_of_mem_take hp)
    obtain ⟨t2, ht2, e⟩ : ∃ t2, (t2 = [] ∨ ∃ r, t2 = ',' :: r) ∧
        steps_text ps ++ t = steps_text (ps.take M) ++ t2 := by
      by_cases hb : ps.drop M = []
      · refine ⟨t, ht, ?_⟩
        have := List.take_append_drop M ps
        rw [hb, List.append_nil] at this
        rw [this]
      · refine ⟨',' :: (steps_text (ps.drop M) ++ t), Or.inr ⟨_, rfl⟩, ?_⟩
        have := steps_text_append (ps.take M) (ps.drop M) hne hb
        rw [List.take_append_drop] at this
        rw [this]
        simp
    have h := parse_loop_pairs M atoi (ps.take M) [] t2 (f + 1) 0 [] hne hoka (by simp) ht2
      (by omega)
    simp only [List.nil_append, Nat.zero_add, hlen] at h
    rw [e, h, List.map_take]
    exact parse_loop_stop M atoi f t2 M _ (Or.inr (le_refl _))

/-- A text without colon after fewer than `MAX_STEPS` pairs. -/
theorem parse_loop_then_no_colon (M : Nat) (atoi : List Char → Option Int)
    (ps : List step_pair) (r : List Char) (fuel : Nat)
    (hok : ∀ p ∈ ps, step_pair_ok atoi p) (hk : ps.length < M) (hf : ps.length < fuel)
    (hr : ':' ∉ r) (hne : r ≠ []) (hsep : ps ≠ [] → ∃ q, r = ',' :: q) :
    parse_loop M atoi fuel (steps_text ps ++ r) 0 [] = some (0, ps.map step_pair.mB) := by
  obtain ⟨f, rfl⟩ : ∃ f, fuel = f + 1 + ps.length := ⟨fuel - 1 - ps.length, by omega⟩
  by_cases hps : ps = []
  · subst hps
    exact parse_loop_no_colon M atoi f r 0 [] hr hne hk
  · have h := parse_loop_pairs M atoi ps [] r (f + 1) 0 [] hps hok (by simp)
      (Or.inr (hsep hps)) (by omega)
    simp only [List.nil_append, Nat.zero_add] at h
    rw [h]
    exact parse_loop_no_colon M atoi f r _ _ hr hne (by omega)

/-- A pair with a defective value after fewer than `MAX_STEPS` pairs. -/
theorem parse_loop_then_bad_value (M : Nat) (atoi : List Char → Option Int)
    (ps : List step_pair) (bad : step_pair) (t : List Char) (fuel : Nat)
    (hok : ∀ p ∈ ps, step_pair_ok atoi p) (hk : ps.length < M) (hf : ps.length < fuel)
    (hl : ':' ∉ bad.label) (hv : ',' ∉ bad.value) (ht : t = [] ∨ ∃ r, t = ',' :: r)
    (hbad : bad.value.length < 1 ∨ 15 < bad.value.length ∨ atoi bad.value = none) :
    parse_loop M atoi fuel (steps_text (ps ++ [bad]) ++ t) 0 []
      = some (0, ps.map step_pair.mB) := by
  obtain ⟨f, rfl⟩ : ∃ f, fuel = f + 1 + ps.length := ⟨fuel - 1 - ps.length, by omega⟩
  by_cases hps : ps = []
  · subst hps
    have e : steps_text ([] ++ [bad]) ++ t = bad.label ++ ':' :: (bad.value ++ t) := by
      simp [steps_text]
    rw [e]
    exact parse_loop_bad_value M atoi f _ _ t 0 [] hl hv ht hk hbad
  · have e : steps_text (ps ++ [bad]) ++ t
        = steps_text ps ++ ((',' :: bad.label) ++ ':' :: (bad.value ++ t)) := by
      rw [steps_text_append ps [bad] hps (by simp)]
      simp [steps_text]
    have h := parse_loop_pairs M atoi ps [] ((',' :: bad.label) ++ ':' :: (bad.value ++ t))
      (f + 1) 0 [] hps hok (by simp) (Or.inr ⟨_, rfl⟩) (by omega)
    simp only [List.nil_append, Nat.zero_add] at h
    rw [e, h]
    exact parse_loop_bad_value M atoi f (',' :: bad.label) bad.value t _ _
      (by simp [hl]) hv ht (by omega) hbad

/-- The loop ends within as many rounds as the text has characters, returns at most
`MAX_STEPS`, assigns one cell per round from index 0 on, and returns either 0 or the
number of assigned cells. -/
theorem parse_loop_total (M : Nat) (atoi : List Char → Option Int) :
    ∀ (fuel : Nat) (rest : List Char) (count : Nat) (st : List Int),
      rest.length < fuel → st.length = count → count ≤ M →
      ∃ r, parse_loop M atoi fuel rest count st = some r ∧ r.1 ≤ M ∧ r.2.length ≤ M ∧
        (r.1 = 0 ∨ r.2.length = r.1) ∧ r.1 ≤ count + rest.length := by
  intro fuel
  induction fuel with
  | zero => intro rest _ _ h; omega
  | succ fuel ih =>
    intro rest count st hf hst hc
    rw [parse_loop]
    by_cases hcond : rest ≠ [] ∧ count < M
    · rw [if_pos hcond]
      dsimp only
      by_cases h1 : List.dropWhile (fun c => c != ':') rest = []
      · rw [if_pos h1]
        exact ⟨_, rfl, Nat.zero_le _, by simp only; omega, Or.inl rfl, Nat.zero_le _⟩
      · rw [if_neg h1]
        split
        · exact ⟨_, rfl, Nat.zero_le _, by simp only; omega, Or.inl rfl, Nat.zero_le _⟩
        · split
          · exact ⟨_, rfl, Nat.zero_le _, by simp only; omega, Or.inl rfl, Nat.zero_le _⟩
          · have hd1 := (List.dropWhile_sublist (fun c => c != ':') (l := rest)).length_le
            have hd2 := (List.dropWhile_sublist (fun c => c != ',')
              (l := (List.dropWhile (fun c => c != ':') rest).tail)).length_le
            have hpos : 0 < (List.dropWhile (fun c => c != ':') rest).length :=
              List.length_pos.mpr h1
            have htl := List.length_tail (List.dropWhile (fun c => c != ':') rest)
            obtain ⟨r, hr, h2, h3, h4, h5⟩ :=
              ih (List.dropWhile (fun c => c != ',') (List.dropWhile (fun c => c != ':') rest).tail)
                (count + 1) (st ++ [_]) (by omega) (by simp [hst]) (by omega)
            exact ⟨r, hr, h2, h3, h4, by omega⟩
    · rw [if_neg hcond]
      exact ⟨_, rfl, hc, by simp only; omega, Or.inr hst, by simp only; omega⟩

theorem parse_single_steps_some (M : Nat) (atoi : List Char → Option Int) (s : List Char)
    (hs : s.length < 4294967296) :
    parse_single_steps M atoi (some s) = parse_loop M atoi (s.length + 1) s 0 [] := by
  unfold parse_single_steps
  simp only [Nat.mod_eq_of_lt hs, List.take_length]

theorem parse_single_steps_total (M : Nat) (atoi : List Char → Option Int)
    (s : Option (List Char)) :
    ∃ r, parse_single_steps M atoi s = some r ∧ r.1 ≤ M ∧ r.2.length ≤ M ∧
      (r.1 = 0 ∨ r.2.length = r.1) ∧ r.1 < 4294967296 := by
  cases s with
  | none => exact ⟨(0, []), rfl, Nat.zero_le _, Nat.zero_le _, Or.inl rfl, by decide⟩
  | some s =>
    unfold parse_single_steps
    have hlen := List.length_take_le (s.length % 4294967296) s
    have hmod : s.length % 4294967296 < 4294967296 := Nat.mod_lt _ (by decide)
    obtain ⟨r, hr, h1, h2, h3, h4⟩ := parse_loop_total M atoi (s.length % 4294967296 + 1)
      (s.take (s.length % 4294967296)) 0 [] (by omega) rfl (Nat.zero_le _)
    exact ⟨r, hr, h1, h2, h3, by omega⟩

end MainVolume

namespace MainVolume

theorem getLast?_dropWhile (p : Char → Bool) (l : List Char) (h : l.dropWhile p ≠ []) :
    (l.dropWhile p).getLast? = l.getLast? := by
  induction l with
  | nil => exact absurd rfl h
  | cons a l ih =>
    rw [List.dropWhile_cons] at h ⊢
    by_cases hp : p a = true
    · rw [if_pos hp] at h ⊢
      rw [ih h]
      cases l with
      | nil => exact absurd rfl h
      | cons b l => rw [List.getLast?_cons_cons]
    · rw [if_neg hp]

theorem dropWhile_ne_head (c x : Char) (l tl : List Char)
    (h : l.dropWhile (fun a => a != c) = x :: tl) : x = c := by
  induction l with
  | nil => cases h
  | cons a l ih =>
    rw [List.dropWhile_cons] at h
    by_cases hp : (a != c) = true
    · rw [if_pos hp] at h
      exact ih h
    · rw [if_neg hp] at h
      simp only [bne_iff_ne, ne_eq, not_not] at hp
      cases h
      exact hp

/-- On a text that ends in a comma the loop never meets the end of the text after a
value: it returns 0 or ends because the counter has reached `MAX_STEPS`. -/
theorem parse_loop_trailing_comma (M : Nat) (atoi : List Char → Option Int) :
    ∀ (fuel : Nat) (rest : List Char) (count : Nat) (st : List Int),
      rest.length < fuel → rest.getLast? = some ',' →
      ∃ r, parse_loop M atoi fuel rest count st = some r ∧ (r.1 = 0 ∨ M ≤ r.1) := by
  intro fuel
  induction fuel with
  | zero => intro rest _ _ h; omega
  | succ fuel ih =>
    intro rest count st hf hlast
    have hne : rest ≠ [] := by
      intro h
      rw [h] at hlast
      cases hlast
    rw [parse_loop]
    by_cases hcond : rest ≠ [] ∧ count < M
    · rw [if_pos hcond]
      dsimp only
      by_cases h1 : List.dropWhile (fun c => c != ':') rest = []
      · rw [if_pos h1]
        exact ⟨_, rfl, Or.inl rfl⟩
      · rw [if_neg h1]
        split
        · exact ⟨_, rfl, Or.inl rfl⟩
        · split
          · exact ⟨_, rfl, Or.inl rfl⟩
          · have hd1 := (List.dropWhile_sublist (fun c => c != ':') (l := rest)).length_le
            have hl1 := getLast?_dropWhile (fun c => c != ':') rest h1
            rw [hlast] at hl1
            cases hd : List.dropWhile (fun c => c != ':') rest with
            | nil => exact absurd hd h1
            | cons x tl =>
              have hx : x = ':' := dropWhile_ne_head ':' x rest tl hd
              rw [hd] at hl1 hd1
              have htl : tl.getLast? = some ',' := by
                cases tl with
                | nil =>
                  rw [hx] at hl1
                  simp at hl1
                | cons y ys => rw [List.getLast?_cons_cons] at hl1; exact hl1
              have hmem : ',' ∈ tl := List.mem_of_getLast?_eq_some htl
              have h2 : List.dropWhile (fun c => c != ',') tl ≠ [] := by
                intro h
                have := (List.dropWhile_eq_nil_iff.mp h) ',' hmem
                simp at this
              have hl2 := getLast?_dropWhile (fun c => c != ',') tl h2
              have hd2 := (List.dropWhile_sublist (fun c => c != ',') (l := tl)).length_le
              simp only [List.length_cons] at hd1
              simp only [List.tail_cons]
              exact ih _ (count + 1) _ (by omega) (by rw [hl2]; exact htl)
    · rw [if_neg hcond]
      refine ⟨_, rfl, Or.inr ?_⟩
      by_contra hlt
      exact hcond ⟨hne, by omega⟩

end MainVolume

namespace MainVolume

set_option maxRecDepth 100000 in
/-- C27 fails as stated: a trailing comma, a rest without colon and a defective value do
not make `parse_single_steps` return 0 when `MAX_STEPS` values are stored before the
loop reaches them.  With `MAX_STEPS` pairs in front the return value is `MAX_STEPS`,
here for `MAX_STEPS` 1, 2 and 64. -/
theorem trailing_text_after_max_steps :
    parse_single_steps 1 digits_atoi (some "a:1,".data) = some (1, [1]) ∧
      parse_single_steps 2 digits_atoi (some "a:1,b:2,".data) = some (2, [1, 2]) ∧
      parse_single_steps 2 digits_atoi (some "a:1,b:2,c".data) = some (2, [1, 2]) ∧
      parse_single_steps 2 digits_atoi (some "a:1,b:2,c:".data) = some (2, [1, 2]) ∧
      parse_single_steps 2 digits_atoi (some "a:1,b:2,c:x".data) = some (2, [1, 2]) ∧
      parse_single_steps 64 digits_atoi (some (List.replicate 64 "a:1,".data).flatten)
        = some (64, List.replicate 64 1) ∧
      (List.replicate 64 "a:1,".data).flatten.getLast? = some ',' :=
  ⟨by decide, by decide, by decide, by decide, by decide, by decide, by decide⟩

/-- C27 (step-string parsing, amended): `parse_single_steps` returns a result on every
argument, at most `MAX_STEPS`, with at most `MAX_STEPS` cells of `steps_mB` assigned
(the cells 0, 1, ... in order); it returns 0 on `NULL` and on the empty string.  On a
string shorter than `2^32` characters: the text of `k` well-formed pairs gives
`min k MAX_STEPS` and the first `min k MAX_STEPS` values; with at least `MAX_STEPS`
pairs in front, whatever follows the next comma is not looked at; after fewer than
`MAX_STEPS` pairs, a rest without colon (a trailing comma among them) and a pair whose
value is empty, longer than 15 characters or refused by `pa_atoi` give 0; and a string
ending in a comma gives 0 or `MAX_STEPS`. -/
theorem parse_single_steps_spec (M : Nat) (atoi : List Char → Option Int) :
    parse_single_steps M atoi none = some (0, []) ∧
      parse_single_steps M atoi (some []) = some (0, []) ∧
      (∀ s, ∃ r, parse_single_steps M atoi s = some r ∧ r.1 ≤ M ∧ r.2.length ≤ M) ∧
      (∀ (ps : List step_pair) (s : List Char),
        (∀ p ∈ ps, step_pair_ok atoi p) → s.length < 4294967296 →
        (s = steps_text ps →
          parse_single_steps M atoi (some s)
            = some (min ps.length M, (ps.map step_pair.mB).take M)) ∧
        (M ≤ ps.length → ∀ t, s = steps_text ps ++ ',' :: t →
          parse_single_steps M atoi (some s) = some (M, (ps.map step_pair.mB).take M)) ∧
        (ps.length < M → ∀ r, ':' ∉ r → r ≠ [] → (ps ≠ [] → ∃ q, r = ',' :: q) →
          s = steps_text ps ++ r →
          parse_single_steps M atoi (some s) = some (0, ps.map step_pair.mB)) ∧
        (ps.length < M → ∀ (bad : step_pair) (t : List Char), ':' ∉ bad.label →
          ',' ∉ bad.value → (t = [] ∨ ∃ q, t = ',' :: q) →
          (bad.value.length < 1 ∨ 15 < bad.value.length ∨ atoi bad.value = none) →
          s = steps_text (ps ++ [bad]) ++ t →
          parse_single_steps M atoi (some s) = some (0, ps.map step_pair.mB))) ∧
      (∀ s : List Char, s.length < 4294967296 → s.getLast? = some ',' →
        ∃ r, parse_single_steps M atoi (some s) = some r ∧ (r.1 = 0 ∨ r.1 = M)) := by
  refine ⟨rfl, rfl, ?_, ?_, ?_⟩
  · intro s
    obtain ⟨r, hr, h1, h2, _, _⟩ := parse_single_steps_total M atoi s
    exact ⟨r, hr, h1, h2⟩
  · intro ps s hok hs
    rw [parse_single_steps_some M atoi s hs]
    refine ⟨?_, ?_, ?_, ?_⟩
    · intro e
      have hlen := steps_text_length ps
      rw [← e] at hlen
      by_cases hk : ps.length ≤ M
      · rw [Nat.min_eq_left hk, List.take_of_length_le (by rw [List.length_map]; exact hk), e]
        rw [e] at hlen
        exact parse_loop_all M atoi ps _ hok hk (by omega)
      · have hk2 : M ≤ ps.length := by omega
        rw [Nat.min_eq_right hk2]
        have h := parse_loop_full M atoi ps [] (s.length + 1) hok hk2 (Or.inl rfl) (by omega)
        rw [List.append_nil, ← e] at h
        exact h
    · intro hk t e
      have hlen := steps_text_length ps
      have hsl : (steps_text ps).length ≤ s.length := by
        rw [e, List.length_append]
        omega
      have h := parse_loop_full M atoi ps (',' :: t) (s.length + 1) hok hk (Or.inr ⟨_, rfl⟩)
        (by omega)
      rw [← e] at h
      exact h
    · intro hk r hr hne hsep e
      have hlen := steps_text_length ps
      have hsl : (steps_text ps).length ≤ s.length := by
        rw [e, List.length_append]
        omega
      have h := parse_loop_then_no_colon M atoi ps r (s.length + 1) hok hk (by omega) hr hne hsep
      rw [← e] at h
      exact h
    · intro hk bad t hl hv ht hbad e
      have hlen := steps_text_length (ps ++ [bad])
      have hsl : (steps_text (ps ++ [bad])).length ≤ s.length := by
        rw [e, List.length_append]
        omega
      rw [List.length_append] at hlen
      have h := parse_loop_then_bad_value M atoi ps bad t (s.length + 1) hok hk (by omega)
        hl hv ht hbad
      rw [← e] at h
      exact h
  · intro s hs hlast
    rw [parse_single_steps_some M atoi s hs]
    obtain ⟨r, hr, h0⟩ := parse_loop_trailing_comma M atoi (s.length + 1) s 0 [] (by omega) hlast
    obtain ⟨r2, hr2, hle, _, _, _⟩ := parse_loop_total M atoi (s.length + 1) s 0 [] (by omega) rfl
      (Nat.zero_le _)
    rw [hr] at hr2
    cases hr2
    refine ⟨r, hr, ?_⟩
    rcases h0 with h0 | h0
    · exact Or.inl h0
    · exact Or.inr (by omega)

/-- Witness of C27: the pairs `a:1`, `b:22`, `c:333` with `MAX_STEPS = 2`, the same
pairs with `MAX_STEPS = 4` and a trailing comma, and a third pair with an empty
value. -/
theorem parse_single_steps_spec_witness :
    parse_single_steps 2 digits_atoi (some "a:1,b:22,c:333".data) = some (2, [1, 22]) ∧
      parse_single_steps 4 digits_atoi (some "a:1,b:22,c:333,".data) = some (0, [1, 22, 333]) ∧
      parse_single_steps 4 digits_atoi (some "a:1,b:22,c:".data) = some (0, [1, 22]) :=
  ⟨((parse_single_steps_spec 2 digits_atoi).2.2.2.1
      [⟨"a".data, "1".data, 1⟩, ⟨"b".data, "22".data, 22⟩, ⟨"c".data, "333".data, 333⟩]
      "a:1,b:22,c:333".data (by decide) (by decide)).1 (by decide),
    ((parse_single_steps_spec 4 digits_atoi).2.2.2.1
      [⟨"a".data, "1".data, 1⟩, ⟨"b".data, "22".data, 22⟩, ⟨"c".data, "333".data, 333⟩]
      "a:1,b:22,c:333,".data (by decide) (by decide)).2.2.1 (by decide) ",".data (by decide)
      (by decide) (fun _ => ⟨[], rfl⟩) (by decide),
    ((parse_single_steps_spec 4 digits_atoi).2.2.2.1
      [⟨"a".data, "1".data, 1⟩, ⟨"b".data, "22".data, 22⟩]
      "a:1,b:22,c:".data (by decide) (by decide)).2.2.2 (by decide)
      ⟨"c".data, [], 0⟩ [] (by decide) (by decide) (Or.inl rfl) (Or.inl (by decide))
      (by decide)⟩

end MainVolume

namespace MainVolume

/-! ## The high-volume step -/

theorem digits_atoi_int32 (t : List Char) (v : Int) (h : digits_atoi t = some v) :
    SharedData.is_int32 v := by
  unfold digits_atoi at h
  split at h
  · dsimp only at h
    split at h
    · cases h
      unfold SharedData.is_int32
      simp only [Int.ofNat_eq_coe]
      omega
    · cases h
  · cases h

theorem mapM_option_length {α β : Type} (f : α → Option β) :
    ∀ (l : List α) (r : List β), l.mapM f = some r → r.length = l.length := by
  intro l
  induction l with
  | nil =>
    intro r h
    simp only [List.mapM_nil] at h
    cases h
    rfl
  | cons a l ih =>
    intro r h
    rw [List.mapM_cons] at h
    obtain ⟨b, _, h⟩ := Option.bind_eq_some.mp h
    obtain ⟨bs, hbs, h⟩ := Option.bind_eq_some.mp h
    cases h
    simp [ih bs hbs]

theorem normalize_steps_spec (from_mB : Int → Nat) (steps_mB : List Int) (count : Nat)
    (r : mv_volume_steps) (h : normalize_steps from_mB steps_mB count = some r) :
    0 < count ∧ r.n_steps = count ∧ r.step.length = count ∧ r.current_step = 0 := by
  unfold normalize_steps at h
  split at h
  · rename_i hc
    obtain ⟨step, hstep, h⟩ := Option.bind_eq_some.mp h
    cases h
    have := mapM_option_length _ _ _ hstep
    rw [List.length_range] at this
    exact ⟨hc, rfl, this, rfl⟩
  · cases h

/-- The value of `parse_high_volume_step` on a set whose media table is not empty. -/
theorem parse_high_volume_step_spec (atoi : List Char → Option Int)
    (hatoi : ∀ t v, atoi t = some v → SharedData.is_int32 v) (set : mv_volume_steps_set)
    (high : Option (List Char)) (h1 : 1 ≤ set.media.n_steps)
    (h2 : set.media.n_steps < 4294967296) :
    parse_high_volume_step atoi set high =
      match high with
      | none => (false, false, 0)
      | some text =>
        match atoi text with
        | none => (false, false, 0)
        | some s =>
          if 1 ≤ s ∧ s ≤ (set.media.n_steps : Int) - 1 then (true, true, s.toNat)
          else (false, false, 0) := by
  unfold parse_high_volume_step
  cases high with
  | none => rfl
  | some text =>
    dsimp only
    cases ha : atoi text with
    | none => rfl
    | some s =>
      dsimp only
      have hs := hatoi text s ha
      unfold SharedData.is_int32 at hs
      have hn : (set.media.n_steps + 4294967296 - 1) % 4294967296 = set.media.n_steps - 1 := by
        omega
      by_cases hlt : s < 1
      · rw [if_pos hlt, if_neg (by omega)]
      · have hmod : s % 4294967296 = s := Int.emod_eq_of_lt (by omega) (by omega)
        rw [if_neg hlt, hmod, hn]
        by_cases hgt : s.toNat > set.media.n_steps - 1
        · rw [if_pos hgt, if_neg (by omega)]
        · rw [if_neg hgt, if_pos (by omega)]

theorem mv_parse_steps_spec (M : Nat) (atoi : List Char → Option Int) (from_mB : Int → Nat)
    (steps : List mv_volume_steps_set) (route : String)
    (call media high : Option (List Char)) (steps2 : List mv_volume_steps_set)
    (h : mv_parse_steps M atoi from_mB steps route call media high = some (true, steps2)) :
    ∃ (c : mv_volume_steps) (m : mv_volume_steps) (count : Nat) (mB : List Int),
      parse_single_steps M atoi media = some (count, mB) ∧
      normalize_steps from_mB mB count = some m ∧
      steps2 = pa_hashmap_put steps ⟨route, c, m,
        (parse_high_volume_step atoi ⟨route, c, m, false, 0, true⟩ high).2.1,
        (parse_high_volume_step atoi ⟨route, c, m, false, 0, true⟩ high).2.2, true⟩ := by
  unfold mv_parse_steps at h
  split at h
  · cases h
  · obtain ⟨⟨cc, cmB⟩, _, h⟩ := Option.bind_eq_some.mp h
    dsimp only at h
    split at h
    · cases h
    · obtain ⟨c, _, h⟩ := Option.bind_eq_some.mp h
      obtain ⟨⟨mc, mmB⟩, hm, h⟩ := Option.bind_eq_some.mp h
      dsimp only at h
      split at h
      · cases h
      · obtain ⟨m, hn, h⟩ := Option.bind_eq_some.mp h
        simp only [Option.some.injEq, Prod.mk.injEq, true_and] at h
        exact ⟨c, m, mc, mmB, hm, hn, h.symm⟩

/-- C28 (high-volume step bounds): on a step set whose media table has at least one
step, `parse_high_volume_step` returns true with `has_high_volume = true` and
`high_volume_step = s` when the text is read by `pa_atoi` as an integer `s` with
`1 ≤ s ≤ media.n_steps - 1`, and false with `has_high_volume = false` and
`high_volume_step = 0` in every other case.  Every set that `mv_parse_steps` builds has a
media table of `n_steps ≥ 1` cells and the two fields as `parse_high_volume_step`
leaves them; when `has_high_volume_step` is set, `mv_safe_step` returns
`high_volume_step - 1` without wrapping, below `media.n_steps - 1` and inside the media
table. -/
theorem high_volume_step_bounds (M : Nat) (atoi : List Char → Option Int)
    (from_mB : Int → Nat) (hatoi : ∀ t v, atoi t = some v → SharedData.is_int32 v) :
    (∀ (set : mv_volume_steps_set) (high : Option (List Char)),
      1 ≤ set.media.n_steps → set.media.n_steps < 4294967296 →
      (∀ (text : List Char) (s : Int), high = some text → atoi text = some s → 1 ≤ s →
        s ≤ (set.media.n_steps : Int) - 1 →
        parse_high_volume_step atoi set high = (true, true, s.toNat)) ∧
      ((¬ ∃ text s, high = some text ∧ atoi text = some s ∧ 1 ≤ s ∧
          s ≤ (set.media.n_steps : Int) - 1) →
        parse_high_volume_step atoi set high = (false, false, 0))) ∧
      (∀ (steps : List mv_volume_steps_set) (route : String)
        (call media high : Option (List Char)) (steps2 : List mv_volume_steps_set),
        mv_parse_steps M atoi from_mB steps route call media high = some (true, steps2) →
        ∃ set, steps2 = pa_hashmap_put steps set ∧ set.route = route ∧
          1 ≤ set.media.n_steps ∧ set.media.step.length = set.media.n_steps ∧
          (set.has_high_volume_step, set.high_volume_step)
            = (parse_high_volume_step atoi set high).2 ∧
          (set.has_high_volume_step = true →
            1 ≤ set.high_volume_step ∧ set.high_volume_step ≤ set.media.n_steps - 1 ∧
            ∀ u : mv_userdata, u.call_active = false → u.current_steps = some set →
              mv_safe_step u = some (set.high_volume_step - 1) ∧
              set.high_volume_step - 1 < set.media.n_steps - 1 ∧
              set.high_volume_step - 1 < set.media.step.length)) := by
  refine ⟨?_, ?_⟩
  · intro set high h1 h2
    have hspec := parse_high_volume_step_spec atoi hatoi set high h1 h2
    refine ⟨?_, ?_⟩
    · intro text s hh ha hs1 hs2
      rw [hspec, hh]
      dsimp only
      rw [ha]
      dsimp only
      rw [if_pos ⟨hs1, hs2⟩]
    · intro hno
      rw [hspec]
      cases high with
      | none => rfl
      | some text =>
        dsimp only
        cases ha : atoi text with
        | none => rfl
        | some s =>
          dsimp only
          rw [if_neg]
          rintro ⟨hs1, hs2⟩
          exact hno ⟨text, s, rfl, ha, hs1, hs2⟩
  · intro steps route call media high steps2 h
    obtain ⟨c, m, count, mB, hparse, hnorm, hput⟩ :=
      mv_parse_steps_spec M atoi from_mB steps route call media high steps2 h
    obtain ⟨hpos, hn, hlen, _⟩ := normalize_steps_spec from_mB mB count m hnorm
    obtain ⟨r, hr, _, _, _, hbound⟩ := parse_single_steps_total M atoi media
    rw [hparse] at hr
    cases hr
    have hn1 : 1 ≤ m.n_steps := by omega
    have hn2 : m.n_steps < 4294967296 := by
      rw [hn]
      exact hbound
    have hspec := parse_high_volume_step_spec atoi hatoi ⟨route, c, m, false, 0, true⟩ high
      hn1 hn2
    refine ⟨_, hput, rfl, hn1, by rw [hlen, hn], rfl, ?_⟩
    intro hhas
    dsimp only at hhas ⊢
    have hval : 1 ≤ (parse_high_volume_step atoi ⟨route, c, m, false, 0, true⟩ high).2.2 ∧
        (parse_high_volume_step atoi ⟨route, c, m, false, 0, true⟩ high).2.2 ≤ m.n_steps - 1 := by
      rw [hspec] at hhas ⊢
      cases high with
      | none => cases hhas
      | some text =>
        dsimp only at hhas ⊢
        cases ha : atoi text with
        | none => rw [ha] at hhas; cases hhas
        | some s =>
          rw [ha] at hhas
          dsimp only at hhas ⊢
          by_cases hs : 1 ≤ s ∧ s ≤ (m.n_steps : Int) - 1
          · rw [if_pos hs]
            dsimp only
            omega
          · rw [if_neg hs] at hhas
            cases hhas
    obtain ⟨hv1, hv2⟩ := hval
    have hsafe : ∀ (u : mv_userdata) (set : mv_volume_steps_set), u.call_active = false →
        u.current_steps = some set → set.has_high_volume_step = true →
        1 ≤ set.high_volume_step → set.high_volume_step < 4294967296 →
        mv_safe_step u = some (set.high_volume_step - 1) := by
      intro u set hcall hcur hh h1 h2
      unfold mv_safe_step
      rw [hcall, hcur]
      simp only [Bool.false_eq_true, if_false, hh, if_true]
      have e : (set.high_volume_step + 4294967296 - 1) % 4294967296
          = set.high_volume_step - 1 := by omega
      rw [e]
    generalize (parse_high_volume_step atoi ⟨route, c, m, false, 0, true⟩ high).2.2 = hv
      at hv1 hv2 ⊢
    generalize (parse_high_volume_step atoi ⟨route, c, m, false, 0, true⟩ high).2.1 = hb
      at hhas ⊢
    refine ⟨hv1, hv2, ?_⟩
    intro u hcall hcur
    exact ⟨hsafe u _ hcall hcur hhas hv1 (by dsimp only; omega), by omega, by omega⟩

/-- Witness of C28: the media steps `a:1,b:2,c:3` with the high-volume step `2`. -/
theorem high_volume_step_bounds_witness :
    mv_parse_steps 64 digits_atoi (fun x => x.toNat) [] "r" (some "a:1,b:2".data)
        (some "a:1,b:2,c:3".data) (some "2".data)
      = some (true, [⟨"r", ⟨[1, 2], 2, 0⟩, ⟨[1, 2, 3], 3, 0⟩, true, 2, true⟩]) ∧
      ∃ set, [⟨"r", ⟨[1, 2], 2, 0⟩, ⟨[1, 2, 3], 3, 0⟩, true, 2, true⟩] = pa_hashmap_put [] set ∧
        set.route = "r" ∧ 1 ≤ set.media.n_steps ∧
        set.media.step.length = set.media.n_steps ∧
        (set.has_high_volume_step, set.high_volume_step)
          = (parse_high_volume_step digits_atoi set (some "2".data)).2 ∧
        (set.has_high_volume_step = true →
          1 ≤ set.high_volume_step ∧ set.high_volume_step ≤ set.media.n_steps - 1 ∧
          ∀ u : mv_userdata, u.call_active = false → u.current_steps = some set →
            mv_safe_step u = some (set.high_volume_step - 1) ∧
            set.high_volume_step - 1 < set.media.n_steps - 1 ∧
            set.high_volume_step - 1 < set.media.step.length) :=
  ⟨by decide, (high_volume_step_bounds 64 digits_atoi (fun x => x.toNat) digits_atoi_int32).2
    [] "r" (some "a:1,b:2".data) (some "a:1,b:2,c:3".data) (some "2".data)
    [⟨"r", ⟨[1, 2], 2, 0⟩, ⟨[1, 2, 3], 3, 0⟩, true, 2, true⟩] (by decide)⟩

end MainVolume

namespace MainVolume

/-! ## The volume-sync muting -/

theorem volume_sync_cb_cases (h : SharedData.Host) (shared : SharedData.pa_shared_data)
    (key : String) (now : Nat) (u u2 : mv_userdata) (ev : List sync_effect)
    (hcb : volume_sync_cb h shared key now u = some (u2, ev)) :
    (u2 = u ∧ ev = [] ∧ ∀ r v, SharedData.pa_shared_data_get_integer h shared key = some r →
        r.ret ≠ (0, some v)) ∨
    ∃ r state, SharedData.pa_shared_data_get_integer h shared key = some r ∧
      r.ret = (0, some state) ∧ u2.prev_state = state ∧
      u2.volume_sync_delay_ms = u.volume_sync_delay_ms ∧
      ((u.prev_state ≠ 0 ∧ state = 0 ∧ u.volume_sync_delay_ms ≠ 0 ∧
          u2.mute_routing_active = u.mute_routing_active ∧
          u2.volume_unmute_time_event.isSome = true) ∨
        (u.prev_state ≠ 0 ∧ state = 0 ∧ u.volume_sync_delay_ms = 0 ∧
          u2.mute_routing_active = false ∧
          u2.volume_unmute_time_event = u.volume_unmute_time_event) ∨
        (u.prev_state = 0 ∧ state ≠ 0 ∧ u2.mute_routing_active = true ∧
          u2.volume_unmute_time_event = none ∧
          (u.volume_unmute_time_event ≠ none → sync_effect.time_free ∈ ev)) ∨
        (((u.prev_state = 0 ∧ state = 0) ∨ (u.prev_state ≠ 0 ∧ state ≠ 0)) ∧
          u2.mute_routing_active = u.mute_routing_active ∧
          u2.volume_unmute_time_event = u.volume_unmute_time_event ∧ ev = [])) := by
  unfold volume_sync_cb at hcb
  cases hg : SharedData.pa_shared_data_get_integer h shared key with
  | none => rw [hg] at hcb; cases hcb
  | some r =>
    rw [hg] at hcb
    dsimp only at hcb
    split at hcb
    · rename_i state hret
      right
      refine ⟨r, state, rfl, hret, ?_⟩
      unfold PA_SAILFISHOS_MEDIA_VOLUME_IN_SYNC at hcb
      by_cases h1 : u.prev_state ≠ 0 ∧ state = 0
      · rw [if_pos h1] at hcb
        by_cases hd : u.volume_sync_delay_ms ≠ 0
        · rw [if_pos hd] at hcb
          unfold volume_sync_delayed_unmute_set at hcb
          cases ht : u.volume_unmute_time_event with
          | none =>
            rw [ht] at hcb
            cases hcb
            exact ⟨rfl, rfl, Or.inl ⟨h1.1, h1.2, hd, rfl, rfl⟩⟩
          | some t =>
            rw [ht] at hcb
            cases hcb
            exact ⟨rfl, rfl, Or.inl ⟨h1.1, h1.2, hd, rfl, rfl⟩⟩
        · rw [if_neg hd] at hcb
          cases hcb
          exact ⟨rfl, rfl, Or.inr (Or.inl ⟨h1.1, h1.2, not_not.mp hd, rfl, rfl⟩)⟩
      · rw [if_neg h1] at hcb
        by_cases h2 : u.prev_state = 0 ∧ state ≠ 0
        · rw [if_pos h2] at hcb
          unfold volume_sync_delayed_unmute_stop at hcb
          cases ht : u.volume_unmute_time_event with
          | none =>
            rw [ht] at hcb
            cases hcb
            exact ⟨rfl, rfl, Or.inr (Or.inr (Or.inl ⟨h2.1, h2.2, rfl, ht,
              fun hc => absurd rfl hc⟩))⟩
          | some t =>
            rw [ht] at hcb
            cases hcb
            refine ⟨rfl, rfl, Or.inr (Or.inr (Or.inl ⟨h2.1, h2.2, rfl, rfl, fun _ => ?_⟩))⟩
            dsimp only
            split <;> simp
        · rw [if_neg h2] at hcb
          cases hcb
          refine ⟨rfl, rfl, Or.inr (Or.inr (Or.inr ⟨?_, rfl, rfl, rfl⟩))⟩
          by_cases hp : u.prev_state = 0
          · exact Or.inl ⟨hp, by_contra (fun hs => h2 ⟨hp, hs⟩)⟩
          · exact Or.inr ⟨hp, fun hs => h1 ⟨hp, hs⟩⟩
    · rename_i hret
      cases hcb
      exact Or.inl ⟨rfl, rfl, fun r2 v hr2 he => by
        cases hr2
        exact hret v he⟩

theorem volume_sync_cb_invariant (h : SharedData.Host) (shared : SharedData.pa_shared_data)
    (key : String) (now : Nat) (u u2 : mv_userdata) (ev : List sync_effect)
    (hcb : volume_sync_cb h shared key now u = some (u2, ev)) (hinv : sync_invariant u) :
    sync_invariant u2 ∧ u2.volume_sync_delay_ms = u.volume_sync_delay_ms := by
  unfold sync_invariant PA_SAILFISHOS_MEDIA_VOLUME_IN_SYNC at hinv ⊢
  obtain ⟨hi1, hi2⟩ := hinv
  rcases volume_sync_cb_cases h shared key now u u2 ev hcb with
    ⟨rfl, _, _⟩ | ⟨r, state, _, _, hp, hd, hcase⟩
  · exact ⟨⟨hi1, hi2⟩, rfl⟩
  · refine ⟨⟨?_, ?_⟩, hd⟩
    · intro hne
      rw [hp] at hne
      rcases hcase with ⟨_, h0, _⟩ | ⟨_, h0, _⟩ | ⟨_, _, hm, ht, _⟩ | ⟨hc, hm, ht, _⟩
      · exact absurd h0 hne
      · exact absurd h0 hne
      · exact ⟨hm, ht⟩
      · rcases hc with ⟨_, h0⟩ | ⟨hp0, _⟩
        · exact absurd h0 hne
        · rw [hm, ht]
          exact hi1 hp0
    · intro hz
      rw [hd] at hz
      obtain ⟨hnt, hiff⟩ := hi2 hz
      rw [hp]
      rcases hcase with ⟨_, _, hdne, _⟩ | ⟨_, h0, _, hm, ht⟩ | ⟨_, hs, hm, ht, _⟩ | ⟨hc, hm, ht, _⟩
      · exact absurd hz hdne
      · rw [ht, hm, h0]
        exact ⟨hnt, by simp⟩
      · rw [ht, hm]
        exact ⟨rfl, by simp [hs]⟩
      · rw [ht, hm]
        refine ⟨hnt, ?_⟩
        rcases hc with ⟨hp0, h0⟩ | ⟨hp0, hs⟩
        · rw [hiff, hp0, h0]
        · rw [hiff]
          exact ⟨fun _ => hs, fun _ => hp0⟩

theorem unmute_cb_invariant (u u2 : mv_userdata) (ev : List sync_effect)
    (hcb : volume_sync_delayed_unmute_cb u = some (u2, ev)) (hinv : sync_invariant u) :
    sync_invariant u2 ∧ u2.volume_sync_delay_ms = u.volume_sync_delay_ms := by
  unfold sync_invariant PA_SAILFISHOS_MEDIA_VOLUME_IN_SYNC at hinv ⊢
  obtain ⟨hi1, hi2⟩ := hinv
  unfold volume_sync_delayed_unmute_cb volume_sync_delayed_unmute_stop at hcb
  cases ht : u.volume_unmute_time_event with
  | none => rw [ht] at hcb; cases hcb
  | some t =>
    rw [ht] at hcb
    cases hcb
    dsimp only
    have hp : u.prev_state = 0 := by
      by_contra hne
      have := (hi1 hne).2
      rw [ht] at this
      cases this
    refine ⟨⟨fun hne => absurd hp hne, ?_⟩, rfl⟩
    intro hz
    have := (hi2 hz).1
    rw [ht] at this
    cases this

theorem sync_run_invariant (h : SharedData.Host) :
    ∀ (evs : List sync_event) (u u2 : mv_userdata), sync_run h evs u = some u2 →
      sync_invariant u → sync_invariant u2 ∧ u2.volume_sync_delay_ms = u.volume_sync_delay_ms := by
  intro evs
  induction evs with
  | nil =>
    intro u u2 hrun hinv
    cases hrun
    exact ⟨hinv, rfl⟩
  | cons e es ih =>
    intro u u2 hrun hinv
    unfold sync_run at hrun
    cases hs : sync_step h u e with
    | none => rw [hs] at hrun; cases hrun
    | some u1 =>
      rw [hs] at hrun
      dsimp only at hrun
      have hstep : sync_invariant u1 ∧ u1.volume_sync_delay_ms = u.volume_sync_delay_ms := by
        cases e with
        | changed shared key now =>
          unfold sync_step at hs
          obtain ⟨⟨u1b, ev⟩, hcb, he⟩ := Option.map_eq_some'.mp hs
          cases he
          exact volume_sync_cb_invariant h shared key now u _ ev hcb hinv
        | expired =>
          unfold sync_step at hs
          obtain ⟨⟨u1b, ev⟩, hcb, he⟩ := Option.map_eq_some'.mp hs
          cases he
          exact unmute_cb_invariant u _ ev hcb hinv
      obtain ⟨h1, h2⟩ := ih u1 u2 hrun hstep.1
      exact ⟨h1, by rw [h2, hstep.2]⟩

/-- C29 (volume-sync muting): from a state with `prev_state = IN_SYNC`, no mute and no
unmute timer, after every sequence of change notifications and timer expiries that the
module runs through, a `prev_state` other than `IN_SYNC` comes with
`mute_routing_active` and without pending timer, and with `unmute_delay = 0` the mute
is active exactly when `prev_state` is not `IN_SYNC`.  `prev_state` is the last value
that `volume_sync_cb` has read: a notification whose read fails changes nothing, every
other one stores the value read; leaving the sync state frees a pending timer. -/
theorem volume_sync_muting (h : SharedData.Host) (u0 u : mv_userdata)
    (evs : List sync_event)
    (h0 : u0.prev_state = PA_SAILFISHOS_MEDIA_VOLUME_IN_SYNC)
    (h1 : u0.mute_routing_active = false) (h2 : u0.volume_unmute_time_event = none)
    (hrun : sync_run h evs u0 = some u) :
    (u.prev_state ≠ PA_SAILFISHOS_MEDIA_VOLUME_IN_SYNC →
      u.mute_routing_active = true ∧ u.volume_unmute_time_event = none) ∧
      (u0.volume_sync_delay_ms = 0 →
        (u.mute_routing_active = true ↔ u.prev_state ≠ PA_SAILFISHOS_MEDIA_VOLUME_IN_SYNC)) ∧
      (∀ shared key now u2 ev, volume_sync_cb h shared key now u = some (u2, ev) →
        (u2 = u ∧ ev = [] ∧ ∀ r v, SharedData.pa_shared_data_get_integer h shared key = some r →
          r.ret ≠ (0, some v)) ∨
        ∃ r state, SharedData.pa_shared_data_get_integer h shared key = some r ∧
          r.ret = (0, some state) ∧ u2.prev_state = state ∧
          (u.prev_state = PA_SAILFISHOS_MEDIA_VOLUME_IN_SYNC →
            state ≠ PA_SAILFISHOS_MEDIA_VOLUME_IN_SYNC →
            u.volume_unmute_time_event ≠ none → sync_effect.time_free ∈ ev)) := by
  have hinit : sync_invariant u0 := by
    unfold sync_invariant
    rw [h0, h1, h2]
    simp
  obtain ⟨hinv, hd⟩ := sync_run_invariant h evs u0 u hrun hinit
  unfold sync_invariant at hinv
  refine ⟨hinv.1, ?_, ?_⟩
  · intro hz
    rw [← hd] at hz
    exact (hinv.2 hz).2
  · intro shared key now u2 ev hcb
    rcases volume_sync_cb_cases h shared key now u u2 ev hcb with
      hfail | ⟨r, state, hg, hret, hp, _, hcase⟩
    · exact Or.inl hfail
    · refine Or.inr ⟨r, state, hg, hret, hp, ?_⟩
      unfold PA_SAILFISHOS_MEDIA_VOLUME_IN_SYNC
      intro hp0 hs ht
      rcases hcase with ⟨hne, _⟩ | ⟨hne, _⟩ | ⟨_, _, _, _, hfree⟩ | ⟨hc, _⟩
      · exact absurd hp0 hne
      · exact absurd hp0 hne
      · exact hfree ht
      · rcases hc with ⟨_, hs0⟩ | ⟨hne, _⟩
        · exact absurd hs0 hs
        · exact absurd hp0 hne

/-- Witness of C29: with the default delay of 50 ms the sync value goes to 1, back to 0
and to 2; the timer set at the return to 0 is gone after the third notification. -/
theorem volume_sync_muting_witness :
    sync_run SharedData.pulse
        [.changed (sync_store 1) PA_SAILFISHOS_MEDIA_VOLUME_SYNC 1000,
          .changed (sync_store 0) PA_SAILFISHOS_MEDIA_VOLUME_SYNC 2000,
          .changed (sync_store 2) PA_SAILFISHOS_MEDIA_VOLUME_SYNC 3000] (sync_init 50)
      = some ⟨none, false, false, 0, 2, true, 50, none⟩ ∧
      sync_run SharedData.pulse
        [.changed (sync_store 1) PA_SAILFISHOS_MEDIA_VOLUME_SYNC 1000,
          .changed (sync_store 0) PA_SAILFISHOS_MEDIA_VOLUME_SYNC 2000] (sync_init 50)
      = some ⟨none, false, false, 0, 0, true, 50, some 52000⟩ ∧
      ((2 : Int) ≠ PA_SAILFISHOS_MEDIA_VOLUME_IN_SYNC → true = true ∧ (none : Option Nat) = none) :=
  ⟨by decide, by decide,
    (volume_sync_muting SharedData.pulse (sync_init 50) ⟨none, false, false, 0, 2, true, 50, none⟩
      [.changed (sync_store 1) PA_SAILFISHOS_MEDIA_VOLUME_SYNC 1000,
        .changed (sync_store 0) PA_SAILFISHOS_MEDIA_VOLUME_SYNC 2000,
        .changed (sync_store 2) PA_SAILFISHOS_MEDIA_VOLUME_SYNC 3000]
      rfl rfl rfl (by decide)).1⟩

end MainVolume

namespace MainVolume

/-! ## The reply of `GetAll` -/

/-- C30 (`GetAll` against the single getters): `mainvolume_get_all` replies with the
values of the getters for `InterfaceRevision`, `StepCount`, `CurrentStep`,
`HighVolumeStep` and `MediaState`, and under `CallState` with the value of the
media-state getter.  In the state `foreground_state` the reply has the call state
`"foreground"` where `mainvolume_get_call_state` answers `"inactive"`. -/
theorem get_all_call_state (MEDIA_MAX : Nat) (u : mv_userdata) :
    mainvolume_get_all MEDIA_MAX u = (do
        let rev ← (mainvolume_get_revision u).bind reply_value
        let step_count ← (mainvolume_get_step_count u).bind reply_value
        let current_step ← (mainvolume_get_current_step u).bind reply_value
        let high_volume_step ← (mainvolume_get_high_volume_step u).bind reply_value
        let _call_state ← (mainvolume_get_call_state u).bind reply_value
        let media_state ← (mainvolume_get_media_state MEDIA_MAX u).bind reply_value
        pure (.dict [("InterfaceRevision", rev), ("StepCount", step_count),
          ("CurrentStep", current_step), ("HighVolumeStep", high_volume_step),
          ("CallState", media_state), ("MediaState", media_state)])) ∧
      (mainvolume_get_all 4 foreground_state).bind (dict_value "CallState")
        = some (.string (some "foreground")) ∧
      (mainvolume_get_call_state foreground_state).bind reply_value
        = some (.string (some "inactive")) := by
  refine ⟨?_, by decide, by decide⟩
  unfold mainvolume_get_all mainvolume_get_revision mainvolume_get_step_count
    mainvolume_get_current_step mainvolume_get_high_volume_step mainvolume_get_call_state
    mainvolume_get_media_state
  cases hs : mv_active_steps u with
  | none => simp [reply_value]
  | some steps =>
    cases hm : mv_media_state_from_enum MEDIA_MAX u.notifier_media_state with
    | none =>
      by_cases hh : mv_has_high_volume u = true
      · cases hsafe : mv_safe_step u <;> simp [reply_value, hh, hsafe]
      · simp [reply_value, hh]
    | some state =>
      by_cases hh : mv_has_high_volume u = true
      · cases hsafe : mv_safe_step u <;> simp [reply_value, hh, hsafe]
      · simp [reply_value, hh]

end MainVolume
